import Mathlib

/-!
# Siopao's First Stretch: the fixed-timestep physics loop of `src/Main.cpp`

A shallow embedding of the simulation tick of `main` (lines 325-537) and of
`GetClosestPointAABBCircle` (lines 235-238).

Conventions of the embedding.

* C++ `float` values are rationals (`ℚ`). The tick (`tick` and its phases) is modelled in
  exact arithmetic, with `TIMESTEP = 1/60`: no rounding, no NaN, no infinity. It carries the
  statements about the discrete behaviour of a tick (flags, counters, branches, zero
  velocities).
* Where a statement depends on rounding it is made over binary32 arithmetic instead:
  `f32Round` is IEEE 754 rounding to the nearest binary32 value, ties to even, with gradual
  underflow; overflow to infinity and NaN are not modelled. The definitions whose name ends
  in `F32` round every arithmetic operation once, as a build that evaluates `float`
  expressions in `float` and does not fuse a product with a sum does; comparisons,
  assignments, negation and `Clamp` do no arithmetic. `TIMESTEP_f32` is the constant
  `1 / TARGET_FPS` as the program holds it. The driver loop (`physicsLoop`, `frame`), the
  path of the position through a tick (`tickTailF32`) and the sling mechanic
  (`slingBlockF32`) are modelled this way.
* C++ `int` values (`score`, `death_counter`, `SizeComponent.width/height`) are
  unbounded integers (`ℤ`); `int / int` is truncating division (`Int.tdiv`).
* `Vector2Distance a b <= r` (a square root in `raymath.h`) is tested as
  `Vector2DistanceSqr a b ≤ r * r`, the same test for `r ≥ 0` over exact numbers.
* The globals `score`, `death_counter`, `playerForces` and the components of the
  registry are fields of `World`; `accumulator` is threaded through `physicsLoop`.
  The sprite frame rectangle `frameRec` only ever changes its `x` (the animation
  frame), so its width and height are the constants 64; animation, labels and
  drawing are left out.
* `entt.hpp` is not part of the sources: a view is iterated in the order of the
  platform list, and `initialPlatforms` lists the platforms in creation order.
* The block-scoped locals `initialMousePos`, `currentMousePos` and `force` of the
  sling mechanic (lines 470-472) are declared without an initialiser inside the
  tick: C++ leaves their values indeterminate each time the block is entered, and a tick
  that does not assign them reads whatever their storage holds. `SlingLocals` is that
  content at block entry, a parameter of `slingBlockF32`, and the statements about the
  sling quantify over it. That the content is what the previous grounded tick left there
  is an assumption about the build, which the code relies on and the language does not
  grant; it is written out as a hypothesis wherever a statement spans more than one tick.
  In `World` the three fields of the same names stand for that content in the exact
  model, where `tick` hands it from one tick to the next.
-/

namespace Siopao

/-! ## Constants (lines 10-35, 270-283) -/

def WINDOW_WIDTH : ℚ := 1280
def WINDOW_HEIGHT : ℚ := 720
def TARGET_FPS : ℚ := 60
/-- `TIMESTEP` in the exact model of the tick: `1/60`. The `float` the program holds is
`TIMESTEP_f32`. -/
def TIMESTEP : ℚ := 1 / TARGET_FPS

def gravity : ℚ := 500
def drag : ℚ := 1
def playerMoveSpeed : ℚ := 20
def playerMaxHorizontalVelocity : ℚ := 500
def playerMaxVerticalVelocity : ℚ := 800
def playerDeceleration : ℚ := 10

/-- The `Vector2` of raylib: two floats. -/
structure Vector2 where
  x : ℚ
  y : ℚ
deriving DecidableEq, Repr

def initialSiopaoPos : Vector2 := ⟨50, 50⟩

/-- Width of `frameRec`, the sprite frame of the player (line 274). -/
def frameRecWidth : ℚ := 64
/-- Height of `frameRec` (line 275). -/
def frameRecHeight : ℚ := 64
/-- Width of `frameRecSteamer`, the sprite frame of the goal (line 281). -/
def frameRecSteamerWidth : ℚ := 64
/-- Height of `frameRecSteamer` (line 282). -/
def frameRecSteamerHeight : ℚ := 48
/-- Position `pos` of the goal (line 283). -/
def goalPos : Vector2 := ⟨1080, 40⟩

/-! ## raymath.h -/

/-- The `Clamp` of raymath: `(value < min) ? min : value`, then capped by `max`. -/
def Clamp (value min max : ℚ) : ℚ :=
  let result := if value < min then min else value
  if result > max then max else result

def Vector2Add (v1 v2 : Vector2) : Vector2 := ⟨v1.x + v2.x, v1.y + v2.y⟩
def Vector2Subtract (v1 v2 : Vector2) : Vector2 := ⟨v1.x - v2.x, v1.y - v2.y⟩
def Vector2Scale (v : Vector2) (scale : ℚ) : Vector2 := ⟨v.x * scale, v.y * scale⟩
def Vector2Negate (v : Vector2) : Vector2 := ⟨-v.x, -v.y⟩

/-- The `Vector2DistanceSqr` of raymath: the square of `Vector2Distance`. -/
def Vector2DistanceSqr (v1 v2 : Vector2) : ℚ :=
  (v1.x - v2.x) * (v1.x - v2.x) + (v1.y - v2.y) * (v1.y - v2.y)

/-! ## Binary32 arithmetic -/

/-- Round to the nearest integer, ties to the even one. -/
def roundHalfEven (x : ℚ) : ℤ :=
  if x - ⌊x⌋ < 1 / 2 then ⌊x⌋
  else if 1 / 2 < x - ⌊x⌋ then ⌊x⌋ + 1
  else if ⌊x⌋ % 2 = 0 then ⌊x⌋ else ⌊x⌋ + 1

/-- Exponent of the binade of `q > 0`: `⌊log₂ q⌋` for the normal numbers, -126 below them. -/
def f32Exponent (q : ℚ) : ℤ := max (Int.log 2 q) (-126)

/-- Spacing of the binary32 values in the binade of `q > 0`: 24 significant bits. -/
def f32Ulp (q : ℚ) : ℚ := (2 : ℚ) ^ (f32Exponent q - 23)

/-- The binary32 value nearest to `q ≥ 0`, ties to the even significand. -/
def f32RoundPos (q : ℚ) : ℚ := (roundHalfEven (q / f32Ulp q) : ℚ) * f32Ulp q

/-- The binary32 value nearest to `q`, ties to even: the result of a `float` operation whose
exact result is `q`. Overflow to infinity is not modelled. -/
def f32Round (q : ℚ) : ℚ := if 0 ≤ q then f32RoundPos q else -f32RoundPos (-q)

/-- The constant `TIMESTEP` as the program holds it (line 13): the `float` quotient
`1 / TARGET_FPS`, which is `f32Round (1 / 60)` (`TIMESTEP_f32_eq_round`). -/
def TIMESTEP_f32 : ℚ := 8947849 / 536870912

/-- `Vector2Add` of raymath on `float`s: each sum is rounded. -/
def Vector2AddF32 (v1 v2 : Vector2) : Vector2 := ⟨f32Round (v1.x + v2.x), f32Round (v1.y + v2.y)⟩

/-- `Vector2Subtract` of raymath on `float`s: each difference is rounded. -/
def Vector2SubtractF32 (v1 v2 : Vector2) : Vector2 :=
  ⟨f32Round (v1.x - v2.x), f32Round (v1.y - v2.y)⟩

/-- `Vector2Scale` of raymath on `float`s: each product is rounded. -/
def Vector2ScaleF32 (v : Vector2) (scale : ℚ) : Vector2 :=
  ⟨f32Round (v.x * scale), f32Round (v.y * scale)⟩

/-! ## Collision detection (lines 235-238) -/

def GetClosestPointAABBCircle (sioPos rectPos rectSize : Vector2) : Vector2 :=
  ⟨Clamp sioPos.x rectPos.x (rectPos.x + rectSize.x),
   Clamp sioPos.y rectPos.y (rectPos.y + rectSize.y)⟩

/-! ## Data model (lines 59-82) -/

/-- A platform entity: `PositionComponent`, `SizeComponent` and `PointComponent`. -/
structure Platform where
  position : Vector2
  width : ℤ
  height : ℤ
  point : Bool
deriving DecidableEq, Repr

/-- One sample of the input devices, as the raylib queries of a tick see it. -/
structure Input where
  keyA : Bool
  keyD : Bool
  mousePressed : Bool
  mouseDown : Bool
  mouseReleased : Bool
  mousePosition : Vector2
deriving DecidableEq, Repr

/-- The mutable state the physics loop reads and writes. -/
structure World where
  position : Vector2
  velocity : Vector2
  onFloor : Bool
  platforms : List Platform
  score : ℤ
  death_counter : ℤ
  playerForces : Vector2
  initialMousePos : Vector2
  currentMousePos : Vector2
  force : ℚ
deriving DecidableEq, Repr

/-- No key held, no mouse button event. -/
def noInput : Input := ⟨false, false, false, false, false, ⟨0, 0⟩⟩

/-! ## The platform layout created at startup (lines 29, 37-50, 296-318) -/

def numberOfPlatforms : ℤ := 12

def staticPlatformPos : List Vector2 :=
  [⟨0, 650⟩, ⟨120, 700⟩, ⟨300, 300⟩, ⟨230, 610⟩, ⟨450, 500⟩, ⟨690, 350⟩,
   ⟨800, 470⟩, ⟨990, 500⟩, ⟨1000, 360⟩, ⟨730, 150⟩, ⟨880, 200⟩, ⟨1060, 80⟩]

/-- The width given to platform `i` (lines 307-316); `/` and `%` are those of `int`. -/
def platformWidth (i : ℤ) : ℤ :=
  if i = 0 then 150
  else if Int.tmod i 2 = 0 ∧ i ≠ 0 then Int.tdiv 100 (Int.tdiv i 2) + i * 20 - 20
  else if Int.tmod i 2 ≠ 0 ∧ i ≠ numberOfPlatforms - 1 then i * 30 - 30
  else 100

/-- The platforms as the setup loop creates them, in creation order: height 25, no point
awarded yet. -/
def initialPlatforms : List Platform :=
  staticPlatformPos.enum.map (fun ip => ⟨ip.2, platformWidth (ip.1 : ℤ), 25, false⟩)

/-- The platforms of the startup layout with the point flags `flags`, one per platform in
creation order. -/
def layoutWithPoints (flags : List Bool) : List Platform :=
  List.zipWith (fun p b => { p with point := b }) initialPlatforms flags

/-! ## One simulation tick (lines 336-534) -/

/-- Centre of the player: `Vector2Add(position, {frameRec.width/2, frameRec.height/2})`. -/
def playerCenter (position : Vector2) : Vector2 :=
  Vector2Add position ⟨frameRecWidth / 2, frameRecHeight / 2⟩

/-- The touch test of line 381 for one platform. -/
def touchesPlatform (position : Vector2) (p : Platform) : Bool :=
  decide (Vector2DistanceSqr (playerCenter position)
      (GetClosestPointAABBCircle (playerCenter position) p.position ⟨(p.width : ℚ), (p.height : ℚ)⟩)
    ≤ (frameRecWidth / 2) * (frameRecWidth / 2))

/-- The landing test of line 383: `playerBottomBound <= platformUpperBound + height/2`,
with `height/2` an `int` division. -/
def landsOnTop (position : Vector2) (p : Platform) : Bool :=
  decide (position.y + frameRecHeight ≤ p.position.y + ((Int.tdiv p.height 2 : ℤ) : ℚ))

/-- The side-contact branch (lines 395-404): two successive `if`s on `velocity.x`. -/
def sideContact (position : Vector2) (p : Platform) (velocity : Vector2) : Vector2 :=
  let v1 : Vector2 :=
    if position.x > p.position.x ∧ velocity.x < 0 then ⟨5, velocity.y⟩ else velocity
  if position.x + frameRecWidth < p.position.x + (p.width : ℚ) ∧ v1.x > 0 then ⟨-5, v1.y⟩ else v1

/-- Player-side state threaded through the platform loop. -/
structure Contact where
  velocity : Vector2
  onFloor : Bool
  score : ℤ
deriving DecidableEq, Repr

/-- Body of the platform loop (lines 368-406) for one platform. -/
def platformStep (position : Vector2) (c : Contact) (p : Platform) : Contact × Platform :=
  if touchesPlatform position p then
    if landsOnTop position p then
      if !p.point then
        (⟨c.velocity, true, c.score + 1⟩, { p with point := true })
      else
        (⟨c.velocity, true, c.score⟩, p)
    else
      (⟨sideContact position p c.velocity, c.onFloor, c.score⟩, p)
  else
    (c, p)

/-- The platform loop (lines 366-408), in the order of the list. -/
def platformLoop (position : Vector2) : Contact → List Platform → Contact × List Platform
  | c, [] => (c, [])
  | c, p :: ps =>
    let r := platformStep position c p
    let rs := platformLoop position r.1 ps
    (rs.1, r.2 :: rs.2)

/-- What the platform loop leaves of one platform: `point` is set when the player touches the
platform and lands on top of it, nothing else is written. -/
def awardPoint (position : Vector2) (p : Platform) : Platform :=
  (platformStep position ⟨⟨0, 0⟩, false, 0⟩ p).2

/-- Lines 347-350: `onFloor = false`, `playerForces = {0, 0}`. -/
def resetTick (w : World) : World :=
  { w with onFloor := false, playerForces := ⟨0, 0⟩ }

/-- Lines 365-408. The player position is not written inside the loop, so the bounds
computed at lines 342-345 are those of `w.position`. -/
def collidePlatforms (w : World) : World :=
  let r := platformLoop w.position ⟨w.velocity, w.onFloor, w.score⟩ w.platforms
  { w with velocity := r.1.velocity, onFloor := r.1.onFloor, score := r.1.score, platforms := r.2 }

/-- The goal test of line 410. -/
def touchesGoal (position : Vector2) : Bool :=
  decide (Vector2DistanceSqr (playerCenter position)
      (Vector2Add goalPos ⟨frameRecSteamerWidth / 2, frameRecSteamerHeight / 2⟩)
    ≤ (frameRecWidth / 2) * (frameRecWidth / 2))

/-- Lines 410-414. -/
def goalCheck (w : World) : World :=
  if touchesGoal w.position then { w with score := 1000 } else w

/-- The death test of line 417. -/
def reachesBottom (position : Vector2) : Bool :=
  decide (position.y + frameRecHeight ≥ WINDOW_HEIGHT)

/-- Lines 416-427: bottom edge of the screen. The assignment to `position.y` at line 418 is
overwritten by the assignment of `initialSiopaoPos` at line 421. -/
def bottomEdge (w : World) : World :=
  if reachesBottom w.position then
    { w with
      onFloor := true
      position := initialSiopaoPos
      death_counter := w.death_counter + 1
      score := -1 }
  else w

/-- Lines 431-436: top edge of the screen. -/
def topEdge (w : World) : World :=
  if w.position.y ≤ 0 then
    { w with
      velocity := if w.velocity.y ≠ 0 then ⟨w.velocity.x, 0⟩ else w.velocity
      position := ⟨w.position.x, 0⟩ }
  else w

/-- Lines 438-444: right edge of the screen. -/
def rightEdge (w : World) : World :=
  if w.position.x + frameRecWidth ≥ WINDOW_WIDTH then
    { w with
      velocity := if w.velocity.x > 0 then ⟨0, w.velocity.y⟩ else w.velocity
      position := ⟨WINDOW_WIDTH - frameRecWidth, w.position.y⟩ }
  else w

/-- Lines 446-452: left edge of the screen. -/
def leftEdge (w : World) : World :=
  if w.position.x ≤ 0 then
    { w with
      velocity := if w.velocity.x < 0 then ⟨0, w.velocity.y⟩ else w.velocity
      position := ⟨0, w.position.y⟩ }
  else w

/-- Lines 456-467: the two movement keys. -/
def keyForces (inp : Input) (f : Vector2) : Vector2 :=
  let f1 := if inp.keyA then Vector2Add f ⟨-playerMoveSpeed, 0⟩ else f
  if inp.keyD then Vector2Add f1 ⟨playerMoveSpeed, 0⟩ else f1

/-- Lines 469-493: the sling mechanic in the exact model. The fields `initialMousePos`,
`currentMousePos` and `force` of `w` are the content of the block locals when the block is
entered. `NULL` is `0`; the `while` at line 478 ends in `break`, so its body runs at most
once. -/
def slingMechanic (inp : Input) (w : World) : World :=
  let w1 : World :=
    if inp.mousePressed then { w with initialMousePos := inp.mousePosition, force := 0 } else w
  let w2 : World :=
    if w1.initialMousePos.x ≠ 0 ∧ w1.initialMousePos.y ≠ 0 then
      if inp.mouseDown then
        { w1 with currentMousePos := inp.mousePosition, force := w1.force + TIMESTEP }
      else w1
    else w1
  if inp.mouseReleased then
    { w2 with
      playerForces := Vector2Add w2.playerForces
        (Vector2Scale (Vector2Negate (Vector2Subtract w2.currentMousePos w2.initialMousePos))
          (Clamp w2.force 0 5 * 2)) }
  else w2

/-- Lines 454-494: input is read only when `onFloor`. -/
def inputBlock (inp : Input) (w : World) : World :=
  if w.onFloor then
    slingMechanic inp { w with playerForces := keyForces inp w.playerForces }
  else w

/-- Line 497. -/
def applyForces (w : World) : World :=
  { w with velocity := Vector2Add w.velocity w.playerForces }

/-- Lines 499-523: gravity and drag in the air, stop and deceleration on the floor. -/
def airOrFloor (w : World) : World :=
  if !w.onFloor then
    let v1 := Vector2Add w.velocity ⟨0, gravity * TIMESTEP * 2⟩
    { w with velocity := Vector2Subtract v1 ⟨v1.x * drag * TIMESTEP * 2, 0⟩ }
  else
    let v1 : Vector2 := if w.velocity.y > 0 then ⟨w.velocity.x, 0⟩ else w.velocity
    if v1.y = 0 then
      { w with velocity := Vector2Subtract v1 ⟨v1.x * playerDeceleration * TIMESTEP, 0⟩ }
    else
      { w with velocity := v1 }

/-- Lines 525-527. -/
def clampVelocity (w : World) : World :=
  { w with
    velocity := ⟨Clamp w.velocity.x (-playerMaxHorizontalVelocity) playerMaxHorizontalVelocity,
                 Clamp w.velocity.y (-playerMaxVerticalVelocity) playerMaxVerticalVelocity⟩ }

/-- Line 533. -/
def integrate (w : World) : World :=
  { w with position := Vector2Add w.position (Vector2Scale w.velocity TIMESTEP) }

/-- The state at the screen-boundary checks of a tick (after line 414). -/
def beforeEdges (w : World) : World :=
  goalCheck (collidePlatforms (resetTick w))

/-- The state at the input block of a tick (after line 452). -/
def beforeInput (w : World) : World :=
  leftEdge (rightEdge (topEdge (bottomEdge (beforeEdges w))))

/-- The state at the velocity clamp of a tick (after line 523). -/
def beforeClamp (inp : Input) (w : World) : World :=
  airOrFloor (applyForces (inputBlock inp (beforeInput w)))

/-- One simulation tick: the body of the loop over `Siopao` (lines 336-534). -/
def tick (inp : Input) (w : World) : World :=
  integrate (clampVelocity (beforeClamp inp w))

/-! ## The position of the player through a tick, in binary32 (lines 416-452, 525-533) -/

/-- Lines 416-427 on `float`s: the sum `position.y + frameRec.height` is rounded before it is
compared with `WINDOW_HEIGHT`. -/
def bottomEdgeF32 (w : World) : World :=
  if f32Round (w.position.y + frameRecHeight) ≥ WINDOW_HEIGHT then
    { w with
      onFloor := true
      position := initialSiopaoPos
      death_counter := w.death_counter + 1
      score := -1 }
  else w

/-- Lines 438-444 on `float`s: the sum `position.x + frameRec.width` is rounded before it is
compared with `WINDOW_WIDTH`. The difference `WINDOW_WIDTH - frameRec.width` is 1216, a
binary32 value, which no rounding changes (`f32Round_1216`). -/
def rightEdgeF32 (w : World) : World :=
  if f32Round (w.position.x + frameRecWidth) ≥ WINDOW_WIDTH then
    { w with
      velocity := if w.velocity.x > 0 then ⟨0, w.velocity.y⟩ else w.velocity
      position := ⟨WINDOW_WIDTH - frameRecWidth, w.position.y⟩ }
  else w

/-- Line 533 on `float`s: `Vector2Scale` rounds each product, `Vector2Add` each sum. -/
def integrateF32 (w : World) : World :=
  { w with position := Vector2AddF32 w.position (Vector2ScaleF32 w.velocity TIMESTEP_f32) }

/-- The state after the four screen-boundary checks (lines 416-452) on `float`s. The top and
the left check compare with 0 and assign 0: they are `topEdge` and `leftEdge`. -/
def beforeInputF32 (w : World) : World :=
  leftEdge (rightEdgeF32 (topEdge (bottomEdgeF32 w)))

/-- The tick from the boundary checks to its end on `float`s, as far as the position goes.
`w` is the state at line 416: the lines before it do not write the position. `v` is the
velocity that lines 454-523 leave for the clamp: they write the velocity, `playerForces` and
the sling locals, never the position, and `v` stands for whatever they compute. The clamp
(lines 525-527) selects between its arguments, the integration (line 533) rounds. -/
def tickTailF32 (w : World) (v : Vector2) : World :=
  integrateF32 (clampVelocity { beforeInputF32 w with velocity := v })

/-! ## Fixed-timestep driver (lines 53, 326-333, 536) -/

/-- Run the ticks of a list of input samples, one tick per sample. -/
def run (w : World) (inputs : List Input) : World :=
  inputs.foldl (fun s inp => tick inp s) w

/-- A world with the player at `position` moving at `velocity`, nothing else set. -/
def mkWorld (position velocity : Vector2) (platforms : List Platform) (score : ℤ) : World :=
  { position := position, velocity := velocity, onFloor := false, platforms := platforms,
    score := score, death_counter := 0, playerForces := ⟨0, 0⟩,
    initialMousePos := ⟨0, 0⟩, currentMousePos := ⟨0, 0⟩, force := 0 }

/-! ## Input samples of a sling gesture -/

/-- The sample of the tick on which the button goes down at `m`: raylib then reports the
button as pressed and as down. -/
def pressSample (m : Vector2) : Input := ⟨false, false, true, true, false, m⟩

/-- A sample with the button still held down, the pointer at `m`. -/
def holdSample (m : Vector2) : Input := ⟨false, false, false, true, false, m⟩

/-- The sample of the tick on which the button is let go: released, no longer down. -/
def releaseSample (m : Vector2) : Input := ⟨false, false, false, false, true, m⟩

/-! ## The sling mechanic on `float`s (lines 469-493) -/

/-- The block locals of lines 470-472. -/
structure SlingLocals where
  initialMousePos : Vector2
  currentMousePos : Vector2
  force : ℚ
deriving DecidableEq, Repr

/-- The vector that line 491 adds to `playerForces` on a release tick, from the content of
the locals: `Vector2Scale(Vector2Negate(Vector2Subtract(currentMousePos, initialMousePos)),
Clamp(force, 0.0f, 5.0f) * 2.0f)`. -/
def slingReleaseF32 (l : SlingLocals) : Vector2 :=
  Vector2ScaleF32 (Vector2Negate (Vector2SubtractF32 l.currentMousePos l.initialMousePos))
    (f32Round (Clamp l.force 0 5 * 2))

/-- Lines 469-493 on `float`s, as a function of the content `l` of the locals when the block
is entered and of `playerForces`; the result is the content of the locals at the end of the
block and the new `playerForces`. `NULL` is `0`; the `while` at line 478 ends in `break`, so
its body runs at most once. -/
def slingBlockF32 (inp : Input) (l : SlingLocals) (playerForces : Vector2) :
    SlingLocals × Vector2 :=
  let l1 : SlingLocals :=
    if inp.mousePressed then { l with initialMousePos := inp.mousePosition, force := 0 } else l
  let l2 : SlingLocals :=
    if l1.initialMousePos.x ≠ 0 ∧ l1.initialMousePos.y ≠ 0 then
      if inp.mouseDown then
        { l1 with currentMousePos := inp.mousePosition,
                  force := f32Round (l1.force + TIMESTEP_f32) }
      else l1
    else l1
  if inp.mouseReleased then (l2, Vector2AddF32 playerForces (slingReleaseF32 l2))
  else (l2, playerForces)

/-- The value of `force` after `h` executions of `force += TIMESTEP` (line 480), starting
from the 0 that a press assigns (line 475). -/
def heldForce : ℕ → ℚ
  | 0 => 0
  | h + 1 => f32Round (heldForce h + TIMESTEP_f32)

/-- The content of the locals after the block has run on each sample of `inputs` in turn, on
consecutive grounded ticks, when each run is entered with the content the run before it
left: the assumption under which a hold duration exists at all. -/
def slingTicksF32 (l : SlingLocals) (inputs : List Input) : SlingLocals :=
  inputs.foldl (fun s inp => (slingBlockF32 inp s ⟨0, 0⟩).1) l

/-! ## The free-fall scenario -/

/-- Vertical velocity after `k` ticks of free fall from rest: `50/3` more per tick
(`gravity * TIMESTEP * 2`), capped at 800. -/
def fallVelocity (k : ℕ) : ℚ := min (50 * (k : ℚ) / 3) 800

/-- Height `position.y` after `k` ticks of free fall from rest at `y = 50`. -/
def fallHeight : ℕ → ℚ
  | 0 => 50
  | k + 1 => fallHeight k + fallVelocity (k + 1) / 60

/-! # Verification -/

/-! ## Basic facts -/

theorem Clamp_ge (value min max : ℚ) (h : min ≤ max) : min ≤ Clamp value min max := by
  unfold Clamp
  dsimp only
  split_ifs <;> linarith

theorem Clamp_le (value min max : ℚ) : Clamp value min max ≤ max := by
  unfold Clamp
  dsimp only
  split_ifs <;> linarith

theorem Clamp_of_mem (value min max : ℚ) (h1 : min ≤ value) (h2 : value ≤ max) :
    Clamp value min max = value := by
  unfold Clamp
  dsimp only
  split_ifs <;> linarith

theorem Clamp_sq_le (c lo hi p : ℚ) (h1 : lo ≤ p) (h2 : p ≤ hi) :
    (c - Clamp c lo hi) * (c - Clamp c lo hi) ≤ (c - p) * (c - p) := by
  unfold Clamp
  dsimp only
  split_ifs <;> nlinarith

theorem TIMESTEP_pos : 0 < TIMESTEP := by
  norm_num [TIMESTEP, TARGET_FPS]

/-- C1: after one tick the velocity is within the horizontal cap 500 and the vertical cap 800,
for every state and input; it is the velocity the clamp produced, and the integration step
leaves every velocity as it is. -/
theorem C1_velocity_clamped (inp : Input) (w : World) :
    |(tick inp w).velocity.x| ≤ 500 ∧ |(tick inp w).velocity.y| ≤ 800 ∧
    (tick inp w).velocity = (clampVelocity (beforeClamp inp w)).velocity ∧
    ∀ w1 : World, (integrate w1).velocity = w1.velocity := by
  refine ⟨?_, ?_, rfl, fun _ => rfl⟩
  · rw [abs_le]
    constructor
    · exact Clamp_ge _ (-500) 500 (by norm_num)
    · exact Clamp_le _ (-500) 500
  · rw [abs_le]
    constructor
    · exact Clamp_ge _ (-800) 800 (by norm_num)
    · exact Clamp_le _ (-800) 800

/-- C3: for a rectangle of width and height at least 0, `GetClosestPointAABBCircle` returns a
point of the closed rectangle `[x, x + width] × [y, y + height]`; no point of the rectangle is
closer to the centre `c` (in squared Euclidean distance) than the returned point; and a centre
inside the rectangle is returned as it is. -/
theorem C3_closest_point (c rectPos rectSize : Vector2)
    (hw : 0 ≤ rectSize.x) (hh : 0 ≤ rectSize.y) :
    (rectPos.x ≤ (GetClosestPointAABBCircle c rectPos rectSize).x ∧
      (GetClosestPointAABBCircle c rectPos rectSize).x ≤ rectPos.x + rectSize.x ∧
      rectPos.y ≤ (GetClosestPointAABBCircle c rectPos rectSize).y ∧
      (GetClosestPointAABBCircle c rectPos rectSize).y ≤ rectPos.y + rectSize.y) ∧
    (∀ p : Vector2, rectPos.x ≤ p.x → p.x ≤ rectPos.x + rectSize.x →
      rectPos.y ≤ p.y → p.y ≤ rectPos.y + rectSize.y →
      Vector2DistanceSqr c (GetClosestPointAABBCircle c rectPos rectSize) ≤ Vector2DistanceSqr c p) ∧
    (rectPos.x ≤ c.x → c.x ≤ rectPos.x + rectSize.x →
      rectPos.y ≤ c.y → c.y ≤ rectPos.y + rectSize.y →
      GetClosestPointAABBCircle c rectPos rectSize = c) := by
  refine ⟨⟨?_, ?_, ?_, ?_⟩, ?_, ?_⟩
  · exact Clamp_ge _ _ _ (by linarith)
  · exact Clamp_le _ _ _
  · exact Clamp_ge _ _ _ (by linarith)
  · exact Clamp_le _ _ _
  · intro p h1 h2 h3 h4
    unfold Vector2DistanceSqr GetClosestPointAABBCircle
    exact add_le_add (Clamp_sq_le _ _ _ _ h1 h2) (Clamp_sq_le _ _ _ _ h3 h4)
  · intro h1 h2 h3 h4
    unfold GetClosestPointAABBCircle
    rw [Clamp_of_mem _ _ _ h1 h2, Clamp_of_mem _ _ _ h3 h4]

/-- The point of the landing pad closest to (200, 600) is its corner (150, 650). -/
theorem C3_closest_point_witness :
    (0 : ℚ) ≤ (⟨150, 25⟩ : Vector2).x ∧ (0 : ℚ) ≤ (⟨150, 25⟩ : Vector2).y ∧
    GetClosestPointAABBCircle ⟨200, 600⟩ ⟨0, 650⟩ ⟨150, 25⟩ = ⟨150, 650⟩ ∧
    ∀ p : Vector2, 0 ≤ p.x → p.x ≤ 150 → 650 ≤ p.y → p.y ≤ 675 →
      Vector2DistanceSqr ⟨200, 600⟩ ⟨150, 650⟩ ≤ Vector2DistanceSqr ⟨200, 600⟩ p := by
  have h := C3_closest_point ⟨200, 600⟩ ⟨0, 650⟩ ⟨150, 25⟩ (by norm_num) (by norm_num)
  have he : GetClosestPointAABBCircle ⟨200, 600⟩ ⟨0, 650⟩ ⟨150, 25⟩ = ⟨150, 650⟩ := by
    norm_num [GetClosestPointAABBCircle, Clamp]
  refine ⟨by norm_num, by norm_num, he, ?_⟩
  intro p h1 h2 h3 h4
  have := h.2.1 p (by simpa using h1) (by norm_num; exact h2) (by simpa using h3) (by norm_num; exact h4)
  rwa [he] at this

/-! ## The platform loop -/

theorem platformStep_snd (position : Vector2) (c : Contact) (p : Platform) :
    (platformStep position c p).2 = awardPoint position p := by
  unfold awardPoint platformStep
  split_ifs <;> rfl

theorem awardPoint_of_lands (position : Vector2) (p : Platform)
    (h1 : touchesPlatform position p = true) (h2 : landsOnTop position p = true) :
    awardPoint position p = { p with point := true } := by
  unfold awardPoint platformStep
  rw [if_pos h1, if_pos h2]
  split_ifs with h
  · rfl
  · cases p with
    | mk pos wd ht pt =>
      simp only [Bool.not_eq_true, Bool.not_eq_false_eq_eq_true] at h
      cases pt <;> simp_all

theorem awardPoint_of_point (position : Vector2) (p : Platform) (h : p.point = true) :
    awardPoint position p = p := by
  unfold awardPoint platformStep
  split_ifs with h1 h2 h3
  · simp [h] at h3
  · rfl
  · rfl
  · rfl

theorem platformLoop_snd (position : Vector2) (ps : List Platform) :
    ∀ c : Contact, (platformLoop position c ps).2 = ps.map (awardPoint position) := by
  induction ps with
  | nil => intro c; rfl
  | cons p ps ih =>
    intro c
    simp only [platformLoop, List.map_cons, ih, platformStep_snd]

theorem platformStep_onFloor_mono (position : Vector2) (c : Contact) (p : Platform)
    (h : c.onFloor = true) : (platformStep position c p).1.onFloor = true := by
  unfold platformStep
  split_ifs <;> simp [h]

theorem platformStep_onFloor_of_lands (position : Vector2) (c : Contact) (p : Platform)
    (h1 : touchesPlatform position p = true) (h2 : landsOnTop position p = true) :
    (platformStep position c p).1.onFloor = true := by
  unfold platformStep
  rw [if_pos h1, if_pos h2]
  split_ifs <;> rfl

theorem platformLoop_onFloor_mono (position : Vector2) (ps : List Platform) :
    ∀ c : Contact, c.onFloor = true → (platformLoop position c ps).1.onFloor = true := by
  induction ps with
  | nil => intro c h; exact h
  | cons p ps ih =>
    intro c h
    simp only [platformLoop]
    exact ih _ (platformStep_onFloor_mono position c p h)

theorem platformLoop_onFloor_of_lands (position : Vector2) (ps : List Platform) (p : Platform)
    (hp : p ∈ ps) (h1 : touchesPlatform position p = true) (h2 : landsOnTop position p = true) :
    ∀ c : Contact, (platformLoop position c ps).1.onFloor = true := by
  induction ps with
  | nil => simp at hp
  | cons q qs ih =>
    intro c
    simp only [platformLoop]
    rcases List.mem_cons.mp hp with h | h
    · subst h
      exact platformLoop_onFloor_mono position qs _ (platformStep_onFloor_of_lands position c p h1 h2)
    · exact ih h _

theorem platformStep_score (position : Vector2) (c : Contact) (p : Platform) :
    (platformStep position c p).1.score =
      c.score + (if (touchesPlatform position p && landsOnTop position p && !p.point) = true
        then 1 else 0) := by
  unfold platformStep
  cases touchesPlatform position p <;> cases landsOnTop position p <;> cases p.point <;> simp

theorem platformLoop_score (position : Vector2) (ps : List Platform) :
    ∀ c : Contact, (platformLoop position c ps).1.score =
      c.score + (ps.countP
        (fun q => touchesPlatform position q && landsOnTop position q && !q.point) : ℕ) := by
  induction ps with
  | nil => intro c; simp [platformLoop]
  | cons p ps ih =>
    intro c
    simp only [platformLoop, ih, platformStep_score, List.countP_cons]
    split_ifs <;> push_cast <;> ring

/-! ## What each phase of the tick leaves unchanged -/

theorem goalCheck_frame (w : World) :
    (goalCheck w).platforms = w.platforms ∧ (goalCheck w).position = w.position ∧
    (goalCheck w).velocity = w.velocity ∧ (goalCheck w).onFloor = w.onFloor ∧
    (goalCheck w).death_counter = w.death_counter ∧ (goalCheck w).playerForces = w.playerForces := by
  unfold goalCheck
  split_ifs <;> simp

theorem bottomEdge_frame (w : World) :
    (bottomEdge w).platforms = w.platforms ∧ (bottomEdge w).velocity = w.velocity ∧
    (bottomEdge w).playerForces = w.playerForces := by
  unfold bottomEdge
  split_ifs <;> simp

theorem topEdge_frame (w : World) :
    (topEdge w).platforms = w.platforms ∧ (topEdge w).score = w.score ∧
    (topEdge w).death_counter = w.death_counter ∧ (topEdge w).onFloor = w.onFloor ∧
    (topEdge w).playerForces = w.playerForces := by
  unfold topEdge
  split_ifs <;> simp

theorem rightEdge_frame (w : World) :
    (rightEdge w).platforms = w.platforms ∧ (rightEdge w).score = w.score ∧
    (rightEdge w).death_counter = w.death_counter ∧ (rightEdge w).onFloor = w.onFloor ∧
    (rightEdge w).playerForces = w.playerForces := by
  unfold rightEdge
  split_ifs <;> simp

theorem leftEdge_frame (w : World) :
    (leftEdge w).platforms = w.platforms ∧ (leftEdge w).score = w.score ∧
    (leftEdge w).death_counter = w.death_counter ∧ (leftEdge w).onFloor = w.onFloor ∧
    (leftEdge w).playerForces = w.playerForces := by
  unfold leftEdge
  split_ifs <;> simp

theorem slingMechanic_frame (inp : Input) (w : World) :
    (slingMechanic inp w).platforms = w.platforms ∧ (slingMechanic inp w).score = w.score ∧
    (slingMechanic inp w).death_counter = w.death_counter ∧
    (slingMechanic inp w).onFloor = w.onFloor ∧ (slingMechanic inp w).position = w.position ∧
    (slingMechanic inp w).velocity = w.velocity := by
  unfold slingMechanic
  dsimp only
  split_ifs <;> simp

theorem inputBlock_frame (inp : Input) (w : World) :
    (inputBlock inp w).platforms = w.platforms ∧ (inputBlock inp w).score = w.score ∧
    (inputBlock inp w).death_counter = w.death_counter ∧
    (inputBlock inp w).onFloor = w.onFloor ∧ (inputBlock inp w).position = w.position ∧
    (inputBlock inp w).velocity = w.velocity := by
  unfold inputBlock
  split_ifs
  · exact slingMechanic_frame inp _
  · simp

theorem airOrFloor_frame (w : World) :
    (airOrFloor w).platforms = w.platforms ∧ (airOrFloor w).score = w.score ∧
    (airOrFloor w).death_counter = w.death_counter ∧
    (airOrFloor w).onFloor = w.onFloor ∧ (airOrFloor w).position = w.position := by
  unfold airOrFloor
  dsimp only
  split_ifs <;> simp

theorem beforeEdges_position (w : World) : (beforeEdges w).position = w.position := by
  unfold beforeEdges
  rw [(goalCheck_frame _).2.1]
  rfl

theorem beforeEdges_death_counter (w : World) :
    (beforeEdges w).death_counter = w.death_counter := by
  unfold beforeEdges
  rw [(goalCheck_frame _).2.2.2.2.1]
  rfl

theorem beforeEdges_platforms (w : World) :
    (beforeEdges w).platforms = w.platforms.map (awardPoint w.position) := by
  unfold beforeEdges
  rw [(goalCheck_frame _).1]
  exact platformLoop_snd _ _ _

/-- The score after the platform loop and the goal test. -/
theorem beforeEdges_score (w : World) :
    (beforeEdges w).score =
      if touchesGoal w.position = true then 1000
      else w.score + (w.platforms.countP
        (fun q => touchesPlatform w.position q && landsOnTop w.position q && !q.point) : ℕ) := by
  unfold beforeEdges goalCheck
  have hpos : (collidePlatforms (resetTick w)).position = w.position := rfl
  rw [hpos]
  split_ifs
  · rfl
  · exact platformLoop_score _ _ _

theorem tick_platforms (inp : Input) (w : World) :
    (tick inp w).platforms = w.platforms.map (awardPoint w.position) := by
  have h : (tick inp w).platforms = (beforeEdges w).platforms := by
    show (airOrFloor (applyForces (inputBlock inp (beforeInput w)))).platforms = _
    rw [(airOrFloor_frame _).1]
    show (inputBlock inp (beforeInput w)).platforms = _
    rw [(inputBlock_frame _ _).1]
    unfold beforeInput
    rw [(leftEdge_frame _).1, (rightEdge_frame _).1, (topEdge_frame _).1, (bottomEdge_frame _).1]
  rw [h, beforeEdges_platforms]

theorem tick_score (inp : Input) (w : World) :
    (tick inp w).score = (bottomEdge (beforeEdges w)).score := by
  show (airOrFloor (applyForces (inputBlock inp (beforeInput w)))).score = _
  rw [(airOrFloor_frame _).2.1]
  show (inputBlock inp (beforeInput w)).score = _
  rw [(inputBlock_frame _ _).2.1]
  unfold beforeInput
  rw [(leftEdge_frame _).2.1, (rightEdge_frame _).2.1, (topEdge_frame _).2.1]

theorem tick_death_counter (inp : Input) (w : World) :
    (tick inp w).death_counter = (bottomEdge (beforeEdges w)).death_counter := by
  show (airOrFloor (applyForces (inputBlock inp (beforeInput w)))).death_counter = _
  rw [(airOrFloor_frame _).2.2.1]
  show (inputBlock inp (beforeInput w)).death_counter = _
  rw [(inputBlock_frame _ _).2.2.1]
  unfold beforeInput
  rw [(leftEdge_frame _).2.2.1, (rightEdge_frame _).2.2.1, (topEdge_frame _).2.2.1]

/-- The score after a tick, by cases: death, goal touch, or the platform loop alone. -/
theorem tick_score_cases (inp : Input) (w : World) :
    (tick inp w).score =
      if reachesBottom w.position = true then -1
      else if touchesGoal w.position = true then 1000
      else w.score + (w.platforms.countP
        (fun q => touchesPlatform w.position q && landsOnTop w.position q && !q.point) : ℕ) := by
  rw [tick_score]
  unfold bottomEdge
  rw [beforeEdges_position]
  split_ifs with h1 h2
  · rfl
  · rw [beforeEdges_score, if_pos h2]
  · rw [beforeEdges_score, if_neg h2]

theorem tick_death_counter_cases (inp : Input) (w : World) :
    (tick inp w).death_counter =
      if reachesBottom w.position = true then w.death_counter + 1 else w.death_counter := by
  rw [tick_death_counter]
  unfold bottomEdge
  rw [beforeEdges_position]
  split_ifs
  · show (beforeEdges w).death_counter + 1 = _
    rw [beforeEdges_death_counter]
  · exact beforeEdges_death_counter w

theorem run_platforms_point (inputs : List Input) :
    ∀ (w : World) (i : ℕ) (p : Platform), w.platforms[i]? = some p → p.point = true →
      (run w inputs).platforms[i]? = some p := by
  induction inputs with
  | nil => intro w i p h _; exact h
  | cons inp inputs ih =>
    intro w i p h hp
    show (run (tick inp w) inputs).platforms[i]? = some p
    apply ih _ _ _ _ hp
    rw [tick_platforms, List.getElem?_map, h, Option.map_some', awardPoint_of_point _ _ hp]

/-- C4: when the player touches platform number `i` and the contact is a top landing, `onFloor`
is true after the platform loop; the platform adds exactly 1 to the score when its point flag
was false and exactly 0 when it was true, and its flag is true afterwards; the score after the
loop is the score before plus the number of platforms landed on with a false flag. After the
tick and after any further ticks the platform still carries a true flag, so a later tick
landing on it adds 0. -/
theorem C4_idempotent_scoring (inp : Input) (w : World) (i : ℕ) (p : Platform)
    (hp : w.platforms[i]? = some p)
    (htouch : touchesPlatform w.position p = true) (htop : landsOnTop w.position p = true) :
    (collidePlatforms (resetTick w)).onFloor = true ∧
    (∀ c : Contact, (platformStep w.position c p).1.score = c.score + (if p.point then 0 else 1)) ∧
    (∀ c : Contact, (platformStep w.position c p).2 = { p with point := true }) ∧
    (collidePlatforms (resetTick w)).score = w.score + (w.platforms.countP
      (fun q => touchesPlatform w.position q && landsOnTop w.position q && !q.point) : ℕ) ∧
    (∀ inputs : List Input,
      (run (tick inp w) inputs).platforms[i]? = some { p with point := true }) ∧
    (∀ (position : Vector2) (c : Contact),
      (platformStep position c { p with point := true }).1.score = c.score) := by
  refine ⟨?_, ?_, ?_, ?_, ?_, ?_⟩
  · exact platformLoop_onFloor_of_lands w.position w.platforms p
      (List.getElem?_mem hp) htouch htop _
  · intro c
    rw [platformStep_score, htouch, htop]
    cases p.point <;> simp
  · intro c
    rw [platformStep_snd, awardPoint_of_lands _ _ htouch htop]
  · exact platformLoop_score _ _ _
  · intro inputs
    apply run_platforms_point inputs _ _ _ _ rfl
    rw [tick_platforms, List.getElem?_map, hp, Option.map_some',
      awardPoint_of_lands _ _ htouch htop]
  · intro position c
    rw [platformStep_score]
    simp

/-- C5: when a tick starts with the bottom edge of the player at or below the window height
(`position.y + 64 ≥ 720`), then for every velocity and input the death counter after the tick
is one more than before and the score is -1. -/
theorem C5_death_bookkeeping (inp : Input) (w : World)
    (hbottom : w.position.y + 64 ≥ 720) :
    (tick inp w).death_counter = w.death_counter + 1 ∧ (tick inp w).score = -1 := by
  have h : reachesBottom w.position = true := by
    unfold reachesBottom
    exact decide_eq_true hbottom
  rw [tick_death_counter_cases, tick_score_cases, if_pos h, if_pos h]
  exact ⟨rfl, rfl⟩

/-! ## The platform layout, evaluated -/

theorem platformWidth_values : platformWidth 0 = 150 ∧ platformWidth 1 = 0 ∧
    platformWidth 2 = 120 ∧ platformWidth 3 = 60 ∧ platformWidth 4 = 110 ∧
    platformWidth 5 = 120 ∧ platformWidth 6 = 133 ∧ platformWidth 7 = 180 ∧
    platformWidth 8 = 165 ∧ platformWidth 9 = 240 ∧ platformWidth 10 = 200 ∧
    platformWidth 11 = 100 := by decide

theorem initialPlatforms_eq : initialPlatforms =
    [⟨⟨0, 650⟩, 150, 25, false⟩, ⟨⟨120, 700⟩, 0, 25, false⟩, ⟨⟨300, 300⟩, 120, 25, false⟩,
     ⟨⟨230, 610⟩, 60, 25, false⟩, ⟨⟨450, 500⟩, 110, 25, false⟩, ⟨⟨690, 350⟩, 120, 25, false⟩,
     ⟨⟨800, 470⟩, 133, 25, false⟩, ⟨⟨990, 500⟩, 180, 25, false⟩, ⟨⟨1000, 360⟩, 165, 25, false⟩,
     ⟨⟨730, 150⟩, 240, 25, false⟩, ⟨⟨880, 200⟩, 200, 25, false⟩, ⟨⟨1060, 80⟩, 100, 25, false⟩] := by
  obtain ⟨h0, h1, h2, h3, h4, h5, h6, h7, h8, h9, h10, h11⟩ := platformWidth_values
  simp only [initialPlatforms, staticPlatformPos, List.enum, List.enumFrom, List.map]
  norm_num [h0, h1, h2, h3, h4, h5, h6, h7, h8, h9, h10, h11]

theorem tdiv_25_2 : Int.tdiv 25 2 = 12 := by decide

/-! ## Death ticks -/

theorem tick_position (inp : Input) (w : World) :
    (tick inp w).position =
      Vector2Add (beforeInput w).position (Vector2Scale (tick inp w).velocity TIMESTEP) := by
  show Vector2Add (airOrFloor (applyForces (inputBlock inp (beforeInput w)))).position _ = _
  rw [(airOrFloor_frame _).2.2.2.2]
  show Vector2Add (inputBlock inp (beforeInput w)).position _ = _
  rw [(inputBlock_frame _ _).2.2.2.2.1]
  rfl

/-- A player standing on the landing pad: `onFloor` is set and the pad keeps its point. -/
theorem C4_idempotent_scoring_witness :
    (mkWorld ⟨50, 586⟩ ⟨0, 0⟩ initialPlatforms (-1)).platforms[0]? = some ⟨⟨0, 650⟩, 150, 25, false⟩ ∧
    touchesPlatform (mkWorld ⟨50, 586⟩ ⟨0, 0⟩ initialPlatforms (-1)).position
      ⟨⟨0, 650⟩, 150, 25, false⟩ = true ∧
    landsOnTop (mkWorld ⟨50, 586⟩ ⟨0, 0⟩ initialPlatforms (-1)).position
      ⟨⟨0, 650⟩, 150, 25, false⟩ = true ∧
    (collidePlatforms (resetTick (mkWorld ⟨50, 586⟩ ⟨0, 0⟩ initialPlatforms (-1)))).onFloor = true ∧
    (run (tick noInput (mkWorld ⟨50, 586⟩ ⟨0, 0⟩ initialPlatforms (-1)))
      [noInput, noInput]).platforms[0]? = some ⟨⟨0, 650⟩, 150, 25, true⟩ := by
  have h1 : (mkWorld ⟨50, 586⟩ ⟨0, 0⟩ initialPlatforms (-1)).platforms[0]? =
      some ⟨⟨0, 650⟩, 150, 25, false⟩ := by
    rw [initialPlatforms_eq]
    rfl
  have h2 : touchesPlatform (mkWorld ⟨50, 586⟩ ⟨0, 0⟩ initialPlatforms (-1)).position
      ⟨⟨0, 650⟩, 150, 25, false⟩ = true := by
    norm_num [touchesPlatform, mkWorld, playerCenter, Vector2Add, Vector2DistanceSqr,
      GetClosestPointAABBCircle, Clamp, frameRecWidth, frameRecHeight]
  have h3 : landsOnTop (mkWorld ⟨50, 586⟩ ⟨0, 0⟩ initialPlatforms (-1)).position
      ⟨⟨0, 650⟩, 150, 25, false⟩ = true := by
    norm_num [landsOnTop, mkWorld, frameRecHeight, tdiv_25_2]
  have h := C4_idempotent_scoring noInput (mkWorld ⟨50, 586⟩ ⟨0, 0⟩ initialPlatforms (-1)) 0
    ⟨⟨0, 650⟩, 150, 25, false⟩ h1 h2 h3
  exact ⟨h1, h2, h3, h.1, h.2.2.2.2.1 [noInput, noInput]⟩

/-- A player below the bottom edge in the real layout: one death more, score -1. -/
theorem C5_death_bookkeeping_witness :
    (mkWorld ⟨50, 1970 / 3⟩ ⟨0, 800⟩ initialPlatforms 4).position.y + 64 ≥ 720 ∧
    (tick noInput (mkWorld ⟨50, 1970 / 3⟩ ⟨0, 800⟩ initialPlatforms 4)).death_counter = 1 ∧
    (tick noInput (mkWorld ⟨50, 1970 / 3⟩ ⟨0, 800⟩ initialPlatforms 4)).score = -1 := by
  have hb : (mkWorld ⟨50, 1970 / 3⟩ ⟨0, 800⟩ initialPlatforms 4).position.y + 64 ≥ 720 := by
    norm_num [mkWorld]
  have h := C5_death_bookkeeping noInput (mkWorld ⟨50, 1970 / 3⟩ ⟨0, 800⟩ initialPlatforms 4) hb
  exact ⟨hb, h.1, h.2⟩

/-- C8 fails as stated: with the score at 1000, a player that lands on the left part of the
platform below the goal scores its point (1001) and, sliding right, touches the goal on the
next tick, which puts the score back to 1000 on a tick that is not a death tick. -/
theorem C8_counterexample :
    (tick noInput (mkWorld ⟨1052, 16⟩ ⟨500, 0⟩ initialPlatforms 1000)).score = 1001 ∧
    reachesBottom (tick noInput (mkWorld ⟨1052, 16⟩ ⟨500, 0⟩ initialPlatforms 1000)).position
      = false ∧
    (tick noInput (tick noInput (mkWorld ⟨1052, 16⟩ ⟨500, 0⟩ initialPlatforms 1000))).score
      = 1000 := by
  have h1 : tick noInput (mkWorld ⟨1052, 16⟩ ⟨500, 0⟩ initialPlatforms 1000) =
      ⟨⟨1052 + 125 / 18, 16⟩, ⟨1250 / 3, 0⟩, true,
        [⟨⟨0, 650⟩, 150, 25, false⟩, ⟨⟨120, 700⟩, 0, 25, false⟩, ⟨⟨300, 300⟩, 120, 25, false⟩,
         ⟨⟨230, 610⟩, 60, 25, false⟩, ⟨⟨450, 500⟩, 110, 25, false⟩, ⟨⟨690, 350⟩, 120, 25, false⟩,
         ⟨⟨800, 470⟩, 133, 25, false⟩, ⟨⟨990, 500⟩, 180, 25, false⟩, ⟨⟨1000, 360⟩, 165, 25, false⟩,
         ⟨⟨730, 150⟩, 240, 25, false⟩, ⟨⟨880, 200⟩, 200, 25, false⟩, ⟨⟨1060, 80⟩, 100, 25, true⟩],
        1001, 0, ⟨0, 0⟩, ⟨0, 0⟩, ⟨0, 0⟩, 0⟩ := by
    rw [initialPlatforms_eq]
    norm_num [tick, mkWorld, integrate, clampVelocity, beforeClamp, airOrFloor, applyForces,
      inputBlock, beforeInput, leftEdge, rightEdge, topEdge, bottomEdge, beforeEdges, goalCheck,
      collidePlatforms, resetTick, platformLoop, platformStep, touchesPlatform, landsOnTop,
      sideContact, GetClosestPointAABBCircle, touchesGoal, reachesBottom, playerCenter,
      Vector2Add, Vector2Subtract, Vector2Scale, Vector2Negate, Vector2DistanceSqr, Clamp,
      noInput, goalPos, frameRecWidth, frameRecHeight, frameRecSteamerWidth,
      frameRecSteamerHeight, WINDOW_HEIGHT, WINDOW_WIDTH, TIMESTEP, TARGET_FPS, gravity, drag,
      playerMaxHorizontalVelocity, playerMaxVerticalVelocity, playerDeceleration, tdiv_25_2,
      keyForces, slingMechanic, initialSiopaoPos]
  rw [h1]
  refine ⟨rfl, ?_, ?_⟩
  · norm_num [reachesBottom, frameRecHeight, WINDOW_HEIGHT]
  · rw [tick_score_cases]
    norm_num [reachesBottom, touchesGoal, playerCenter, Vector2Add, Vector2DistanceSqr, goalPos,
      frameRecWidth, frameRecHeight, frameRecSteamerWidth, frameRecSteamerHeight, WINDOW_HEIGHT]

/-- C8, as the code has it: on a tick that is not a death tick the score after the tick is
1000 when the player touches the goal and otherwise the score before plus the points of the
platforms landed on; so it is at least the score before unless the goal is touched with a
score above 1000, and it never falls when the score before is at most 1000. On a death tick
the score becomes -1. -/
theorem C8_score_monotone (inp : Input) (w : World) :
    (w.position.y + 64 < 720 →
      (touchesGoal w.position = true → (tick inp w).score = 1000) ∧
      (touchesGoal w.position = false → (tick inp w).score ≥ w.score) ∧
      (w.score ≤ 1000 → (tick inp w).score ≥ w.score)) ∧
    (w.position.y + 64 ≥ 720 → (tick inp w).score = -1) := by
  constructor
  · intro hb
    have h : ¬ reachesBottom w.position = true := by
      unfold reachesBottom
      simp only [decide_eq_true_eq]
      show ¬ (720 ≤ w.position.y + 64)
      linarith
    rw [tick_score_cases, if_neg h]
    refine ⟨?_, ?_, ?_⟩
    · intro hg
      rw [if_pos hg]
    · intro hg
      rw [if_neg (by simp [hg])]
      have : (0 : ℤ) ≤ (w.platforms.countP
        (fun q => touchesPlatform w.position q && landsOnTop w.position q && !q.point) : ℕ) :=
        Int.natCast_nonneg _
      linarith
    · intro hs
      split_ifs
      · exact hs
      · have : (0 : ℤ) ≤ (w.platforms.countP
          (fun q => touchesPlatform w.position q && landsOnTop w.position q && !q.point) : ℕ) :=
          Int.natCast_nonneg _
        linarith
  · intro hb
    have h : reachesBottom w.position = true := by
      unfold reachesBottom
      exact decide_eq_true hb
    rw [tick_score_cases, if_pos h]

/-- A landing on the pad does not lower a score of 4; a death tick sets it to -1. -/
theorem C8_score_monotone_witness :
    (mkWorld ⟨50, 586⟩ ⟨0, 0⟩ initialPlatforms 4).position.y + 64 < 720 ∧
    (mkWorld ⟨50, 586⟩ ⟨0, 0⟩ initialPlatforms 4).score ≤ 1000 ∧
    (tick noInput (mkWorld ⟨50, 586⟩ ⟨0, 0⟩ initialPlatforms 4)).score ≥ 4 ∧
    (mkWorld ⟨50, 660⟩ ⟨0, 0⟩ initialPlatforms 4).position.y + 64 ≥ 720 ∧
    (tick noInput (mkWorld ⟨50, 660⟩ ⟨0, 0⟩ initialPlatforms 4)).score = -1 := by
  have h1 : (mkWorld ⟨50, 586⟩ ⟨0, 0⟩ initialPlatforms 4).position.y + 64 < 720 := by
    norm_num [mkWorld]
  have h2 : (mkWorld ⟨50, 586⟩ ⟨0, 0⟩ initialPlatforms 4).score ≤ 1000 := by
    norm_num [mkWorld]
  have h3 : (mkWorld ⟨50, 660⟩ ⟨0, 0⟩ initialPlatforms 4).position.y + 64 ≥ 720 := by
    norm_num [mkWorld]
  exact ⟨h1, h2,
    ((C8_score_monotone noInput (mkWorld ⟨50, 586⟩ ⟨0, 0⟩ initialPlatforms 4)).1 h1).2.2 h2,
    h3, (C8_score_monotone noInput (mkWorld ⟨50, 660⟩ ⟨0, 0⟩ initialPlatforms 4)).2 h3⟩

/-! ## Ticks in the air -/

theorem sideContact_of_vx_zero (position : Vector2) (p : Platform) (v : Vector2)
    (h : v.x = 0) : sideContact position p v = v := by
  unfold sideContact
  simp [h]

/-- With no horizontal velocity and no landing the platform loop changes nothing. -/
theorem platformLoop_of_no_landing (position : Vector2) (ps : List Platform) :
    ∀ c : Contact, c.velocity.x = 0 →
      (∀ p ∈ ps, ¬ (touchesPlatform position p = true ∧ landsOnTop position p = true)) →
      platformLoop position c ps = (c, ps) := by
  induction ps with
  | nil => intro c _ _; rfl
  | cons p ps ih =>
    intro c hv hno
    have hstep : platformStep position c p = (c, p) := by
      unfold platformStep
      by_cases h1 : touchesPlatform position p = true
      · have h2 : ¬ landsOnTop position p = true := fun h2 => hno p (List.mem_cons_self p ps) ⟨h1, h2⟩
        rw [if_pos h1, if_neg h2, sideContact_of_vx_zero _ _ _ hv]
      · rw [if_neg h1]
    simp only [platformLoop, hstep]
    rw [ih c hv (fun q hq => hno q (List.mem_cons_of_mem p hq))]

/-- A tick of free fall: no horizontal velocity, no landing, away from the screen edges. The
input is not read. -/
theorem tick_fall (inp : Input) (w : World)
    (hvx : w.velocity.x = 0) (hvy : 0 ≤ w.velocity.y)
    (hx0 : 0 < w.position.x) (hx1 : w.position.x + 64 < 1280)
    (hy0 : 0 < w.position.y) (hy1 : w.position.y + 64 < 720)
    (hno : ∀ p ∈ w.platforms,
      ¬ (touchesPlatform w.position p = true ∧ landsOnTop w.position p = true)) :
    tick inp w =
      { w with
        onFloor := false
        playerForces := ⟨0, 0⟩
        score := if touchesGoal w.position = true then 1000 else w.score
        velocity := ⟨0, min (w.velocity.y + 50 / 3) 800⟩
        position := ⟨w.position.x, w.position.y + min (w.velocity.y + 50 / 3) 800 / 60⟩ } := by
  have hloop := platformLoop_of_no_landing w.position w.platforms ⟨w.velocity, false, w.score⟩
    hvx hno
  have hc : collidePlatforms (resetTick w) = resetTick w := by
    unfold collidePlatforms
    show ({ resetTick w with
      velocity := (platformLoop w.position ⟨w.velocity, false, w.score⟩ w.platforms).1.velocity
      onFloor := (platformLoop w.position ⟨w.velocity, false, w.score⟩ w.platforms).1.onFloor
      score := (platformLoop w.position ⟨w.velocity, false, w.score⟩ w.platforms).1.score
      platforms := (platformLoop w.position ⟨w.velocity, false, w.score⟩ w.platforms).2 } : World) = _
    rw [hloop]
    rfl
  have hmin : min (w.velocity.y + 50 / 3) 800 =
      Clamp (w.velocity.y + 50 / 3) (-800) 800 := by
    have h1 : ¬ (w.velocity.y + 50 / 3 < -800) := by linarith
    unfold Clamp
    simp only [if_neg h1]
    by_cases h : w.velocity.y + 50 / 3 > 800
    · rw [if_pos h, min_eq_right h.le]
    · rw [if_neg h, min_eq_left (not_lt.mp h)]
  have hb : ¬ (720 ≤ w.position.y + 64) := by linarith
  have ht : ¬ (w.position.y ≤ 0) := by linarith
  have hr : ¬ (1280 ≤ w.position.x + 64) := by linarith
  have hl : ¬ (w.position.x ≤ 0) := by linarith
  clear hno hloop
  cases w with
  | mk position velocity onFloor platforms score death_counter playerForces initialMousePos
      currentMousePos force =>
    cases velocity with
    | mk vx vy =>
      simp only at hvx hvy hx0 hx1 hy0 hy1 hb ht hr hl hmin
      subst hvx
      simp only [tick, beforeClamp, beforeInput, beforeEdges, hc]
      by_cases hg : touchesGoal position = true
      · norm_num [resetTick, goalCheck, hg, bottomEdge, reachesBottom, topEdge, rightEdge, leftEdge,
          inputBlock, applyForces, airOrFloor, clampVelocity, integrate, Vector2Add,
          Vector2Subtract, Vector2Scale, frameRecHeight, frameRecWidth, WINDOW_HEIGHT,
          WINDOW_WIDTH, hb, ht, hr, hl, hmin, gravity, drag, TIMESTEP, TARGET_FPS,
          playerMaxHorizontalVelocity, playerMaxVerticalVelocity, Clamp]
        split_ifs <;> linarith
      · norm_num [resetTick, goalCheck, hg, bottomEdge, reachesBottom, topEdge, rightEdge, leftEdge,
          inputBlock, applyForces, airOrFloor, clampVelocity, integrate, Vector2Add,
          Vector2Subtract, Vector2Scale, frameRecHeight, frameRecWidth, WINDOW_HEIGHT,
          WINDOW_WIDTH, hb, ht, hr, hl, hmin, gravity, drag, TIMESTEP, TARGET_FPS,
          playerMaxHorizontalVelocity, playerMaxVerticalVelocity, Clamp]
        split_ifs <;> linarith

/-! ## The free-fall scenario -/

theorem run_replicate_succ (w : World) (inp : Input) (k : ℕ) :
    run w (List.replicate (k + 1) inp) = tick inp (run w (List.replicate k inp)) := by
  unfold run
  rw [List.replicate_succ', List.foldl_append]
  rfl

theorem fallVelocity_nonneg (k : ℕ) : 0 ≤ fallVelocity k := by
  unfold fallVelocity
  exact le_min (by positivity) (by norm_num)

theorem fallVelocity_succ_pos (k : ℕ) : 0 < fallVelocity (k + 1) := by
  unfold fallVelocity
  exact lt_min (by push_cast; positivity) (by norm_num)

theorem fallVelocity_succ (k : ℕ) :
    fallVelocity (k + 1) = min (fallVelocity k + 50 / 3) 800 := by
  unfold fallVelocity
  push_cast
  rcases le_total (50 * (k : ℚ) / 3) 800 with h | h
  · rw [min_eq_left h]
    congr 1
    ring
  · rw [min_eq_right h, min_eq_right (by linarith), min_eq_right (by norm_num)]

theorem fallVelocity_mono (k : ℕ) : fallVelocity k ≤ fallVelocity (k + 1) := by
  unfold fallVelocity
  apply min_le_min_right
  push_cast
  linarith

theorem fallHeight_closed (k : ℕ) (h : k ≤ 48) :
    fallHeight k = 50 + 5 * (k : ℚ) * ((k : ℚ) + 1) / 36 := by
  induction k with
  | zero => norm_num [fallHeight]
  | succ k ih =>
    have hk : (k : ℚ) + 1 ≤ 48 := by exact_mod_cast h
    rw [fallHeight, ih (by omega)]
    unfold fallVelocity
    rw [min_eq_left (by push_cast; linarith)]
    push_cast
    ring

theorem fallHeight_closed_cap (j : ℕ) :
    fallHeight (48 + j) = 1130 / 3 + 40 * (j : ℚ) / 3 := by
  induction j with
  | zero =>
    rw [Nat.add_zero, fallHeight_closed 48 (le_refl _)]
    norm_num
  | succ j ih =>
    rw [← Nat.add_assoc, fallHeight, ih]
    unfold fallVelocity
    rw [min_eq_right (by push_cast; nlinarith [(Nat.cast_nonneg j : (0 : ℚ) ≤ j)])]
    push_cast
    ring

theorem fallHeight_mono (k : ℕ) : fallHeight k < fallHeight (k + 1) := by
  rw [fallHeight]
  have := fallVelocity_succ_pos k
  have : 0 < fallVelocity (k + 1) / 60 := by positivity
  linarith

theorem fallHeight_ge (k : ℕ) : 50 ≤ fallHeight k := by
  induction k with
  | zero => norm_num [fallHeight]
  | succ k ih => exact le_trans ih (le_of_lt (fallHeight_mono k))

theorem fallHeight_lt (k : ℕ) (h : k ≤ 68) : fallHeight k + 64 < 720 := by
  by_cases h48 : k ≤ 48
  · rw [fallHeight_closed k h48]
    have hk : (k : ℚ) ≤ 48 := by exact_mod_cast h48
    have hk0 : (0 : ℚ) ≤ k := Nat.cast_nonneg k
    nlinarith
  · obtain ⟨j, rfl⟩ : ∃ j, k = 48 + j := ⟨k - 48, by omega⟩
    rw [fallHeight_closed_cap]
    have hj : (j : ℚ) ≤ 20 := by exact_mod_cast (by omega : j ≤ 20)
    linarith

/-- The state after `k + 1` ticks of the free-fall scenario, for `k + 1 ≤ 69`. -/
theorem run_fall (b : Bool) (s : ℤ) (f i c : Vector2) (fo : ℚ) (k : ℕ) (h : k + 1 ≤ 69) :
    run ⟨⟨50, 50⟩, ⟨0, 0⟩, b, [], s, 0, f, i, c, fo⟩ (List.replicate (k + 1) noInput) =
      ⟨⟨50, fallHeight (k + 1)⟩, ⟨0, fallVelocity (k + 1)⟩, false, [], s, 0, ⟨0, 0⟩, i, c, fo⟩ := by
  have hgoal : ∀ y : ℚ, touchesGoal ⟨50, y⟩ = false := by
    intro y
    unfold touchesGoal
    rw [decide_eq_false_iff_not]
    norm_num [playerCenter, Vector2Add, Vector2DistanceSqr, goalPos, frameRecWidth,
      frameRecHeight, frameRecSteamerWidth, frameRecSteamerHeight]
    nlinarith [sq_nonneg (y + 32 - 64)]
  induction k with
  | zero =>
    rw [run_replicate_succ]
    show tick noInput ⟨⟨50, 50⟩, ⟨0, 0⟩, b, [], s, 0, f, i, c, fo⟩ = _
    rw [tick_fall noInput ⟨⟨50, 50⟩, ⟨0, 0⟩, b, [], s, 0, f, i, c, fo⟩ rfl (le_refl _)
      (by norm_num) (by norm_num) (by norm_num) (by norm_num) (by simp)]
    simp only [hgoal]
    have hv : fallVelocity (0 + 1) = 50 / 3 := by norm_num [fallVelocity]
    have hy : fallHeight (0 + 1) = 50 + 50 / 3 / 60 := by
      rw [fallHeight, hv]
      rfl
    rw [hv, hy]
    norm_num
  | succ k ih =>
    rw [run_replicate_succ, ih (by omega)]
    have h1 := fallHeight_ge (k + 1)
    have h2 := fallHeight_lt (k + 1) (by omega)
    rw [tick_fall noInput
      ⟨⟨50, fallHeight (k + 1)⟩, ⟨0, fallVelocity (k + 1)⟩, false, [], s, 0, ⟨0, 0⟩, i, c, fo⟩
      rfl (fallVelocity_nonneg _) (by norm_num) (by norm_num)
      (by show (0 : ℚ) < fallHeight (k + 1); linarith) h2 (by simp)]
    simp only [hgoal]
    rw [← fallVelocity_succ (k + 1)]
    rfl

theorem slingMechanic_noInput (w : World) : slingMechanic noInput w = w := by
  unfold slingMechanic noInput
  simp

theorem inputBlock_noInput (w : World) : inputBlock noInput w = w := by
  unfold inputBlock
  split_ifs
  · rw [slingMechanic_noInput]
    simp [keyForces, noInput]
  · rfl

/-- The death tick of the free-fall scenario, from the state after 69 ticks. -/
theorem tick_fall_death (s : ℤ) (i c : Vector2) (fo : ℚ) :
    tick noInput ⟨⟨50, 1970 / 3⟩, ⟨0, 800⟩, false, [], s, 0, ⟨0, 0⟩, i, c, fo⟩ =
      ⟨⟨50, 50⟩, ⟨0, 0⟩, true, [], -1, 1, ⟨0, 0⟩, i, c, fo⟩ := by
  simp only [tick, beforeClamp, inputBlock_noInput]
  norm_num [integrate, clampVelocity, airOrFloor, applyForces,
    beforeInput, leftEdge, rightEdge, topEdge, bottomEdge, beforeEdges, goalCheck,
    collidePlatforms, resetTick, platformLoop, touchesGoal, reachesBottom, playerCenter,
    Vector2Add, Vector2Subtract, Vector2Scale, Vector2DistanceSqr, Clamp,
    goalPos, frameRecWidth, frameRecHeight, frameRecSteamerWidth,
    frameRecSteamerHeight, WINDOW_HEIGHT, WINDOW_WIDTH, TIMESTEP, TARGET_FPS, gravity, drag,
    playerMaxHorizontalVelocity, playerMaxVerticalVelocity, playerDeceleration,
    initialSiopaoPos]

/-- C10: from position (50, 50), velocity (0, 0) and death counter 0, with no platform and no
input, ticks 1 to 69 come before the death tick: each starts above the bottom edge, ends with
`onFloor` false, with `position.y` strictly greater than before, `position.x` still 50 and
`velocity.y` not smaller than before; `velocity.y` is the cap 800 from tick 48 on. Tick 70 is
the first to start with `position.y + 64 ≥ 720`, and it ends with position (50, 50) and death
counter 1. -/
theorem C10_free_fall (w : World) (hpos : w.position = ⟨50, 50⟩) (hvel : w.velocity = ⟨0, 0⟩)
    (hdeath : w.death_counter = 0) (hplat : w.platforms = []) :
    (∀ k < 69,
      (run w (List.replicate k noInput)).position.y + 64 < 720 ∧
      (run w (List.replicate (k + 1) noInput)).onFloor = false ∧
      (run w (List.replicate (k + 1) noInput)).position.y >
        (run w (List.replicate k noInput)).position.y ∧
      (run w (List.replicate (k + 1) noInput)).position.x = 50 ∧
      (run w (List.replicate (k + 1) noInput)).velocity.y ≥
        (run w (List.replicate k noInput)).velocity.y ∧
      (run w (List.replicate (k + 1) noInput)).death_counter = 0) ∧
    (∀ k, 48 ≤ k → k ≤ 69 → (run w (List.replicate k noInput)).velocity.y = 800) ∧
    (run w (List.replicate 69 noInput)).position.y + 64 ≥ 720 ∧
    (run w (List.replicate 70 noInput)).position = ⟨50, 50⟩ ∧
    (run w (List.replicate 70 noInput)).death_counter = 1 := by
  cases w with
  | mk position velocity b platforms s death_counter f i c fo =>
    simp only at hpos hvel hdeath hplat
    subst hpos hvel hdeath hplat
    have hstate : ∀ k, k ≤ 69 →
        (run ⟨⟨50, 50⟩, ⟨0, 0⟩, b, [], s, 0, f, i, c, fo⟩ (List.replicate k noInput)).position =
          ⟨50, fallHeight k⟩ ∧
        (run ⟨⟨50, 50⟩, ⟨0, 0⟩, b, [], s, 0, f, i, c, fo⟩ (List.replicate k noInput)).velocity =
          ⟨0, fallVelocity k⟩ := by
      intro k hk
      cases k with
      | zero =>
        refine ⟨?_, ?_⟩
        · show (⟨50, 50⟩ : Vector2) = ⟨50, fallHeight 0⟩
          rfl
        · show (⟨0, 0⟩ : Vector2) = ⟨0, fallVelocity 0⟩
          norm_num [fallVelocity]
      | succ k =>
        rw [run_fall b s f i c fo k hk]
        exact ⟨rfl, rfl⟩
    have h69 : fallHeight 69 = 1970 / 3 := by
      rw [show (69 : ℕ) = 48 + 21 from rfl, fallHeight_closed_cap]
      norm_num
    have hv69 : fallVelocity 69 = 800 := by norm_num [fallVelocity]
    refine ⟨?_, ?_, ?_, ?_, ?_⟩
    · intro k hk
      have h0 := hstate k (by omega)
      have h1 := run_fall b s f i c fo k (by omega)
      refine ⟨?_, ?_, ?_, ?_, ?_, ?_⟩
      · rw [h0.1]
        exact fallHeight_lt k (by omega)
      · rw [h1]
      · rw [h1, h0.1]
        exact fallHeight_mono k
      · rw [h1]
      · rw [h1, h0.2]
        exact fallVelocity_mono k
      · rw [h1]
    · intro k h48 h69
      rw [(hstate k h69).2]
      show fallVelocity k = 800
      unfold fallVelocity
      have : (48 : ℚ) ≤ k := by exact_mod_cast h48
      exact min_eq_right (by linarith)
    · rw [(hstate 69 (le_refl _)).1]
      show fallHeight 69 + 64 ≥ 720
      rw [h69]
      norm_num
    · rw [show (70 : ℕ) = 69 + 1 from rfl, run_replicate_succ, run_fall b s f i c fo 68 (by norm_num),
        h69, hv69, tick_fall_death]
    · rw [show (70 : ℕ) = 69 + 1 from rfl, run_replicate_succ, run_fall b s f i c fo 68 (by norm_num),
        h69, hv69, tick_fall_death]

/-- The scenario world built by `mkWorld` dies on tick 70 and restarts at the spawn point. -/
theorem C10_free_fall_witness :
    (mkWorld ⟨50, 50⟩ ⟨0, 0⟩ [] (-1)).position = ⟨50, 50⟩ ∧
    (mkWorld ⟨50, 50⟩ ⟨0, 0⟩ [] (-1)).velocity = ⟨0, 0⟩ ∧
    (mkWorld ⟨50, 50⟩ ⟨0, 0⟩ [] (-1)).death_counter = 0 ∧
    (mkWorld ⟨50, 50⟩ ⟨0, 0⟩ [] (-1)).platforms = [] ∧
    (run (mkWorld ⟨50, 50⟩ ⟨0, 0⟩ [] (-1)) (List.replicate 69 noInput)).position.y + 64 ≥ 720 ∧
    (run (mkWorld ⟨50, 50⟩ ⟨0, 0⟩ [] (-1)) (List.replicate 70 noInput)).position = ⟨50, 50⟩ ∧
    (run (mkWorld ⟨50, 50⟩ ⟨0, 0⟩ [] (-1)) (List.replicate 70 noInput)).death_counter = 1 :=
  ⟨rfl, rfl, rfl, rfl, (C10_free_fall (mkWorld ⟨50, 50⟩ ⟨0, 0⟩ [] (-1)) rfl rfl rfl rfl).2.2⟩

/-! ## Ticks in the air with horizontal motion -/

theorem Clamp_of_gt_max (value min max : ℚ) (h : max < value) : Clamp value min max = max := by
  unfold Clamp
  dsimp only
  split_ifs <;> linarith

theorem touchesPlatform_eq_false_of_right (position : Vector2) (p : Platform)
    (h : p.position.x + (p.width : ℚ) < position.x) : touchesPlatform position p = false := by
  unfold touchesPlatform
  rw [decide_eq_false_iff_not, not_le]
  simp only [Vector2DistanceSqr, GetClosestPointAABBCircle, playerCenter, Vector2Add,
    frameRecWidth, frameRecHeight]
  rw [Clamp_of_gt_max _ _ _ (by linarith)]
  nlinarith [mul_self_nonneg
    (position.y + 64 / 2 - Clamp (position.y + 64 / 2) p.position.y (p.position.y + (p.height : ℚ)))]

theorem touchesPlatform_eq_false_of_above (position : Vector2) (p : Platform)
    (hh : 0 ≤ (p.height : ℚ)) (h : position.y + 64 < p.position.y) :
    touchesPlatform position p = false := by
  unfold touchesPlatform
  rw [decide_eq_false_iff_not, not_le]
  simp only [Vector2DistanceSqr, GetClosestPointAABBCircle, playerCenter, Vector2Add,
    frameRecWidth, frameRecHeight]
  have hc : Clamp (position.y + 64 / 2) p.position.y (p.position.y + (p.height : ℚ)) =
      p.position.y := by
    unfold Clamp
    dsimp only
    split_ifs <;> linarith
  rw [hc]
  nlinarith [mul_self_nonneg
    (position.x + 64 / 2 - Clamp (position.x + 64 / 2) p.position.x (p.position.x + (p.width : ℚ)))]

theorem platformStep_id (position : Vector2) (c : Contact) (p : Platform)
    (h : touchesPlatform position p = false ∨
      (landsOnTop position p = false ∧ sideContact position p c.velocity = c.velocity)) :
    platformStep position c p = (c, p) := by
  unfold platformStep
  rcases h with h | ⟨h1, h2⟩
  · simp [h]
  · by_cases ht : touchesPlatform position p = true
    · simp [ht, h1, h2]
    · simp [ht]

theorem platformLoop_id (position : Vector2) (c : Contact) (ps : List Platform)
    (h : ∀ p ∈ ps, touchesPlatform position p = false ∨
      (landsOnTop position p = false ∧ sideContact position p c.velocity = c.velocity)) :
    platformLoop position c ps = (c, ps) := by
  induction ps with
  | nil => rfl
  | cons p ps ih =>
    simp only [platformLoop, platformStep_id position c p (h p (List.mem_cons_self p ps))]
    rw [ih (fun q hq => h q (List.mem_cons_of_mem p hq))]

theorem rightEdge_of_wall (w : World) (hr : 1280 ≤ w.position.x + 64) (hv : 0 ≤ w.velocity.x) :
    rightEdge w = { w with velocity := ⟨0, w.velocity.y⟩, position := ⟨1216, w.position.y⟩ } := by
  unfold rightEdge
  rw [if_pos (by show (1280 : ℚ) ≤ w.position.x + 64; exact hr)]
  by_cases h : w.velocity.x > 0
  · rw [if_pos h]
    norm_num [WINDOW_WIDTH, frameRecWidth]
  · rw [if_neg h]
    have h0 : w.velocity.x = 0 := le_antisymm (not_lt.mp h) hv
    cases w with
    | mk position velocity onFloor platforms score death_counter playerForces initialMousePos
        currentMousePos force =>
      cases velocity with
      | mk vx vy =>
        simp only at h0
        subst h0
        norm_num [WINDOW_WIDTH, frameRecWidth]

theorem rightEdge_of_no_wall (w : World) (hr : ¬ 1280 ≤ w.position.x + 64) : rightEdge w = w := by
  unfold rightEdge
  rw [if_neg (by show ¬ (1280 : ℚ) ≤ w.position.x + 64; exact hr)]

theorem leftEdge_of_pos (w : World) (h : 0 < w.position.x) : leftEdge w = w := by
  unfold leftEdge
  rw [if_neg (not_le.mpr h)]

theorem topEdge_of_pos (w : World) (h : 0 < w.position.y) : topEdge w = w := by
  unfold topEdge
  rw [if_neg (not_le.mpr h)]

theorem bottomEdge_of_above (w : World) (h : w.position.y + 64 < 720) : bottomEdge w = w := by
  unfold bottomEdge reachesBottom
  rw [if_neg]
  rw [decide_eq_true_eq]
  show ¬ (720 : ℚ) ≤ w.position.y + 64
  linarith

theorem inputBlock_of_air (inp : Input) (w : World) (h : w.onFloor = false) :
    inputBlock inp w = w := by
  unfold inputBlock
  rw [if_neg (by simp [h])]

/-- Gravity, drag and the clamp on a velocity with `0 ≤ x ≤ 500` and `0 ≤ y`, no force. -/
theorem air_velocity (w : World) (h : w.onFloor = false) (hf : w.playerForces = ⟨0, 0⟩)
    (hvx0 : 0 ≤ w.velocity.x) (hvx1 : w.velocity.x ≤ 500) (hvy : 0 ≤ w.velocity.y) :
    clampVelocity (airOrFloor (applyForces w)) =
      { w with velocity := ⟨w.velocity.x * (29 / 30), min (w.velocity.y + 50 / 3) 800⟩ } := by
  have hx : Clamp (w.velocity.x + 0 + 0 - (w.velocity.x + 0 + 0) * drag * TIMESTEP * 2)
      (-playerMaxHorizontalVelocity) playerMaxHorizontalVelocity = w.velocity.x * (29 / 30) := by
    have he : w.velocity.x + 0 + 0 - (w.velocity.x + 0 + 0) * drag * TIMESTEP * 2 =
        w.velocity.x * (29 / 30) := by
      norm_num [drag, TIMESTEP, TARGET_FPS]
      ring
    rw [he]
    exact Clamp_of_mem _ _ _ (by norm_num [playerMaxHorizontalVelocity]; linarith)
      (by norm_num [playerMaxHorizontalVelocity]; linarith)
  have hy : Clamp (w.velocity.y + 0 + gravity * TIMESTEP * 2 - 0)
      (-playerMaxVerticalVelocity) playerMaxVerticalVelocity =
        min (w.velocity.y + 50 / 3) 800 := by
    have he : w.velocity.y + 0 + gravity * TIMESTEP * 2 - 0 = w.velocity.y + 50 / 3 := by
      norm_num [gravity, TIMESTEP, TARGET_FPS]
    rw [he]
    have h1 : ¬ (w.velocity.y + 50 / 3 < -playerMaxVerticalVelocity) := by
      norm_num [playerMaxVerticalVelocity]
      linarith
    unfold Clamp
    simp only [if_neg h1]
    by_cases h2 : w.velocity.y + 50 / 3 > playerMaxVerticalVelocity
    · rw [if_pos h2]
      exact (min_eq_right (by norm_num [playerMaxVerticalVelocity] at h2 ⊢; linarith)).symm
    · rw [if_neg h2]
      exact (min_eq_left (by norm_num [playerMaxVerticalVelocity] at h2 ⊢; linarith)).symm
  cases w with
  | mk position velocity onFloor platforms score death_counter playerForces initialMousePos
      currentMousePos force =>
    simp only at h hf hx hy
    subst h hf
    simp only [clampVelocity, airOrFloor, applyForces, Vector2Add, Vector2Subtract,
      Bool.not_false, if_true, hx, hy]

/-- A tick in the air on which the platform loop changes nothing: gravity, drag, the right
screen edge, clamp and integration are all that happens. The input is not read. -/
theorem tick_air (inp : Input) (w : World)
    (hloop : platformLoop w.position ⟨w.velocity, false, w.score⟩ w.platforms =
      (⟨w.velocity, false, w.score⟩, w.platforms))
    (hvx0 : 0 ≤ w.velocity.x) (hvx1 : w.velocity.x ≤ 500) (hvy : 0 ≤ w.velocity.y)
    (hx0 : 0 < w.position.x) (hy0 : 0 < w.position.y) (hy1 : w.position.y + 64 < 720) :
    tick inp w =
      { w with
        onFloor := false
        playerForces := ⟨0, 0⟩
        score := if touchesGoal w.position = true then 1000 else w.score
        velocity := ⟨if 1280 ≤ w.position.x + 64 then 0 else w.velocity.x * (29 / 30),
          min (w.velocity.y + 50 / 3) 800⟩
        position :=
          ⟨(if 1280 ≤ w.position.x + 64 then 1216 else w.position.x) +
            (if 1280 ≤ w.position.x + 64 then 0 else w.velocity.x * (29 / 30)) * TIMESTEP,
           w.position.y + min (w.velocity.y + 50 / 3) 800 * TIMESTEP⟩ } := by
  have hc : collidePlatforms (resetTick w) = resetTick w := by
    unfold collidePlatforms
    show ({ resetTick w with
      velocity := (platformLoop w.position ⟨w.velocity, false, w.score⟩ w.platforms).1.velocity
      onFloor := (platformLoop w.position ⟨w.velocity, false, w.score⟩ w.platforms).1.onFloor
      score := (platformLoop w.position ⟨w.velocity, false, w.score⟩ w.platforms).1.score
      platforms := (platformLoop w.position ⟨w.velocity, false, w.score⟩ w.platforms).2 } : World) = _
    rw [hloop]
    rfl
  have hE : beforeEdges w =
      ⟨w.position, w.velocity, false, w.platforms,
        if touchesGoal w.position = true then 1000 else w.score, w.death_counter, ⟨0, 0⟩,
        w.initialMousePos, w.currentMousePos, w.force⟩ := by
    unfold beforeEdges
    rw [hc]
    unfold goalCheck
    show (if touchesGoal w.position = true then _ else _) = _
    split_ifs <;> rfl
  unfold tick beforeClamp beforeInput
  rw [hE, bottomEdge_of_above ⟨w.position, w.velocity, false, w.platforms,
        if touchesGoal w.position = true then 1000 else w.score, w.death_counter, ⟨0, 0⟩,
        w.initialMousePos, w.currentMousePos, w.force⟩ hy1,
    topEdge_of_pos ⟨w.position, w.velocity, false, w.platforms,
        if touchesGoal w.position = true then 1000 else w.score, w.death_counter, ⟨0, 0⟩,
        w.initialMousePos, w.currentMousePos, w.force⟩ hy0]
  by_cases hr : 1280 ≤ w.position.x + 64
  · rw [rightEdge_of_wall ⟨w.position, w.velocity, false, w.platforms,
        if touchesGoal w.position = true then 1000 else w.score, w.death_counter, ⟨0, 0⟩,
        w.initialMousePos, w.currentMousePos, w.force⟩ hr hvx0]
    dsimp only
    rw [leftEdge_of_pos ⟨⟨1216, w.position.y⟩, ⟨0, w.velocity.y⟩, false, w.platforms,
        if touchesGoal w.position = true then 1000 else w.score, w.death_counter, ⟨0, 0⟩,
        w.initialMousePos, w.currentMousePos, w.force⟩ (by norm_num)]
    rw [inputBlock_of_air inp ⟨⟨1216, w.position.y⟩, ⟨0, w.velocity.y⟩, false, w.platforms,
        if touchesGoal w.position = true then 1000 else w.score, w.death_counter, ⟨0, 0⟩,
        w.initialMousePos, w.currentMousePos, w.force⟩ rfl]
    rw [air_velocity ⟨⟨1216, w.position.y⟩, ⟨0, w.velocity.y⟩, false, w.platforms,
        if touchesGoal w.position = true then 1000 else w.score, w.death_counter, ⟨0, 0⟩,
        w.initialMousePos, w.currentMousePos, w.force⟩ rfl rfl (le_refl _) (by norm_num) hvy]
    simp only [if_pos hr]
    unfold integrate
    simp [Vector2Add, Vector2Scale]
  · rw [rightEdge_of_no_wall ⟨w.position, w.velocity, false, w.platforms,
        if touchesGoal w.position = true then 1000 else w.score, w.death_counter, ⟨0, 0⟩,
        w.initialMousePos, w.currentMousePos, w.force⟩ hr]
    rw [leftEdge_of_pos ⟨w.position, w.velocity, false, w.platforms,
        if touchesGoal w.position = true then 1000 else w.score, w.death_counter, ⟨0, 0⟩,
        w.initialMousePos, w.currentMousePos, w.force⟩ hx0]
    rw [inputBlock_of_air inp ⟨w.position, w.velocity, false, w.platforms,
        if touchesGoal w.position = true then 1000 else w.score, w.death_counter, ⟨0, 0⟩,
        w.initialMousePos, w.currentMousePos, w.force⟩ rfl]
    rw [air_velocity ⟨w.position, w.velocity, false, w.platforms,
        if touchesGoal w.position = true then 1000 else w.score, w.death_counter, ⟨0, 0⟩,
        w.initialMousePos, w.currentMousePos, w.force⟩ rfl rfl hvx0 hvx1 hvy]
    simp only [if_neg hr]
    unfold integrate
    simp [Vector2Add, Vector2Scale]

/-! ## The goal and the fall along the right screen edge -/

/-- To the right of the goal, moving right, either beyond every platform or still above
platform 8: the platform loop over the real layout changes nothing. -/
theorem initialPlatforms_loop_right (position : Vector2) (c : Contact)
    (hx : 1112 ≤ position.x) (hy : 32 ≤ position.y) (hv : 0 ≤ c.velocity.x)
    (hr : 1170 < position.x ∨ position.y + 64 < 360) :
    platformLoop position c initialPlatforms = (c, initialPlatforms) := by
  apply platformLoop_id
  intro p hp
  rw [initialPlatforms_eq] at hp
  simp only [List.mem_cons, List.mem_singleton, List.not_mem_nil, or_false] at hp
  rcases hp with rfl | rfl | rfl | rfl | rfl | rfl | rfl | rfl | rfl | rfl | rfl | rfl
  · exact Or.inl (touchesPlatform_eq_false_of_right _ _ (by norm_num; linarith))
  · exact Or.inl (touchesPlatform_eq_false_of_right _ _ (by norm_num; linarith))
  · exact Or.inl (touchesPlatform_eq_false_of_right _ _ (by norm_num; linarith))
  · exact Or.inl (touchesPlatform_eq_false_of_right _ _ (by norm_num; linarith))
  · exact Or.inl (touchesPlatform_eq_false_of_right _ _ (by norm_num; linarith))
  · exact Or.inl (touchesPlatform_eq_false_of_right _ _ (by norm_num; linarith))
  · exact Or.inl (touchesPlatform_eq_false_of_right _ _ (by norm_num; linarith))
  · rcases hr with h | h
    · exact Or.inl (touchesPlatform_eq_false_of_right _ _ (by norm_num; linarith))
    · exact Or.inl (touchesPlatform_eq_false_of_above _ _ (by norm_num) (by norm_num; linarith))
  · rcases hr with h | h
    · exact Or.inl (touchesPlatform_eq_false_of_right _ _ (by norm_num; linarith))
    · exact Or.inl (touchesPlatform_eq_false_of_above _ _ (by norm_num) (by norm_num; linarith))
  · exact Or.inl (touchesPlatform_eq_false_of_right _ _ (by norm_num; linarith))
  · exact Or.inl (touchesPlatform_eq_false_of_right _ _ (by norm_num; linarith))
  · refine Or.inr ⟨?_, ?_⟩
    · unfold landsOnTop
      rw [decide_eq_false_iff_not]
      norm_num [frameRecHeight, tdiv_25_2]
      linarith
    · unfold sideContact
      have h1 : ¬ (position.x > 1060 ∧ c.velocity.x < 0) := fun h => absurd h.2 (not_lt.mpr hv)
      have h2 : ¬ (position.x + frameRecWidth < 1060 + ((100 : ℤ) : ℚ) ∧ c.velocity.x > 0) := by
        intro h
        have := h.1
        norm_num [frameRecWidth] at this
        linarith
      simp only [if_neg h1, if_neg h2]

theorem touchesGoal_above_bottom (position : Vector2) (h : touchesGoal position = true) :
    reachesBottom position = false := by
  unfold touchesGoal at h
  rw [decide_eq_true_eq] at h
  unfold reachesBottom
  rw [decide_eq_false_iff_not]
  simp only [Vector2DistanceSqr, playerCenter, Vector2Add, goalPos, frameRecWidth,
    frameRecHeight, frameRecSteamerWidth, frameRecSteamerHeight] at h
  norm_num [frameRecHeight, WINDOW_HEIGHT]
  nlinarith [mul_self_nonneg (position.x + 64 / 2 - (1080 + 64 / 2)),
    mul_self_nonneg (position.y + 64 / 2 - (40 + 48 / 2) - 32)]

theorem tick_score_ge (inp : Input) (w : World) (hs : 1000 ≤ w.score)
    (hb : reachesBottom w.position = false) : 1000 ≤ (tick inp w).score := by
  rw [tick_score_cases, if_neg (by simp [hb])]
  split_ifs
  · exact le_refl _
  · have : (0 : ℤ) ≤ (w.platforms.countP
      (fun q => touchesPlatform w.position q && landsOnTop w.position q && !q.point) : ℕ) :=
      Int.natCast_nonneg _
    linarith

theorem run_score_ge (inputs : List Input) :
    ∀ w : World, 1000 ≤ w.score →
      (∀ k < inputs.length, reachesBottom (run w (inputs.take k)).position = false) →
      ∀ k ≤ inputs.length, 1000 ≤ (run w (inputs.take k)).score := by
  induction inputs with
  | nil =>
    intro w hs _ k hk
    have : k = 0 := Nat.le_zero.mp hk
    subst this
    exact hs
  | cons i is ih =>
    intro w hs hno k hk
    cases k with
    | zero => exact hs
    | succ j =>
      have h0 : reachesBottom w.position = false := hno 0 (Nat.succ_pos _)
      show 1000 ≤ (run (tick i w) (is.take j)).score
      apply ih (tick i w) (tick_score_ge i w hs h0)
      · intro m hm
        exact hno (m + 1) (Nat.succ_lt_succ hm)
      · exact Nat.le_of_succ_le_succ hk

theorem touchesGoal_start : touchesGoal ⟨1112, 32⟩ = true := by
  unfold touchesGoal
  rw [decide_eq_true_eq]
  norm_num [Vector2DistanceSqr, playerCenter, Vector2Add, goalPos, frameRecWidth,
    frameRecHeight, frameRecSteamerWidth, frameRecSteamerHeight]

/-- The run from the goal at (1112, 32) with velocity (500, 800) and no input: for 47 ticks
the player drifts right past every platform and falls at the vertical cap. -/
theorem run_goal_fall (k : ℕ) (hk : k ≤ 47) :
    (run (mkWorld ⟨1112, 32⟩ ⟨500, 800⟩ initialPlatforms 0) (List.replicate k noInput)).platforms
      = initialPlatforms ∧
    (run (mkWorld ⟨1112, 32⟩ ⟨500, 800⟩ initialPlatforms 0) (List.replicate k noInput)).position.y
      = 32 + 40 * (k : ℚ) / 3 ∧
    (run (mkWorld ⟨1112, 32⟩ ⟨500, 800⟩ initialPlatforms 0) (List.replicate k noInput)).velocity.y
      = 800 ∧
    0 ≤ (run (mkWorld ⟨1112, 32⟩ ⟨500, 800⟩ initialPlatforms 0)
      (List.replicate k noInput)).velocity.x ∧
    (run (mkWorld ⟨1112, 32⟩ ⟨500, 800⟩ initialPlatforms 0)
      (List.replicate k noInput)).velocity.x ≤ 500 ∧
    1112 ≤ (run (mkWorld ⟨1112, 32⟩ ⟨500, 800⟩ initialPlatforms 0)
      (List.replicate k noInput)).position.x ∧
    (k ≤ 12 →
      500 - 50 * (k : ℚ) / 3 ≤ (run (mkWorld ⟨1112, 32⟩ ⟨500, 800⟩ initialPlatforms 0)
        (List.replicate k noInput)).velocity.x ∧
      1112 + 5 * (k : ℚ) ≤ (run (mkWorld ⟨1112, 32⟩ ⟨500, 800⟩ initialPlatforms 0)
        (List.replicate k noInput)).position.x ∧
      (run (mkWorld ⟨1112, 32⟩ ⟨500, 800⟩ initialPlatforms 0)
        (List.replicate k noInput)).position.x ≤ 1112 + 25 * (k : ℚ) / 3) ∧
    (12 ≤ k → 1170 < (run (mkWorld ⟨1112, 32⟩ ⟨500, 800⟩ initialPlatforms 0)
      (List.replicate k noInput)).position.x) ∧
    (1 ≤ k → (run (mkWorld ⟨1112, 32⟩ ⟨500, 800⟩ initialPlatforms 0)
      (List.replicate k noInput)).score = 1000) := by
  induction k with
  | zero =>
    refine ⟨rfl, ?_, rfl, ?_, ?_, ?_, ?_, ?_, ?_⟩
    · show (32 : ℚ) = 32 + 40 * ((0 : ℕ) : ℚ) / 3
      norm_num
    · show (0 : ℚ) ≤ 500
      norm_num
    · show (500 : ℚ) ≤ 500
      norm_num
    · show (1112 : ℚ) ≤ 1112
      norm_num
    · intro _
      refine ⟨?_, ?_, ?_⟩
      · show 500 - 50 * ((0 : ℕ) : ℚ) / 3 ≤ (500 : ℚ)
        norm_num
      · show 1112 + 5 * ((0 : ℕ) : ℚ) ≤ (1112 : ℚ)
        norm_num
      · show (1112 : ℚ) ≤ 1112 + 25 * ((0 : ℕ) : ℚ) / 3
        norm_num
    · intro h
      omega
    · intro h
      omega
  | succ k ih =>
    obtain ⟨hp, hy, hvy, hvx0, hvx1, hx, hA, hB, hS⟩ := ih (by omega)
    have hkq : (k : ℚ) ≤ 46 := by exact_mod_cast (by omega : k ≤ 46)
    have hk0 : (0 : ℚ) ≤ k := Nat.cast_nonneg k
    rw [run_replicate_succ]
    generalize run (mkWorld ⟨1112, 32⟩ ⟨500, 800⟩ initialPlatforms 0)
      (List.replicate k noInput) = w at hp hy hvy hvx0 hvx1 hx hA hB hS
    have hregion : 1170 < w.position.x ∨ w.position.y + 64 < 360 := by
      by_cases h12 : 12 ≤ k
      · exact Or.inl (hB h12)
      · right
        have : (k : ℚ) ≤ 11 := by exact_mod_cast (by omega : k ≤ 11)
        rw [hy]
        linarith
    have hloop : platformLoop w.position ⟨w.velocity, false, w.score⟩ w.platforms =
        (⟨w.velocity, false, w.score⟩, w.platforms) := by
      rw [hp]
      exact initialPlatforms_loop_right w.position _ hx (by rw [hy]; linarith) hvx0 hregion
    have ht := tick_air noInput w hloop hvx0 hvx1 (by rw [hvy]; norm_num) (by linarith)
      (by rw [hy]; linarith) (by rw [hy]; linarith)
    rw [ht]
    have hmin : min (w.velocity.y + 50 / 3) 800 = 800 := by
      rw [hvy]
      norm_num
    have hT : TIMESTEP = 1 / 60 := by norm_num [TIMESTEP, TARGET_FPS]
    rw [hmin, hT]
    dsimp only
    refine ⟨hp, ?_, rfl, ?_, ?_, ?_, ?_, ?_, ?_⟩
    · rw [hy]
      push_cast
      ring
    · split_ifs
      · exact le_refl _
      · linarith
    · split_ifs
      · norm_num
      · linarith
    · split_ifs
      · norm_num
      · linarith
    · intro h12
      have hk11 : (k : ℚ) ≤ 11 := by exact_mod_cast (by omega : k ≤ 11)
      obtain ⟨a1, a2, a3⟩ := hA (by omega)
      have hnw : ¬ (1280 ≤ w.position.x + 64) := by
        intro h
        linarith
      simp only [if_neg hnw]
      push_cast
      refine ⟨by linarith, by linarith, by linarith⟩
    · intro h12
      by_cases hk12 : 12 ≤ k
      · have hb := hB hk12
        split_ifs
        · norm_num
        · linarith
      · have hk11 : k = 11 := by omega
        subst hk11
        obtain ⟨a1, a2, a3⟩ := hA (by omega)
        have hnw : ¬ (1280 ≤ w.position.x + 64) := by
          intro h
          norm_num at a3
          linarith
        simp only [if_neg hnw]
        norm_num at a1 a2
        linarith
    · intro _
      by_cases hk1 : 1 ≤ k
      · rw [hS hk1]
        simp
      · have hk0' : k = 0 := by omega
        subst hk0'
        obtain ⟨a1, a2, a3⟩ := hA (by omega)
        have hx0 : w.position.x = 1112 := by
          norm_num at a2 a3
          linarith
        have hy0 : w.position.y = 32 := by
          rw [hy]
          norm_num
        have hpos : w.position = ⟨1112, 32⟩ := by
          cases hw : w.position with
          | mk px py =>
            rw [hw] at hx0 hy0
            simp only at hx0 hy0
            rw [hx0, hy0]
        rw [hpos, touchesGoal_start]
        simp

/-- C7 fails as stated: from (1112, 32) with velocity (500, 800) in the real layout the first
tick touches the goal and sets the score to 1000; with no input the player then drifts to the
right screen edge and falls past every platform, the score staying 1000 for the next 46 ticks,
and the 47th later tick is a death tick that leaves the score at -1, below 1000. -/
theorem C7_counterexample :
    touchesGoal (mkWorld ⟨1112, 32⟩ ⟨500, 800⟩ initialPlatforms 0).position = true ∧
    (tick noInput (mkWorld ⟨1112, 32⟩ ⟨500, 800⟩ initialPlatforms 0)).score = 1000 ∧
    (run (tick noInput (mkWorld ⟨1112, 32⟩ ⟨500, 800⟩ initialPlatforms 0))
      (List.replicate 46 noInput)).score = 1000 ∧
    (run (tick noInput (mkWorld ⟨1112, 32⟩ ⟨500, 800⟩ initialPlatforms 0))
      (List.replicate 47 noInput)).score = -1 := by
  have hrun : ∀ n : ℕ, run (tick noInput (mkWorld ⟨1112, 32⟩ ⟨500, 800⟩ initialPlatforms 0))
      (List.replicate n noInput) =
      run (mkWorld ⟨1112, 32⟩ ⟨500, 800⟩ initialPlatforms 0) (List.replicate (n + 1) noInput) :=
    fun n => rfl
  refine ⟨touchesGoal_start, ?_, ?_, ?_⟩
  · exact (run_goal_fall 1 (by norm_num)).2.2.2.2.2.2.2.2 (le_refl _)
  · rw [hrun]
    exact (run_goal_fall 47 (by norm_num)).2.2.2.2.2.2.2.2 (by norm_num)
  · rw [hrun, run_replicate_succ, tick_score_cases]
    have hy := (run_goal_fall 47 (by norm_num)).2.1
    have hb : reachesBottom (run (mkWorld ⟨1112, 32⟩ ⟨500, 800⟩ initialPlatforms 0)
        (List.replicate 47 noInput)).position = true := by
      unfold reachesBottom
      rw [decide_eq_true_eq, hy]
      norm_num [frameRecHeight, WINDOW_HEIGHT]
    rw [if_pos hb]

/-- C7, as the code has it: a tick in which the player's centre is within 32 of the goal's
centre sets the score to 1000, and the score stays at least 1000 on every later tick for as
long as no later tick is a death tick; a death tick (one that starts with the bottom edge of
the player at 720 or below) resets the score to -1, also after the goal was touched. -/
theorem C7_victory_until_death (inp : Input) (w : World) (inputs : List Input)
    (hgoal : touchesGoal w.position = true) :
    (tick inp w).score = 1000 ∧
    ((∀ k < inputs.length,
        reachesBottom (run (tick inp w) (inputs.take k)).position = false) →
      ∀ k ≤ inputs.length, 1000 ≤ (run (tick inp w) (inputs.take k)).score) ∧
    (∀ (w1 : World) (inp1 : Input), reachesBottom w1.position = true →
      (tick inp1 w1).score = -1) := by
  have h1000 : (tick inp w).score = 1000 := by
    rw [tick_score_cases, if_neg (by simp [touchesGoal_above_bottom w.position hgoal]),
      if_pos hgoal]
  refine ⟨h1000, ?_, ?_⟩
  · intro hno k hk
    exact run_score_ge inputs (tick inp w) (le_of_eq h1000.symm) hno k hk
  · intro w1 inp1 hb
    rw [tick_score_cases, if_pos hb]

/-- The first tick of the run from (1112, 32) touches the goal and sets the score to 1000. -/
theorem C7_victory_until_death_witness :
    touchesGoal (mkWorld ⟨1112, 32⟩ ⟨500, 800⟩ initialPlatforms 0).position = true ∧
    (tick noInput (mkWorld ⟨1112, 32⟩ ⟨500, 800⟩ initialPlatforms 0)).score = 1000 :=
  ⟨touchesGoal_start,
    (C7_victory_until_death noInput (mkWorld ⟨1112, 32⟩ ⟨500, 800⟩ initialPlatforms 0) []
      touchesGoal_start).1⟩

/-! ## The position after the top and the left boundary check -/

theorem topEdge_position (w : World) :
    (topEdge w).position.x = w.position.x ∧ 0 ≤ (topEdge w).position.y ∧
    (topEdge w).position.y ≤ max w.position.y 0 := by
  unfold topEdge
  by_cases h : w.position.y ≤ 0
  · rw [if_pos h]
    exact ⟨rfl, le_refl _, le_max_right _ _⟩
  · rw [if_neg h]
    exact ⟨rfl, le_of_lt (not_le.mp h), le_max_left _ _⟩

theorem leftEdge_position (w : World) :
    (leftEdge w).position.y = w.position.y ∧ 0 ≤ (leftEdge w).position.x ∧
    (leftEdge w).position.x ≤ max w.position.x 0 := by
  unfold leftEdge
  by_cases h : w.position.x ≤ 0
  · rw [if_pos h]
    exact ⟨rfl, le_refl _, le_max_right _ _⟩
  · rw [if_neg h]
    exact ⟨rfl, le_of_lt (not_le.mp h), le_max_left _ _⟩

/-! ## Aerial ticks -/

theorem platformStep_onFloor (position : Vector2) (c : Contact) (p : Platform) :
    (platformStep position c p).1.onFloor =
      (c.onFloor || (touchesPlatform position p && landsOnTop position p)) := by
  unfold platformStep
  cases touchesPlatform position p <;> cases landsOnTop position p <;> cases p.point <;> simp

theorem platformLoop_onFloor (position : Vector2) (ps : List Platform) :
    ∀ c : Contact, (platformLoop position c ps).1.onFloor =
      (c.onFloor || ps.any (fun p => touchesPlatform position p && landsOnTop position p)) := by
  induction ps with
  | nil => intro c; simp [platformLoop]
  | cons p ps ih =>
    intro c
    simp only [platformLoop, ih, platformStep_onFloor, List.any_cons, Bool.or_assoc]

/-- The flag `onFloor` at the input block: a top landing on some platform, or a death. -/
theorem beforeInput_onFloor (w : World) :
    (beforeInput w).onFloor =
      (w.platforms.any (fun p => touchesPlatform w.position p && landsOnTop w.position p)
        || reachesBottom w.position) := by
  unfold beforeInput
  rw [(leftEdge_frame _).2.2.2.1, (rightEdge_frame _).2.2.2.1, (topEdge_frame _).2.2.2.1]
  have hE : (beforeEdges w).onFloor =
      w.platforms.any (fun p => touchesPlatform w.position p && landsOnTop w.position p) := by
    unfold beforeEdges
    rw [(goalCheck_frame _).2.2.2.1]
    show (platformLoop w.position ⟨w.velocity, false, w.score⟩ w.platforms).1.onFloor = _
    rw [platformLoop_onFloor]
    simp
  unfold bottomEdge
  rw [beforeEdges_position]
  by_cases h : reachesBottom w.position = true
  · rw [if_pos h, h]
    simp
  · rw [if_neg h, hE]
    simp [h]

theorem beforeInput_playerForces (w : World) : (beforeInput w).playerForces = ⟨0, 0⟩ := by
  unfold beforeInput
  rw [(leftEdge_frame _).2.2.2.2, (rightEdge_frame _).2.2.2.2, (topEdge_frame _).2.2.2.2,
    (bottomEdge_frame _).2.2]
  unfold beforeEdges
  rw [(goalCheck_frame _).2.2.2.2.2]
  rfl

theorem airOrFloor_playerForces (w : World) : (airOrFloor w).playerForces = w.playerForces := by
  unfold airOrFloor
  dsimp only
  split_ifs <;> rfl

theorem applyForces_of_no_force (w : World) (h : w.playerForces = ⟨0, 0⟩) :
    applyForces w = w := by
  cases w with
  | mk position velocity onFloor platforms score death_counter playerForces initialMousePos
      currentMousePos force =>
    cases velocity with
    | mk vx vy =>
      simp only at h
      subst h
      simp [applyForces, Vector2Add]

/-- C14: when `onFloor` is false at the input block, that is when the tick has no top landing
and no death, the state after the tick is the same for any two input samples (position,
velocity, `onFloor`, score, death counter, platform flags, and the sling locals as well), and
the force of the tick is (0, 0). -/
theorem C14_aerial_ticks_ignore_input (inp1 inp2 : Input) (w : World)
    (hair : (beforeInput w).onFloor = false) :
    tick inp1 w = tick inp2 w ∧
    (tick inp1 w).playerForces = ⟨0, 0⟩ ∧
    (tick inp1 w).velocity = (clampVelocity (airOrFloor (beforeInput w))).velocity ∧
    ((beforeInput w).onFloor = false ↔
      (∀ p ∈ w.platforms,
        ¬ (touchesPlatform w.position p = true ∧ landsOnTop w.position p = true)) ∧
      w.position.y + 64 < 720) := by
  have h1 : inputBlock inp1 (beforeInput w) = beforeInput w := inputBlock_of_air _ _ hair
  have h2 : inputBlock inp2 (beforeInput w) = beforeInput w := inputBlock_of_air _ _ hair
  have hf := beforeInput_playerForces w
  have ha : applyForces (beforeInput w) = beforeInput w :=
    applyForces_of_no_force _ hf
  refine ⟨?_, ?_, ?_, ?_⟩
  · unfold tick beforeClamp
    rw [h1, h2]
  · show (airOrFloor (applyForces (inputBlock inp1 (beforeInput w)))).playerForces = _
    rw [airOrFloor_playerForces, h1]
    exact hf
  · unfold tick beforeClamp
    rw [h1, ha]
    rfl
  · rw [beforeInput_onFloor]
    simp only [Bool.or_eq_false_iff, List.any_eq_false, Bool.and_eq_true, reachesBottom,
      decide_eq_false_iff_not, not_le, ge_iff_le]
    constructor
    · rintro ⟨ha1, hb1⟩
      refine ⟨fun p hp => ha1 p hp, ?_⟩
      have : w.position.y + frameRecHeight < WINDOW_HEIGHT := hb1
      norm_num [frameRecHeight, WINDOW_HEIGHT] at this
      exact this
    · rintro ⟨ha1, hb1⟩
      refine ⟨fun p hp => ha1 p hp, ?_⟩
      show w.position.y + frameRecHeight < WINDOW_HEIGHT
      norm_num [frameRecHeight, WINDOW_HEIGHT]
      exact hb1

/-- A player in free fall next to the spawn point: a held key and a pressed button change nothing. -/
theorem C14_aerial_ticks_ignore_input_witness :
    (beforeInput (mkWorld ⟨50, 50⟩ ⟨3, 0⟩ initialPlatforms 0)).onFloor = false ∧
    tick noInput (mkWorld ⟨50, 50⟩ ⟨3, 0⟩ initialPlatforms 0) =
      tick ⟨true, false, true, true, false, ⟨10, 10⟩⟩ (mkWorld ⟨50, 50⟩ ⟨3, 0⟩ initialPlatforms 0) := by
  have h : (beforeInput (mkWorld ⟨50, 50⟩ ⟨3, 0⟩ initialPlatforms 0)).onFloor = false := by
    rw [beforeInput_onFloor]
    simp only [mkWorld]
    rw [initialPlatforms_eq]
    norm_num [List.any, touchesPlatform, landsOnTop, reachesBottom, playerCenter, Vector2Add,
      Vector2DistanceSqr, GetClosestPointAABBCircle, Clamp, frameRecWidth, frameRecHeight,
      WINDOW_HEIGHT, tdiv_25_2]
  exact ⟨h, (C14_aerial_ticks_ignore_input noInput ⟨true, false, true, true, false, ⟨10, 10⟩⟩
    (mkWorld ⟨50, 50⟩ ⟨3, 0⟩ initialPlatforms 0) h).1⟩

/-! ## Classification of a touch -/

/-- C13 fails as stated: on the landing pad (top at 650, height 25) a player whose bottom edge
is at 662.25 touches the pad and is above the exact mid-line 662.5, yet the contact is a side
contact and `onFloor` stays false, because the code compares with `650 + 25/2 = 662`. -/
theorem C13_counterexample :
    touchesPlatform ⟨50, 2393 / 4⟩ ⟨⟨0, 650⟩, 150, 25, false⟩ = true ∧
    (2393 / 4 + 64 : ℚ) ≤ 650 + 25 / 2 ∧
    landsOnTop ⟨50, 2393 / 4⟩ ⟨⟨0, 650⟩, 150, 25, false⟩ = false ∧
    (platformStep ⟨50, 2393 / 4⟩ ⟨⟨0, 0⟩, false, 0⟩ ⟨⟨0, 650⟩, 150, 25, false⟩).1.onFloor = false ∧
    (collidePlatforms (resetTick (mkWorld ⟨50, 2393 / 4⟩ ⟨0, 0⟩ initialPlatforms 0))).onFloor
      = false := by
  have ht : touchesPlatform ⟨50, 2393 / 4⟩ ⟨⟨0, 650⟩, 150, 25, false⟩ = true := by
    norm_num [touchesPlatform, playerCenter, Vector2Add, Vector2DistanceSqr,
      GetClosestPointAABBCircle, Clamp, frameRecWidth, frameRecHeight]
  have hl : landsOnTop ⟨50, 2393 / 4⟩ ⟨⟨0, 650⟩, 150, 25, false⟩ = false := by
    norm_num [landsOnTop, frameRecHeight, tdiv_25_2]
  refine ⟨ht, by norm_num, hl, ?_, ?_⟩
  · rw [platformStep_onFloor, ht, hl]
    rfl
  · show (platformLoop ⟨50, 2393 / 4⟩ ⟨⟨0, 0⟩, false, 0⟩ initialPlatforms).1.onFloor = false
    rw [platformLoop_onFloor, initialPlatforms_eq]
    norm_num [List.any, touchesPlatform, landsOnTop, playerCenter, Vector2Add,
      Vector2DistanceSqr, GetClosestPointAABBCircle, Clamp, frameRecWidth, frameRecHeight,
      tdiv_25_2]

/-- C13, as the code has it: a touch is classified as a top landing exactly when the bottom
edge `position.y + 64` is at most `platform.y + height/2` with `height/2` the `int` division
of the height (12 for the height-25 platforms); a top landing sets `onFloor` and leaves the
velocity, every other touch is a side contact that leaves `onFloor` and the platform as they
are. -/
theorem C13_top_landing_classification (position : Vector2) (c : Contact) (p : Platform)
    (htouch : touchesPlatform position p = true) :
    (landsOnTop position p = true ↔
      position.y + 64 ≤ p.position.y + ((Int.tdiv p.height 2 : ℤ) : ℚ)) ∧
    (p.height = 25 → (landsOnTop position p = true ↔ position.y + 64 ≤ p.position.y + 12)) ∧
    (platformStep position c p).1.onFloor = (c.onFloor || landsOnTop position p) ∧
    (landsOnTop position p = true →
      (platformStep position c p).1.velocity = c.velocity) ∧
    (landsOnTop position p = false →
      platformStep position c p = (⟨sideContact position p c.velocity, c.onFloor, c.score⟩, p)) := by
  have hiff : landsOnTop position p = true ↔
      position.y + 64 ≤ p.position.y + ((Int.tdiv p.height 2 : ℤ) : ℚ) := by
    unfold landsOnTop
    rw [decide_eq_true_eq]
    norm_num [frameRecHeight]
  refine ⟨hiff, ?_, ?_, ?_, ?_⟩
  · intro h25
    rw [hiff, h25, tdiv_25_2]
    norm_num
  · rw [platformStep_onFloor, htouch]
    simp
  · intro hl
    unfold platformStep
    rw [if_pos htouch, if_pos hl]
    split_ifs <;> rfl
  · intro hl
    unfold platformStep
    rw [if_pos htouch, if_neg (by simp [hl])]

/-- The landing pad touched with the bottom edge at 655: a top landing, since 655 ≤ 650 + 12. -/
theorem C13_top_landing_classification_witness :
    touchesPlatform ⟨50, 591⟩ ⟨⟨0, 650⟩, 150, 25, false⟩ = true ∧
    (landsOnTop ⟨50, 591⟩ ⟨⟨0, 650⟩, 150, 25, false⟩ = true ↔ (591 : ℚ) + 64 ≤ 650 + 12) := by
  have ht : touchesPlatform ⟨50, 591⟩ ⟨⟨0, 650⟩, 150, 25, false⟩ = true := by
    norm_num [touchesPlatform, playerCenter, Vector2Add, Vector2DistanceSqr,
      GetClosestPointAABBCircle, Clamp, frameRecWidth, frameRecHeight]
  exact ⟨ht, (C13_top_landing_classification ⟨50, 591⟩ ⟨⟨0, 0⟩, false, 0⟩
    ⟨⟨0, 650⟩, 150, 25, false⟩ ht).2.1 rfl⟩

/-! ## Side contacts -/

/-- C15, the code at the failing input: inside the span of platform 7 (990 to 1170), in side
contact and moving left at 10, the first `if` sets `velocity.x = 5` and the second `if` then
sets it to -5, so the player keeps moving left; the claim puts `velocity.x` at +5. -/
theorem C15_side_contact_inside_platform :
    touchesPlatform ⟨1000, 480⟩ ⟨⟨990, 500⟩, 180, 25, false⟩ = true ∧
    landsOnTop ⟨1000, 480⟩ ⟨⟨990, 500⟩, 180, 25, false⟩ = false ∧
    ((1000 : ℚ) > 990 ∧ (-10 : ℚ) < 0) ∧
    sideContact ⟨1000, 480⟩ ⟨⟨990, 500⟩, 180, 25, false⟩ ⟨-10, 0⟩ = ⟨-5, 0⟩ ∧
    (platformStep ⟨1000, 480⟩ ⟨⟨-10, 0⟩, false, 0⟩ ⟨⟨990, 500⟩, 180, 25, false⟩).1.velocity
      = ⟨-5, 0⟩ ∧
    (collidePlatforms (resetTick (mkWorld ⟨1000, 480⟩ ⟨-10, 0⟩ initialPlatforms 0))).velocity
      = ⟨-5, 0⟩ := by
  have ht : touchesPlatform ⟨1000, 480⟩ ⟨⟨990, 500⟩, 180, 25, false⟩ = true := by
    norm_num [touchesPlatform, playerCenter, Vector2Add, Vector2DistanceSqr,
      GetClosestPointAABBCircle, Clamp, frameRecWidth, frameRecHeight]
  have hl : landsOnTop ⟨1000, 480⟩ ⟨⟨990, 500⟩, 180, 25, false⟩ = false := by
    norm_num [landsOnTop, frameRecHeight, tdiv_25_2]
  have hs : sideContact ⟨1000, 480⟩ ⟨⟨990, 500⟩, 180, 25, false⟩ ⟨-10, 0⟩ = ⟨-5, 0⟩ := by
    norm_num [sideContact, frameRecWidth]
  refine ⟨ht, hl, by norm_num, hs, ?_, ?_⟩
  · unfold platformStep
    rw [if_pos ht, if_neg (by simp [hl])]
    exact hs
  · show (platformLoop ⟨1000, 480⟩ ⟨⟨-10, 0⟩, false, 0⟩ initialPlatforms).1.velocity = ⟨-5, 0⟩
    rw [initialPlatforms_eq]
    norm_num [platformLoop, platformStep, sideContact, touchesPlatform, landsOnTop,
      playerCenter, Vector2Add, Vector2DistanceSqr, GetClosestPointAABBCircle, Clamp,
      frameRecWidth, frameRecHeight, tdiv_25_2]

/-- What the side-contact branch does to the velocity, case by case. -/
theorem sideContact_cases (position : Vector2) (p : Platform) (v : Vector2) :
    (sideContact position p v).y = v.y ∧
    (position.x > p.position.x → v.x < 0 →
      ¬ position.x + 64 < p.position.x + (p.width : ℚ) → (sideContact position p v).x = 5) ∧
    (position.x > p.position.x → v.x < 0 →
      position.x + 64 < p.position.x + (p.width : ℚ) → (sideContact position p v).x = -5) ∧
    (position.x + 64 < p.position.x + (p.width : ℚ) → v.x > 0 →
      (sideContact position p v).x = -5) ∧
    (¬ (position.x > p.position.x ∧ v.x < 0) →
      ¬ (position.x + 64 < p.position.x + (p.width : ℚ) ∧ v.x > 0) →
      sideContact position p v = v) := by
  unfold sideContact
  simp only [frameRecWidth]
  refine ⟨?_, ?_, ?_, ?_, ?_⟩
  · split_ifs <;> rfl
  · intro h1 h2 h3
    simp [h1, h2, h3]
  · intro h1 h2 h3
    simp [h1, h2, h3]
  · intro h1 h2
    have h3 : ¬ v.x < 0 := not_lt.mpr (le_of_lt h2)
    simp [h1, h2, h3]
  · intro h1 h2
    simp only [if_neg h1, if_neg h2]

/-! ## The real layout with arbitrary point flags -/

theorem layoutWithPoints_eq (b0 b1 b2 b3 b4 b5 b6 b7 b8 b9 b10 b11 : Bool) :
    layoutWithPoints [b0, b1, b2, b3, b4, b5, b6, b7, b8, b9, b10, b11] =
      [⟨⟨0, 650⟩, 150, 25, b0⟩, ⟨⟨120, 700⟩, 0, 25, b1⟩, ⟨⟨300, 300⟩, 120, 25, b2⟩,
       ⟨⟨230, 610⟩, 60, 25, b3⟩, ⟨⟨450, 500⟩, 110, 25, b4⟩, ⟨⟨690, 350⟩, 120, 25, b5⟩,
       ⟨⟨800, 470⟩, 133, 25, b6⟩, ⟨⟨990, 500⟩, 180, 25, b7⟩, ⟨⟨1000, 360⟩, 165, 25, b8⟩,
       ⟨⟨730, 150⟩, 240, 25, b9⟩, ⟨⟨880, 200⟩, 200, 25, b10⟩, ⟨⟨1060, 80⟩, 100, 25, b11⟩] := by
  unfold layoutWithPoints
  rw [initialPlatforms_eq]
  rfl

/-! ## The left screen edge -/

theorem platformStep_velocity (position : Vector2) (c : Contact) (p : Platform)
    (h : sideContact position p c.velocity = c.velocity) :
    (platformStep position c p).1.velocity = c.velocity := by
  unfold platformStep
  split_ifs
  · rfl
  · rfl
  · exact h
  · rfl

theorem platformLoop_velocity (position : Vector2) (ps : List Platform) :
    ∀ c : Contact, (∀ p ∈ ps, sideContact position p c.velocity = c.velocity) →
      (platformLoop position c ps).1.velocity = c.velocity := by
  induction ps with
  | nil => intro c _; rfl
  | cons p ps ih =>
    intro c h
    have h1 := platformStep_velocity position c p (h p (List.mem_cons_self p ps))
    simp only [platformLoop]
    rw [ih (platformStep position c p).1 (by
      intro q hq
      rw [h1]
      exact h q (List.mem_cons_of_mem p hq)), h1]

theorem airOrFloor_velocity_x_zero (w : World) (h : w.velocity.x = 0) :
    (airOrFloor w).velocity.x = 0 := by
  unfold airOrFloor
  dsimp only
  split_ifs <;> simp [Vector2Add, Vector2Subtract, h]

/-- At the left screen edge, moving left, with every platform starting at `x ≥ 0`: the tick
ends with `velocity.x = 0` and `position.x = 0`. -/
theorem tick_left_wall (w : World) (hx : w.position.x = 0) (hvx : w.velocity.x < 0)
    (hy : w.position.y + 64 < 720) (hplat : ∀ p ∈ w.platforms, 0 ≤ p.position.x) :
    (tick noInput w).velocity.x = 0 ∧ (tick noInput w).position.x = 0 := by
  have hloop : (collidePlatforms (resetTick w)).velocity = w.velocity := by
    show (platformLoop w.position ⟨w.velocity, false, w.score⟩ w.platforms).1.velocity = _
    apply platformLoop_velocity
    intro p hp
    apply (sideContact_cases w.position p w.velocity).2.2.2.2
    · intro h
      have := hplat p hp
      rw [hx] at h
      linarith [h.1]
    · intro h
      linarith [h.2]
  have hE : (beforeEdges w).velocity = w.velocity := by
    unfold beforeEdges
    rw [(goalCheck_frame _).2.2.1, hloop]
  have hB : (bottomEdge (beforeEdges w)) = beforeEdges w := by
    apply bottomEdge_of_above
    rw [beforeEdges_position]
    exact hy
  have hT : (topEdge (beforeEdges w)).velocity.x = w.velocity.x ∧
      (topEdge (beforeEdges w)).position.x = 0 := by
    unfold topEdge
    by_cases h : (beforeEdges w).position.y ≤ 0
    · rw [if_pos h]
      refine ⟨?_, ?_⟩
      · by_cases h2 : (beforeEdges w).velocity.y ≠ 0
        · simp only [if_pos h2]
          rw [hE]
        · simp only [if_neg h2]
          rw [hE]
      · show (beforeEdges w).position.x = 0
        rw [beforeEdges_position, hx]
    · rw [if_neg h, hE, beforeEdges_position]
      exact ⟨rfl, hx⟩
  have hR : rightEdge (topEdge (beforeEdges w)) = topEdge (beforeEdges w) := by
    apply rightEdge_of_no_wall
    rw [hT.2]
    norm_num
  have hL : (beforeInput w).velocity.x = 0 ∧ (beforeInput w).position.x = 0 := by
    unfold beforeInput
    rw [hB, hR]
    unfold leftEdge
    rw [if_pos (le_of_eq hT.2), if_pos (by rw [hT.1]; exact hvx)]
    exact ⟨rfl, rfl⟩
  have hF : applyForces (beforeInput w) = beforeInput w :=
    applyForces_of_no_force _ (beforeInput_playerForces w)
  have hv : (tick noInput w).velocity.x = 0 := by
    show Clamp (airOrFloor (applyForces (inputBlock noInput (beforeInput w)))).velocity.x
      (-playerMaxHorizontalVelocity) playerMaxHorizontalVelocity = 0
    rw [inputBlock_noInput, hF, airOrFloor_velocity_x_zero _ hL.1]
    exact Clamp_of_mem _ _ _ (by norm_num [playerMaxHorizontalVelocity])
      (by norm_num [playerMaxHorizontalVelocity])
  refine ⟨hv, ?_⟩
  rw [tick_position]
  show (beforeInput w).position.x + (tick noInput w).velocity.x * TIMESTEP = 0
  rw [hL.2, hv]
  norm_num

/-- C12: in the real platform layout (any point flags), a player at `position.x = 0` with
`velocity.x = -10`, above the death line (`position.y + 64 < 720`), any `velocity.y` and no
input has `velocity.x = 0` and `position.x = 0` after one tick. -/
theorem C12_left_wall (w : World) (b0 b1 b2 b3 b4 b5 b6 b7 b8 b9 b10 b11 : Bool)
    (hplat : w.platforms = layoutWithPoints [b0, b1, b2, b3, b4, b5, b6, b7, b8, b9, b10, b11])
    (hx : w.position.x = 0) (hvx : w.velocity.x = -10) (hy : w.position.y + 64 < 720) :
    (tick noInput w).velocity.x = 0 ∧ (tick noInput w).position.x = 0 := by
  apply tick_left_wall w hx (by rw [hvx]; norm_num) hy
  intro p hp
  rw [hplat, layoutWithPoints_eq] at hp
  simp only [List.mem_cons, List.mem_singleton, List.not_mem_nil, or_false] at hp
  rcases hp with rfl | rfl | rfl | rfl | rfl | rfl | rfl | rfl | rfl | rfl | rfl | rfl <;>
    norm_num

/-- A player at the left edge above the landing pad, falling at 100 and moving left at 10. -/
theorem C12_left_wall_witness :
    (mkWorld ⟨0, 300⟩ ⟨-10, 100⟩ initialPlatforms 0).platforms =
      layoutWithPoints [false, false, false, false, false, false, false, false, false, false,
        false, false] ∧
    (mkWorld ⟨0, 300⟩ ⟨-10, 100⟩ initialPlatforms 0).position.x = 0 ∧
    (mkWorld ⟨0, 300⟩ ⟨-10, 100⟩ initialPlatforms 0).velocity.x = -10 ∧
    (mkWorld ⟨0, 300⟩ ⟨-10, 100⟩ initialPlatforms 0).position.y + 64 < 720 ∧
    (tick noInput (mkWorld ⟨0, 300⟩ ⟨-10, 100⟩ initialPlatforms 0)).velocity.x = 0 ∧
    (tick noInput (mkWorld ⟨0, 300⟩ ⟨-10, 100⟩ initialPlatforms 0)).position.x = 0 := by
  have h1 : (mkWorld ⟨0, 300⟩ ⟨-10, 100⟩ initialPlatforms 0).platforms =
      layoutWithPoints [false, false, false, false, false, false, false, false, false, false,
        false, false] := by
    rw [layoutWithPoints_eq, ← initialPlatforms_eq]
    rfl
  have h4 : (mkWorld ⟨0, 300⟩ ⟨-10, 100⟩ initialPlatforms 0).position.y + 64 < 720 := by
    norm_num [mkWorld]
  have h := C12_left_wall (mkWorld ⟨0, 300⟩ ⟨-10, 100⟩ initialPlatforms 0) false false false
    false false false false false false false false false h1 rfl rfl h4
  exact ⟨h1, rfl, rfl, h4, h.1, h.2⟩

/-! ## Resting on the landing pad -/

theorem touchesPlatform_eq_false_of_left (position : Vector2) (p : Platform)
    (hw : 0 ≤ (p.width : ℚ)) (h : position.x + 64 < p.position.x) :
    touchesPlatform position p = false := by
  unfold touchesPlatform
  rw [decide_eq_false_iff_not, not_le]
  simp only [Vector2DistanceSqr, GetClosestPointAABBCircle, playerCenter, Vector2Add,
    frameRecWidth, frameRecHeight]
  have hc : Clamp (position.x + 64 / 2) p.position.x (p.position.x + (p.width : ℚ)) =
      p.position.x := by
    unfold Clamp
    dsimp only
    split_ifs <;> linarith
  rw [hc]
  nlinarith [mul_self_nonneg
    (position.y + 64 / 2 - Clamp (position.y + 64 / 2) p.position.y (p.position.y + (p.height : ℚ)))]

theorem touchesGoal_eq_false_of_left (position : Vector2) (h : position.x + 32 ≤ 150) :
    touchesGoal position = false := by
  unfold touchesGoal
  rw [decide_eq_false_iff_not, not_le]
  simp only [Vector2DistanceSqr, playerCenter, Vector2Add, goalPos, frameRecWidth,
    frameRecHeight, frameRecSteamerWidth, frameRecSteamerHeight]
  nlinarith [mul_self_nonneg (position.y + 64 / 2 - (40 + 48 / 2))]

/-- The platform loop for a player standing on the landing pad: only the pad is touched, it
is a top landing, and it scores when its flag is false. -/
theorem platformLoop_rest (x : ℚ) (v : Vector2) (s : ℤ)
    (b0 b1 b2 b3 b4 b5 b6 b7 b8 b9 b10 b11 : Bool)
    (hx0 : 0 ≤ x + 32) (hx1 : x + 32 ≤ 150) :
    platformLoop ⟨x, 586⟩ ⟨v, false, s⟩
        (layoutWithPoints [b0, b1, b2, b3, b4, b5, b6, b7, b8, b9, b10, b11]) =
      (⟨v, true, s + (if b0 = true then 0 else 1)⟩,
        layoutWithPoints [true, b1, b2, b3, b4, b5, b6, b7, b8, b9, b10, b11]) := by
  have ht : touchesPlatform ⟨x, 586⟩ ⟨⟨0, 650⟩, 150, 25, b0⟩ = true := by
    unfold touchesPlatform
    rw [decide_eq_true_eq]
    simp only [Vector2DistanceSqr, GetClosestPointAABBCircle, playerCenter, Vector2Add,
      frameRecWidth, frameRecHeight]
    rw [Clamp_of_mem _ _ _ (by norm_num; linarith) (by norm_num; linarith)]
    norm_num [Clamp]
  have hl : landsOnTop ⟨x, 586⟩ ⟨⟨0, 650⟩, 150, 25, b0⟩ = true := by
    norm_num [landsOnTop, frameRecHeight, tdiv_25_2]
  have hstep : platformStep ⟨x, 586⟩ ⟨v, false, s⟩ ⟨⟨0, 650⟩, 150, 25, b0⟩ =
      (⟨v, true, s + (if b0 = true then 0 else 1)⟩, ⟨⟨0, 650⟩, 150, 25, true⟩) := by
    unfold platformStep
    rw [if_pos ht, if_pos hl]
    cases b0 <;> simp
  rw [layoutWithPoints_eq, layoutWithPoints_eq]
  rw [platformLoop, hstep]
  dsimp only
  rw [platformLoop_id]
  intro p hp
  simp only [List.mem_cons, List.mem_singleton, List.not_mem_nil, or_false] at hp
  rcases hp with rfl | rfl | rfl | rfl | rfl | rfl | rfl | rfl | rfl | rfl | rfl
  · exact Or.inl (touchesPlatform_eq_false_of_above _ _ (by norm_num) (by norm_num))
  · exact Or.inl (touchesPlatform_eq_false_of_left _ _ (by norm_num) (by norm_num; linarith))
  · exact Or.inl (touchesPlatform_eq_false_of_left _ _ (by norm_num) (by norm_num; linarith))
  · exact Or.inl (touchesPlatform_eq_false_of_left _ _ (by norm_num) (by norm_num; linarith))
  · exact Or.inl (touchesPlatform_eq_false_of_left _ _ (by norm_num) (by norm_num; linarith))
  · exact Or.inl (touchesPlatform_eq_false_of_left _ _ (by norm_num) (by norm_num; linarith))
  · exact Or.inl (touchesPlatform_eq_false_of_left _ _ (by norm_num) (by norm_num; linarith))
  · exact Or.inl (touchesPlatform_eq_false_of_left _ _ (by norm_num) (by norm_num; linarith))
  · exact Or.inl (touchesPlatform_eq_false_of_left _ _ (by norm_num) (by norm_num; linarith))
  · exact Or.inl (touchesPlatform_eq_false_of_left _ _ (by norm_num) (by norm_num; linarith))
  · exact Or.inl (touchesPlatform_eq_false_of_left _ _ (by norm_num) (by norm_num; linarith))

/-- One tick of a player at rest on the landing pad, no input. -/
theorem tick_rest (x : ℚ) (s d : ℤ) (f i c : Vector2) (fo : ℚ) (b : Bool)
    (b0 b1 b2 b3 b4 b5 b6 b7 b8 b9 b10 b11 : Bool)
    (hx : 0 < x) (hx0 : 0 ≤ x + 32) (hx1 : x + 32 ≤ 150) :
    tick noInput ⟨⟨x, 586⟩, ⟨0, 0⟩, b,
        layoutWithPoints [b0, b1, b2, b3, b4, b5, b6, b7, b8, b9, b10, b11], s, d, f, i, c, fo⟩ =
      ⟨⟨x, 586⟩, ⟨0, 0⟩, true,
        layoutWithPoints [true, b1, b2, b3, b4, b5, b6, b7, b8, b9, b10, b11],
        s + (if b0 = true then 0 else 1), d, ⟨0, 0⟩, i, c, fo⟩ := by
  have hc : collidePlatforms (resetTick ⟨⟨x, 586⟩, ⟨0, 0⟩, b,
        layoutWithPoints [b0, b1, b2, b3, b4, b5, b6, b7, b8, b9, b10, b11], s, d, f, i, c, fo⟩) =
      ⟨⟨x, 586⟩, ⟨0, 0⟩, true,
        layoutWithPoints [true, b1, b2, b3, b4, b5, b6, b7, b8, b9, b10, b11],
        s + (if b0 = true then 0 else 1), d, ⟨0, 0⟩, i, c, fo⟩ := by
    unfold collidePlatforms resetTick
    dsimp only
    rw [platformLoop_rest x ⟨0, 0⟩ s b0 b1 b2 b3 b4 b5 b6 b7 b8 b9 b10 b11 hx0 hx1]
  have hg : goalCheck ⟨⟨x, 586⟩, ⟨0, 0⟩, true,
        layoutWithPoints [true, b1, b2, b3, b4, b5, b6, b7, b8, b9, b10, b11],
        s + (if b0 = true then 0 else 1), d, ⟨0, 0⟩, i, c, fo⟩ =
      ⟨⟨x, 586⟩, ⟨0, 0⟩, true,
        layoutWithPoints [true, b1, b2, b3, b4, b5, b6, b7, b8, b9, b10, b11],
        s + (if b0 = true then 0 else 1), d, ⟨0, 0⟩, i, c, fo⟩ := by
    unfold goalCheck
    rw [if_neg]
    rw [touchesGoal_eq_false_of_left ⟨x, 586⟩ hx1]
    simp
  unfold tick beforeClamp beforeInput beforeEdges
  rw [hc, hg, bottomEdge_of_above _ (by norm_num), topEdge_of_pos _ (by norm_num),
    rightEdge_of_no_wall _ (by show ¬ (1280 : ℚ) ≤ x + 64; linarith), leftEdge_of_pos _ hx,
    inputBlock_noInput, applyForces_of_no_force _ rfl]
  norm_num [airOrFloor, clampVelocity, integrate, Vector2Add, Vector2Subtract, Vector2Scale,
    Clamp, playerMaxHorizontalVelocity, playerMaxVerticalVelocity]

/-- C11: in the real platform layout, a player standing on the top of platform 0
(`position.y + 64 = 650`, centre x in [0, 150], `position.x > 0`) with velocity (0, 0),
platform 0 not yet awarded and no input: after every number `n ≥ 1` of ticks `onFloor` is
true, the velocity is still (0, 0), the position is unchanged and the score is one more than
at the start, so it rises by 1 on the first tick and by 0 on every later tick. -/
theorem C11_resting_on_landing_pad (w : World) (b1 b2 b3 b4 b5 b6 b7 b8 b9 b10 b11 : Bool)
    (hplat : w.platforms =
      layoutWithPoints [false, b1, b2, b3, b4, b5, b6, b7, b8, b9, b10, b11])
    (hy : w.position.y + 64 = 650) (hx : 0 < w.position.x)
    (hc0 : 0 ≤ w.position.x + 32) (hc1 : w.position.x + 32 ≤ 150)
    (hv : w.velocity = ⟨0, 0⟩) :
    ∀ n : ℕ, 1 ≤ n →
      (run w (List.replicate n noInput)).onFloor = true ∧
      (run w (List.replicate n noInput)).velocity = ⟨0, 0⟩ ∧
      (run w (List.replicate n noInput)).velocity.y = 0 ∧
      (run w (List.replicate n noInput)).position = w.position ∧
      (run w (List.replicate n noInput)).score = w.score + 1 ∧
      (run w (List.replicate n noInput)).platforms =
        layoutWithPoints [true, b1, b2, b3, b4, b5, b6, b7, b8, b9, b10, b11] := by
  cases w with
  | mk position velocity b platforms s d f i c fo =>
    cases position with
    | mk x y =>
      simp only at hplat hy hx hc0 hc1 hv
      have hy586 : y = 586 := by linarith
      subst hplat hv hy586
      have hrun : ∀ n : ℕ,
          run ⟨⟨x, 586⟩, ⟨0, 0⟩, b,
            layoutWithPoints [false, b1, b2, b3, b4, b5, b6, b7, b8, b9, b10, b11],
            s, d, f, i, c, fo⟩ (List.replicate (n + 1) noInput) =
          ⟨⟨x, 586⟩, ⟨0, 0⟩, true,
            layoutWithPoints [true, b1, b2, b3, b4, b5, b6, b7, b8, b9, b10, b11],
            s + 1, d, ⟨0, 0⟩, i, c, fo⟩ := by
        intro n
        induction n with
        | zero =>
          rw [run_replicate_succ]
          show tick noInput ⟨⟨x, 586⟩, ⟨0, 0⟩, b,
            layoutWithPoints [false, b1, b2, b3, b4, b5, b6, b7, b8, b9, b10, b11],
            s, d, f, i, c, fo⟩ = _
          rw [tick_rest x s d f i c fo b false b1 b2 b3 b4 b5 b6 b7 b8 b9 b10 b11 hx hc0 hc1]
          simp
        | succ n ih =>
          rw [run_replicate_succ, ih,
            tick_rest x (s + 1) d ⟨0, 0⟩ i c fo true true b1 b2 b3 b4 b5 b6 b7 b8 b9 b10 b11
              hx hc0 hc1]
          simp
      intro n hn
      obtain ⟨m, rfl⟩ : ∃ m, n = m + 1 := ⟨n - 1, by omega⟩
      rw [hrun m]
      exact ⟨rfl, rfl, rfl, rfl, rfl, rfl⟩

/-- A player standing at (50, 586) on the fresh landing pad: after 3 ticks still there, on the
floor, with one point more. -/
theorem C11_resting_on_landing_pad_witness :
    (mkWorld ⟨50, 586⟩ ⟨0, 0⟩ initialPlatforms (-1)).platforms =
      layoutWithPoints [false, false, false, false, false, false, false, false, false, false,
        false, false] ∧
    (mkWorld ⟨50, 586⟩ ⟨0, 0⟩ initialPlatforms (-1)).position.y + 64 = 650 ∧
    (run (mkWorld ⟨50, 586⟩ ⟨0, 0⟩ initialPlatforms (-1)) (List.replicate 3 noInput)).onFloor
      = true ∧
    (run (mkWorld ⟨50, 586⟩ ⟨0, 0⟩ initialPlatforms (-1)) (List.replicate 3 noInput)).position
      = ⟨50, 586⟩ ∧
    (run (mkWorld ⟨50, 586⟩ ⟨0, 0⟩ initialPlatforms (-1)) (List.replicate 3 noInput)).score
      = 0 := by
  have h1 : (mkWorld ⟨50, 586⟩ ⟨0, 0⟩ initialPlatforms (-1)).platforms =
      layoutWithPoints [false, false, false, false, false, false, false, false, false, false,
        false, false] := by
    rw [layoutWithPoints_eq, ← initialPlatforms_eq]
    rfl
  have h2 : (mkWorld ⟨50, 586⟩ ⟨0, 0⟩ initialPlatforms (-1)).position.y + 64 = 650 := by
    norm_num [mkWorld]
  have h := C11_resting_on_landing_pad (mkWorld ⟨50, 586⟩ ⟨0, 0⟩ initialPlatforms (-1))
    false false false false false false false false false false false h1 h2
    (by norm_num [mkWorld]) (by norm_num [mkWorld]) (by norm_num [mkWorld]) rfl 3 (by norm_num)
  exact ⟨h1, h2, h.1, h.2.2.2.1, h.2.2.2.2.1⟩

/-! ## Rounding to the nearest integer -/

theorem roundHalfEven_cases (x : ℚ) :
    roundHalfEven x = ⌊x⌋ ∨ roundHalfEven x = ⌊x⌋ + 1 := by
  unfold roundHalfEven
  split_ifs <;> simp

theorem roundHalfEven_sub_le (x : ℚ) : |(roundHalfEven x : ℚ) - x| ≤ 1 / 2 := by
  have h1 := Int.floor_le x
  have h2 := Int.lt_floor_add_one x
  unfold roundHalfEven
  rw [abs_le]
  split_ifs with a b c <;> push_cast <;> constructor <;> linarith

theorem roundHalfEven_of_abs_lt (x : ℚ) (n : ℤ) (h : |x - n| < 1 / 2) : roundHalfEven x = n := by
  have h1 := roundHalfEven_sub_le x
  rw [abs_lt] at h
  rw [abs_le] at h1
  have h3 : ((roundHalfEven x - n : ℤ) : ℚ) < 1 := by push_cast; linarith
  have h4 : (-1 : ℚ) < ((roundHalfEven x - n : ℤ) : ℚ) := by push_cast; linarith
  have h5 : roundHalfEven x - n < 1 := by exact_mod_cast h3
  have h6 : -1 < roundHalfEven x - n := by exact_mod_cast h4
  omega

theorem roundHalfEven_tie (f : ℤ) : roundHalfEven ((f : ℚ) + 1 / 2) = if f % 2 = 0 then f else f + 1 := by
  have hf : ⌊(f : ℚ) + 1 / 2⌋ = f := by
    rw [Int.floor_eq_iff]
    constructor <;> linarith
  unfold roundHalfEven
  rw [hf]
  norm_num

theorem roundHalfEven_intCast (n : ℤ) : roundHalfEven (n : ℚ) = n :=
  roundHalfEven_of_abs_lt _ n (by simp)

theorem le_roundHalfEven (x : ℚ) (n : ℤ) (h : (n : ℚ) ≤ x) : n ≤ roundHalfEven x := by
  have h1 : n ≤ ⌊x⌋ := Int.le_floor.mpr h
  rcases roundHalfEven_cases x with h2 | h2 <;> omega

theorem roundHalfEven_le (x : ℚ) (n : ℤ) (h : x ≤ (n : ℚ)) : roundHalfEven x ≤ n := by
  by_cases hx : x = (n : ℚ)
  · rw [hx, roundHalfEven_intCast]
  · have hlt : x < (n : ℚ) := lt_of_le_of_ne h hx
    have h1 : ⌊x⌋ < n := Int.floor_lt.mpr hlt
    rcases roundHalfEven_cases x with h2 | h2 <;> omega

theorem roundHalfEven_mono {x y : ℚ} (h : x ≤ y) : roundHalfEven x ≤ roundHalfEven y := by
  have hfl : ⌊x⌋ ≤ ⌊y⌋ := Int.floor_mono h
  rcases lt_or_eq_of_le hfl with hlt | heq
  · have h1 : roundHalfEven x ≤ ⌊x⌋ + 1 := by
      rcases roundHalfEven_cases x with h2 | h2 <;> omega
    have h2 : ⌊y⌋ ≤ roundHalfEven y := by
      rcases roundHalfEven_cases y with h2 | h2 <;> omega
    omega
  · unfold roundHalfEven
    rw [← heq]
    have hr : x - ⌊x⌋ ≤ y - ⌊x⌋ := by linarith
    split_ifs <;> first | omega | linarith

/-! ## Rounding to binary32 -/

theorem f32Ulp_pos (q : ℚ) : 0 < f32Ulp q := by
  unfold f32Ulp
  exact zpow_pos (by norm_num) _

theorem f32Exponent_ge (q : ℚ) : -126 ≤ f32Exponent q := le_max_right _ _

theorem lt_zpow_f32Exponent (q : ℚ) : q < (2 : ℚ) ^ (f32Exponent q + 1) := by
  have h1 : q < ((2 : ℕ) : ℚ) ^ (Int.log 2 q + 1) := Int.lt_zpow_succ_log_self (by norm_num) q
  have h2 : ((2 : ℕ) : ℚ) ^ (Int.log 2 q + 1) ≤ (2 : ℚ) ^ (f32Exponent q + 1) := by
    rw [Nat.cast_ofNat]
    exact zpow_le_zpow_right₀ (by norm_num) (by unfold f32Exponent; linarith [le_max_left (Int.log 2 q) (-126)])
  linarith

theorem f32Exponent_eq (q : ℚ) (e : ℤ) (he : -126 ≤ e) (h1 : (2 : ℚ) ^ e ≤ q)
    (h2 : q < (2 : ℚ) ^ (e + 1)) : f32Exponent q = e := by
  have hq : 0 < q := lt_of_lt_of_le (zpow_pos (by norm_num) e) h1
  have ha : e ≤ Int.log 2 q := by
    rw [← Int.zpow_le_iff_le_log (by norm_num) hq, Nat.cast_ofNat]
    exact h1
  have hb : Int.log 2 q < e + 1 := by
    rw [← Int.lt_zpow_iff_log_lt (by norm_num) hq, Nat.cast_ofNat]
    exact h2
  unfold f32Exponent
  rw [max_eq_left (by omega)]
  omega

theorem f32Exponent_mono {x y : ℚ} (hx : 0 < x) (h : x ≤ y) : f32Exponent x ≤ f32Exponent y := by
  unfold f32Exponent
  exact max_le_max (Int.log_mono_right hx h) (le_refl _)

/-- Below `2 ^ (k + 1)` the binary32 values are at most `2 ^ (k - 23)` apart. -/
theorem f32Ulp_le (q : ℚ) (k : ℤ) (hk : -126 ≤ k) (h0 : 0 < q) (hq : q < (2 : ℚ) ^ (k + 1)) :
    f32Ulp q ≤ (2 : ℚ) ^ (k - 23) := by
  have he : f32Exponent q ≤ k := by
    unfold f32Exponent
    refine max_le ?_ hk
    have : Int.log 2 q < k + 1 := by
      rw [← Int.lt_zpow_iff_log_lt (by norm_num) h0, Nat.cast_ofNat]
      exact hq
    omega
  unfold f32Ulp
  exact zpow_le_zpow_right₀ (by norm_num) (by omega)

theorem f32RoundPos_zero : f32RoundPos 0 = 0 := by
  unfold f32RoundPos
  rw [zero_div]
  have := roundHalfEven_intCast 0
  rw [Int.cast_zero] at this
  rw [this]
  simp

theorem f32RoundPos_nonneg (q : ℚ) (hq : 0 ≤ q) : 0 ≤ f32RoundPos q := by
  unfold f32RoundPos
  have hu := f32Ulp_pos q
  have : (0 : ℤ) ≤ roundHalfEven (q / f32Ulp q) :=
    le_roundHalfEven _ 0 (by rw [Int.cast_zero]; exact div_nonneg hq hu.le)
  have h2 : (0 : ℚ) ≤ (roundHalfEven (q / f32Ulp q) : ℚ) := by exact_mod_cast this
  exact mul_nonneg h2 hu.le

theorem f32RoundPos_le_zpow (q : ℚ) : f32RoundPos q ≤ (2 : ℚ) ^ (f32Exponent q + 1) := by
  unfold f32RoundPos
  have hu := f32Ulp_pos q
  have hlt := lt_zpow_f32Exponent q
  have hsplit : (2 : ℚ) ^ (f32Exponent q + 1) = ((16777216 : ℤ) : ℚ) * f32Ulp q := by
    unfold f32Ulp
    have : f32Exponent q + 1 = 24 + (f32Exponent q - 23) := by ring
    rw [this, zpow_add₀ (by norm_num)]
    norm_num
  have h1 : q / f32Ulp q ≤ ((16777216 : ℤ) : ℚ) := by
    rw [div_le_iff₀ hu, ← hsplit]
    exact hlt.le
  have h2 := roundHalfEven_le _ _ h1
  have h3 : (roundHalfEven (q / f32Ulp q) : ℚ) ≤ ((16777216 : ℤ) : ℚ) := by exact_mod_cast h2
  rw [hsplit]
  exact mul_le_mul_of_nonneg_right h3 hu.le

theorem zpow_le_f32RoundPos (q : ℚ) (h : (2 : ℚ) ^ (f32Exponent q) ≤ q) :
    (2 : ℚ) ^ (f32Exponent q) ≤ f32RoundPos q := by
  unfold f32RoundPos
  have hu := f32Ulp_pos q
  have hsplit : (2 : ℚ) ^ (f32Exponent q) = ((8388608 : ℤ) : ℚ) * f32Ulp q := by
    unfold f32Ulp
    have : f32Exponent q = 23 + (f32Exponent q - 23) := by ring
    nth_rewrite 1 [this]
    rw [zpow_add₀ (by norm_num)]
    norm_num
  have h1 : ((8388608 : ℤ) : ℚ) ≤ q / f32Ulp q := by
    rw [le_div_iff₀ hu, ← hsplit]
    exact h
  have h2 := le_roundHalfEven _ _ h1
  have h3 : ((8388608 : ℤ) : ℚ) ≤ (roundHalfEven (q / f32Ulp q) : ℚ) := by exact_mod_cast h2
  rw [hsplit]
  exact mul_le_mul_of_nonneg_right h3 hu.le

theorem f32RoundPos_mono {x y : ℚ} (hx : 0 ≤ x) (h : x ≤ y) : f32RoundPos x ≤ f32RoundPos y := by
  rcases eq_or_lt_of_le hx with h0 | h0
  · rw [← h0, f32RoundPos_zero]
    exact f32RoundPos_nonneg y (le_trans hx h)
  · have hy : 0 < y := lt_of_lt_of_le h0 h
    have he := f32Exponent_mono h0 h
    rcases eq_or_lt_of_le he with heq | hlt
    · have hu : f32Ulp x = f32Ulp y := by unfold f32Ulp; rw [heq]
      unfold f32RoundPos
      rw [hu]
      have hup := f32Ulp_pos y
      have h1 : x / f32Ulp y ≤ y / f32Ulp y := div_le_div_of_nonneg_right h hup.le
      have h2 := roundHalfEven_mono h1
      have h3 : (roundHalfEven (x / f32Ulp y) : ℚ) ≤ (roundHalfEven (y / f32Ulp y) : ℚ) := by
        exact_mod_cast h2
      exact mul_le_mul_of_nonneg_right h3 hup.le
    · have hlog : f32Exponent y = Int.log 2 y := by
        unfold f32Exponent at hlt ⊢
        have := f32Exponent_ge x
        unfold f32Exponent at this
        rw [max_eq_left]
        by_contra hc
        rw [max_eq_right (by omega)] at hlt
        omega
      have h1 : (2 : ℚ) ^ (f32Exponent y) ≤ y := by
        rw [hlog]
        have := Int.zpow_log_le_self (b := 2) (r := y) (by norm_num) hy
        rw [Nat.cast_ofNat] at this
        exact this
      have h2 := zpow_le_f32RoundPos y h1
      have h3 := f32RoundPos_le_zpow x
      have h4 : (2 : ℚ) ^ (f32Exponent x + 1) ≤ (2 : ℚ) ^ (f32Exponent y) :=
        zpow_le_zpow_right₀ (by norm_num) (by omega)
      linarith

theorem f32Round_zero : f32Round 0 = 0 := by
  unfold f32Round
  rw [if_pos (le_refl _), f32RoundPos_zero]

theorem f32Round_of_nonneg (q : ℚ) (h : 0 ≤ q) : f32Round q = f32RoundPos q := by
  unfold f32Round
  rw [if_pos h]

theorem f32Round_neg (q : ℚ) : f32Round (-q) = -f32Round q := by
  unfold f32Round
  rcases lt_trichotomy q 0 with h | h | h
  · rw [if_pos (by linarith), if_neg (by linarith), neg_neg]
  · rw [h]
    simp [f32RoundPos_zero]
  · rw [if_neg (by linarith), if_pos (by linarith), neg_neg]

/-- Rounding to binary32 is monotone. -/
theorem f32Round_mono {x y : ℚ} (h : x ≤ y) : f32Round x ≤ f32Round y := by
  rcases le_or_lt 0 x with hx | hx
  · rw [f32Round_of_nonneg x hx, f32Round_of_nonneg y (le_trans hx h)]
    exact f32RoundPos_mono hx h
  · rcases le_or_lt 0 y with hy | hy
    · have h1 : f32Round x = -f32RoundPos (-x) := by
        unfold f32Round
        rw [if_neg (by linarith)]
      rw [h1, f32Round_of_nonneg y hy]
      have := f32RoundPos_nonneg (-x) (by linarith)
      have := f32RoundPos_nonneg y hy
      linarith
    · have h1 : f32Round x = -f32RoundPos (-x) := by
        unfold f32Round
        rw [if_neg (by linarith)]
      have h2 : f32Round y = -f32RoundPos (-y) := by
        unfold f32Round
        rw [if_neg (by linarith)]
      rw [h1, h2]
      have := f32RoundPos_mono (x := -y) (y := -x) (by linarith) (by linarith)
      linarith

/-- Rounding moves a non-negative number by at most half the spacing of the binary32 values. -/
theorem f32RoundPos_sub_le (q : ℚ) : |f32RoundPos q - q| ≤ f32Ulp q / 2 := by
  unfold f32RoundPos
  have hu := f32Ulp_pos q
  have h := roundHalfEven_sub_le (q / f32Ulp q)
  have h2 : (roundHalfEven (q / f32Ulp q) : ℚ) * f32Ulp q - q =
      ((roundHalfEven (q / f32Ulp q) : ℚ) - q / f32Ulp q) * f32Ulp q := by
    field_simp
  rw [h2, abs_mul, abs_of_pos hu]
  calc |(roundHalfEven (q / f32Ulp q) : ℚ) - q / f32Ulp q| * f32Ulp q
      ≤ 1 / 2 * f32Ulp q := mul_le_mul_of_nonneg_right h hu.le
    _ = f32Ulp q / 2 := by ring

/-- A non-negative number below `2 ^ (k + 1)` moves by at most `2 ^ (k - 24)` when rounded. -/
theorem f32Round_sub_le (q : ℚ) (k : ℤ) (hk : -126 ≤ k) (h0 : 0 ≤ q) (hq : q < (2 : ℚ) ^ (k + 1)) :
    |f32Round q - q| ≤ (2 : ℚ) ^ (k - 24) := by
  rcases eq_or_lt_of_le h0 with hz | hpos
  · rw [← hz, f32Round_zero, sub_zero, abs_zero]
    exact (zpow_pos (by norm_num) _).le
  · rw [f32Round_of_nonneg q h0]
    have h1 := f32RoundPos_sub_le q
    have h2 := f32Ulp_le q k hk hpos hq
    have h3 : (2 : ℚ) ^ (k - 23) = 2 * (2 : ℚ) ^ (k - 24) := by
      have : k - 23 = 1 + (k - 24) := by ring
      rw [this, zpow_add₀ (by norm_num)]
      norm_num
    linarith

/-- Evaluation of a rounding: `q` in the binade of exponent `e`, `n` the nearest multiple. -/
theorem f32Round_eq (q : ℚ) (e n : ℤ) (he : -126 ≤ e) (h1 : (2 : ℚ) ^ e ≤ q)
    (h2 : q < (2 : ℚ) ^ (e + 1)) (hn1 : (n : ℚ) - 1 / 2 < q / (2 : ℚ) ^ (e - 23))
    (hn2 : q / (2 : ℚ) ^ (e - 23) < (n : ℚ) + 1 / 2) :
    f32Round q = (n : ℚ) * (2 : ℚ) ^ (e - 23) := by
  have hq : 0 < q := lt_of_lt_of_le (zpow_pos (by norm_num) e) h1
  rw [f32Round_of_nonneg q hq.le]
  unfold f32RoundPos f32Ulp
  rw [f32Exponent_eq q e he h1 h2, roundHalfEven_of_abs_lt _ n (by rw [abs_lt]; constructor <;> linarith)]

/-- Evaluation of a rounding at a tie: `q` half-way between the multiples `f` and `f + 1`. -/
theorem f32Round_eq_of_tie (q : ℚ) (e f : ℤ) (he : -126 ≤ e) (h1 : (2 : ℚ) ^ e ≤ q)
    (h2 : q < (2 : ℚ) ^ (e + 1)) (hn : q / (2 : ℚ) ^ (e - 23) = (f : ℚ) + 1 / 2) :
    f32Round q = ((if f % 2 = 0 then f else f + 1 : ℤ) : ℚ) * (2 : ℚ) ^ (e - 23) := by
  have hq : 0 < q := lt_of_lt_of_le (zpow_pos (by norm_num) e) h1
  rw [f32Round_of_nonneg q hq.le]
  unfold f32RoundPos f32Ulp
  rw [f32Exponent_eq q e he h1 h2, hn, roundHalfEven_tie]

/-- Evaluation of a rounding to a given value. -/
theorem f32Round_val (q v : ℚ) (e n : ℤ) (he : -126 ≤ e) (h1 : (2 : ℚ) ^ e ≤ q)
    (h2 : q < (2 : ℚ) ^ (e + 1)) (hn1 : (n : ℚ) - 1 / 2 < q / (2 : ℚ) ^ (e - 23))
    (hn2 : q / (2 : ℚ) ^ (e - 23) < (n : ℚ) + 1 / 2) (hv : (n : ℚ) * (2 : ℚ) ^ (e - 23) = v) :
    f32Round q = v := by
  rw [f32Round_eq q e n he h1 h2 hn1 hn2, hv]

/-- Evaluation of a rounding at a tie. -/
theorem f32Round_tie_val (q v : ℚ) (e f : ℤ) (he : -126 ≤ e) (h1 : (2 : ℚ) ^ e ≤ q)
    (h2 : q < (2 : ℚ) ^ (e + 1)) (hn : q / (2 : ℚ) ^ (e - 23) = (f : ℚ) + 1 / 2)
    (hv : ((if f % 2 = 0 then f else f + 1 : ℤ) : ℚ) * (2 : ℚ) ^ (e - 23) = v) :
    f32Round q = v := by
  rw [f32Round_eq_of_tie q e f he h1 h2 hn, hv]

/-! ## The driver loop -/

theorem TIMESTEP_f32_eq : TIMESTEP_f32 = 8947849 / 536870912 := rfl

theorem TIMESTEP_f32_pos : 0 < TIMESTEP_f32 := by
  rw [TIMESTEP_f32_eq]
  norm_num

theorem Clamp_of_le_min (value min max : ℚ) (h : value ≤ min) (hm : min ≤ max) :
    Clamp value min max = min := by
  unfold Clamp
  dsimp only
  split_ifs <;> linarith

theorem Clamp_of_ge_max (value min max : ℚ) (h : max ≤ value) (hm : min ≤ max) :
    Clamp value min max = max := by
  unfold Clamp
  dsimp only
  split_ifs <;> linarith

/-- The step of a velocity of 500 is rounded to `4369067 / 524288`, above `500/60`. -/
theorem f32Round_step_500 : f32Round (500 * TIMESTEP_f32) = 4369067 / 524288 := by
  rw [TIMESTEP_f32_eq]
  exact f32Round_val _ _ 3 8738134 (by norm_num) (by norm_num) (by norm_num) (by norm_num)
    (by norm_num) (by norm_num)

/-- The step of a velocity of 800 is rounded to `6990507 / 524288`, above `800/60`. -/
theorem f32Round_step_800 : f32Round (800 * TIMESTEP_f32) = 6990507 / 524288 := by
  rw [TIMESTEP_f32_eq]
  exact f32Round_val _ _ 3 13981014 (by norm_num) (by norm_num) (by norm_num) (by norm_num)
    (by norm_num) (by norm_num)

/-- The rounded step of a velocity between `-c` and `c` lies between the rounded steps of
`-c` and `c`. -/
theorem f32Round_step_bounds (c s : ℚ) (h1 : -c ≤ s) (h2 : s ≤ c) :
    -f32Round (c * TIMESTEP_f32) ≤ f32Round (s * TIMESTEP_f32) ∧
    f32Round (s * TIMESTEP_f32) ≤ f32Round (c * TIMESTEP_f32) := by
  have hT := TIMESTEP_f32_pos
  constructor
  · rw [← f32Round_neg]
    apply f32Round_mono
    nlinarith
  · apply f32Round_mono
    nlinarith

theorem bottomEdgeF32_position_y (w : World) : (bottomEdgeF32 w).position.y + 64 < 720 := by
  have h720 : f32Round 720 = 720 :=
    f32Round_val _ _ 9 11796480 (by norm_num) (by norm_num) (by norm_num) (by norm_num)
      (by norm_num) (by norm_num)
  unfold bottomEdgeF32
  by_cases h : f32Round (w.position.y + frameRecHeight) ≥ WINDOW_HEIGHT
  · rw [if_pos h]
    norm_num [initialSiopaoPos]
  · rw [if_neg h]
    by_contra hc
    apply h
    have h2 : (720 : ℚ) ≤ w.position.y + 64 := not_lt.mp hc
    have h3 := f32Round_mono h2
    rw [h720] at h3
    simpa [frameRecHeight, WINDOW_HEIGHT] using h3

theorem bottomEdgeF32_of_death (w : World) (h : w.position.y + 64 ≥ 720) :
    (bottomEdgeF32 w).position = initialSiopaoPos := by
  have h720 : f32Round 720 = 720 :=
    f32Round_val _ _ 9 11796480 (by norm_num) (by norm_num) (by norm_num) (by norm_num)
      (by norm_num) (by norm_num)
  have h3 := f32Round_mono h
  rw [h720] at h3
  unfold bottomEdgeF32
  rw [if_pos (by simpa [frameRecHeight, WINDOW_HEIGHT] using h3)]

/-- The difference `WINDOW_WIDTH - frameRec.width` is a binary32 value. -/
theorem f32Round_1216 :
    f32Round (WINDOW_WIDTH - frameRecWidth) = WINDOW_WIDTH - frameRecWidth := by
  unfold WINDOW_WIDTH frameRecWidth
  exact f32Round_val _ _ 10 9961472 (by norm_num) (by norm_num) (by norm_num) (by norm_num)
    (by norm_num) (by norm_num)

theorem rightEdgeF32_position (w : World) :
    (rightEdgeF32 w).position.y = w.position.y ∧ (rightEdgeF32 w).position.x ≤ 1216 ∧
    ((rightEdgeF32 w).position.x = w.position.x ∨ (rightEdgeF32 w).position.x = 1216) := by
  have h1280 : f32Round 1280 = 1280 :=
    f32Round_val _ _ 10 10485760 (by norm_num) (by norm_num) (by norm_num) (by norm_num)
      (by norm_num) (by norm_num)
  unfold rightEdgeF32
  by_cases h : f32Round (w.position.x + frameRecWidth) ≥ WINDOW_WIDTH
  · rw [if_pos h]
    refine ⟨rfl, ?_, Or.inr ?_⟩ <;> norm_num [WINDOW_WIDTH, frameRecWidth]
  · rw [if_neg h]
    refine ⟨rfl, ?_, Or.inl rfl⟩
    by_contra hc
    apply h
    have h2 : (1280 : ℚ) ≤ w.position.x + 64 := by
      have := not_le.mp hc
      linarith
    have h3 := f32Round_mono h2
    rw [h1280] at h3
    simpa [frameRecWidth, WINDOW_WIDTH] using h3

theorem bottomEdgeF32_of_lt (w : World) (h : f32Round (w.position.y + 64) < 720) :
    bottomEdgeF32 w = w := by
  unfold bottomEdgeF32
  rw [if_neg]
  simpa [frameRecHeight, WINDOW_HEIGHT] using h

theorem rightEdgeF32_of_lt (w : World) (h : f32Round (w.position.x + 64) < 1280) :
    rightEdgeF32 w = w := by
  unfold rightEdgeF32
  rw [if_neg]
  simpa [frameRecWidth, WINDOW_WIDTH] using h

theorem rightEdgeF32_of_ge (w : World) (h : 1280 ≤ f32Round (w.position.x + 64)) :
    (rightEdgeF32 w).position = ⟨1216, w.position.y⟩ := by
  unfold rightEdgeF32
  rw [if_pos (by simpa [frameRecWidth, WINDOW_WIDTH] using h)]
  norm_num [WINDOW_WIDTH, frameRecWidth]

/-- After the four screen-boundary checks the player is inside `[0, 1216] × [0, 656)`, also
in binary32. -/
theorem beforeInputF32_position_bounds (w : World) :
    0 ≤ (beforeInputF32 w).position.x ∧ (beforeInputF32 w).position.x ≤ 1216 ∧
    0 ≤ (beforeInputF32 w).position.y ∧ (beforeInputF32 w).position.y < 656 := by
  unfold beforeInputF32
  have hb := bottomEdgeF32_position_y w
  obtain ⟨_, ht0, ht1⟩ := topEdge_position (bottomEdgeF32 w)
  obtain ⟨hry, hrx, _⟩ := rightEdgeF32_position (topEdge (bottomEdgeF32 w))
  obtain ⟨hly, hl0, hl1⟩ := leftEdge_position (rightEdgeF32 (topEdge (bottomEdgeF32 w)))
  refine ⟨hl0, ?_, ?_, ?_⟩
  · exact le_trans hl1 (max_le hrx (by norm_num))
  · rw [hly, hry]
    exact ht0
  · rw [hly, hry]
    have : max (bottomEdgeF32 w).position.y 0 < 656 := max_lt (by linarith) (by norm_num)
    linarith

/-- On a death tick the four boundary checks leave the player on the spawn point. -/
theorem beforeInputF32_position_of_death (w : World) (h : w.position.y + 64 ≥ 720) :
    (beforeInputF32 w).position = initialSiopaoPos := by
  have hb := bottomEdgeF32_of_death w h
  have ht : (topEdge (bottomEdgeF32 w)).position = initialSiopaoPos := by
    unfold topEdge
    rw [hb]
    norm_num [initialSiopaoPos]
    exact hb
  have h114 : f32Round ((50 : ℚ) + 64) = 114 :=
    f32Round_val _ _ 6 14942208 (by norm_num) (by norm_num) (by norm_num) (by norm_num)
      (by norm_num) (by norm_num)
  have hr : (rightEdgeF32 (topEdge (bottomEdgeF32 w))).position = initialSiopaoPos := by
    unfold rightEdgeF32
    rw [ht]
    have : ¬ f32Round (initialSiopaoPos.x + frameRecWidth) ≥ WINDOW_WIDTH := by
      unfold initialSiopaoPos frameRecWidth WINDOW_WIDTH
      rw [h114]
      norm_num
    rw [if_neg this]
    exact ht
  unfold beforeInputF32 leftEdge
  rw [hr]
  norm_num [initialSiopaoPos]
  exact hr

theorem tickTailF32_position (w : World) (v : Vector2) :
    (tickTailF32 w v).position =
      Vector2AddF32 (beforeInputF32 w).position
        (Vector2ScaleF32 (tickTailF32 w v).velocity TIMESTEP_f32) := rfl

theorem tickTailF32_velocity (w : World) (v : Vector2) :
    (tickTailF32 w v).velocity = ⟨Clamp v.x (-500) 500, Clamp v.y (-800) 800⟩ := rfl

/-- C16 fails as stated. At the left edge, a player at `position.x = 2 ^ (-30)` whose velocity
reaches the clamp at -500 or below (in the air from a velocity of (-600, 0) the force phases
leave (-580, 50/3) in exact arithmetic) ends the tick at
`position.x = -(4369067 / 524288) = -8.333333969...`, below `-500/60`. At the right edge, from
`position.x = 1216` with a velocity of 500 or more at the clamp, the tick ends at
`10029739 / 8192 = 1224.33337...`, above `(1280 - 64) + 500/60`. -/
theorem C16_counterexample :
    (∀ v : Vector2, v.x ≤ -500 →
      (tickTailF32 (mkWorld ⟨1 / 1073741824, 300⟩ ⟨-600, 0⟩ initialPlatforms 0) v).position.x =
        -(4369067 / 524288)) ∧
    -(4369067 / 524288 : ℚ) < -500 / 60 ∧
    (beforeClamp noInput (mkWorld ⟨1 / 1073741824, 300⟩ ⟨-600, 0⟩ initialPlatforms 0)).velocity =
      ⟨-580, 50 / 3⟩ ∧
    (∀ v : Vector2, 500 ≤ v.x →
      (tickTailF32 (mkWorld ⟨1216, 300⟩ ⟨600, 0⟩ initialPlatforms 0) v).position.x =
        10029739 / 8192) ∧
    ((1280 : ℚ) - 64) + 500 / 60 < 10029739 / 8192 := by
  have h364 : f32Round ((300 : ℚ) + 64) = 364 :=
    f32Round_val _ _ 8 11927552 (by norm_num) (by norm_num) (by norm_num) (by norm_num)
      (by norm_num) (by norm_num)
  refine ⟨?_, by norm_num, ?_, ?_, by norm_num⟩
  · intro v hv
    have h64 : f32Round ((1 : ℚ) / 1073741824 + 64) = 64 :=
      f32Round_val _ _ 6 8388608 (by norm_num) (by norm_num) (by norm_num) (by norm_num)
        (by norm_num) (by norm_num)
    have hp : (beforeInputF32 (mkWorld ⟨1 / 1073741824, 300⟩ ⟨-600, 0⟩ initialPlatforms 0)).position
        = ⟨1 / 1073741824, 300⟩ := by
      unfold beforeInputF32
      rw [bottomEdgeF32_of_lt _ (by
          show f32Round ((300 : ℚ) + 64) < 720
          rw [h364]
          norm_num),
        topEdge_of_pos _ (by
          show (0 : ℚ) < 300
          norm_num),
        rightEdgeF32_of_lt _ (by
          show f32Round ((1 : ℚ) / 1073741824 + 64) < 1280
          rw [h64]
          norm_num),
        leftEdge_of_pos _ (by
          show (0 : ℚ) < 1 / 1073741824
          norm_num)]
      rfl
    have hc : Clamp v.x (-500) 500 = -500 := Clamp_of_le_min _ _ _ hv (by norm_num)
    have hs : f32Round ((1 : ℚ) / 1073741824 + -(4369067 / 524288)) = -(4369067 / 524288) := by
      have he : (1 : ℚ) / 1073741824 + -(4369067 / 524288) =
          -(4369067 / 524288 - 1 / 1073741824) := by ring
      rw [he, f32Round_neg]
      congr 1
      exact f32Round_val _ _ 3 8738134 (by norm_num) (by norm_num) (by norm_num) (by norm_num)
        (by norm_num) (by norm_num)
    rw [tickTailF32_position, tickTailF32_velocity, hp, hc]
    show f32Round ((1 : ℚ) / 1073741824 + f32Round (-500 * TIMESTEP_f32)) = _
    rw [neg_mul, f32Round_neg, f32Round_step_500, hs]
  · rw [initialPlatforms_eq]
    norm_num [mkWorld, beforeClamp, airOrFloor, applyForces,
      inputBlock, beforeInput, leftEdge, rightEdge, topEdge, bottomEdge, beforeEdges, goalCheck,
      collidePlatforms, resetTick, platformLoop, platformStep, touchesPlatform, landsOnTop,
      sideContact, GetClosestPointAABBCircle, touchesGoal, reachesBottom, playerCenter,
      Vector2Add, Vector2Subtract, Vector2Scale, Vector2Negate, Vector2DistanceSqr, Clamp,
      noInput, goalPos, frameRecWidth, frameRecHeight, frameRecSteamerWidth,
      frameRecSteamerHeight, WINDOW_HEIGHT, WINDOW_WIDTH, TIMESTEP, TARGET_FPS, gravity, drag,
      playerDeceleration, tdiv_25_2]
  · intro v hv
    have h1280 : f32Round ((1216 : ℚ) + 64) = 1280 :=
      f32Round_val _ _ 10 10485760 (by norm_num) (by norm_num) (by norm_num) (by norm_num)
        (by norm_num) (by norm_num)
    have hr : (rightEdgeF32 (mkWorld ⟨1216, 300⟩ ⟨600, 0⟩ initialPlatforms 0)).position =
        ⟨1216, 300⟩ :=
      rightEdgeF32_of_ge _ (by
        show (1280 : ℚ) ≤ f32Round ((1216 : ℚ) + 64)
        rw [h1280])
    have hp : (beforeInputF32 (mkWorld ⟨1216, 300⟩ ⟨600, 0⟩ initialPlatforms 0)).position
        = ⟨1216, 300⟩ := by
      unfold beforeInputF32
      rw [bottomEdgeF32_of_lt _ (by
          show f32Round ((300 : ℚ) + 64) < 720
          rw [h364]
          norm_num),
        topEdge_of_pos _ (by
          show (0 : ℚ) < 300
          norm_num),
        leftEdge_of_pos _ (by
          rw [hr]
          norm_num)]
      exact hr
    have hc : Clamp v.x (-500) 500 = 500 := Clamp_of_ge_max _ _ _ hv (by norm_num)
    have hs : f32Round ((1216 : ℚ) + 4369067 / 524288) = 10029739 / 8192 :=
      f32Round_val _ _ 10 10029739 (by norm_num) (by norm_num) (by norm_num) (by norm_num)
        (by norm_num) (by norm_num)
    rw [tickTailF32_position, tickTailF32_velocity, hp, hc]
    show f32Round ((1216 : ℚ) + f32Round (500 * TIMESTEP_f32)) = _
    rw [f32Round_step_500, hs]

/-- C16, as the code has it. The step `velocity * TIMESTEP` and the sum with the position are
rounded to binary32 and `TIMESTEP` is the `float` `8947849 / 536870912`, above `1/60`. For
every state at the boundary checks and every velocity `v` that the force phases hand to the
clamp, the checks leave the player inside `[0, 1216] × [0, 656)` and the tick ends with
`-(4369067 / 524288) ≤ position.x ≤ 10029739 / 8192` and
`-(6990507 / 524288) ≤ position.y ≤ 10966357 / 16384 < (720 - 64) + 800/60`. The four bounds
are the rounded steps of the velocity caps 500 and 800, taken from 0, 1216 and 656. -/
theorem C16_position_bounded (w : World) (v : Vector2) :
    (0 ≤ (beforeInputF32 w).position.x ∧ (beforeInputF32 w).position.x ≤ 1216 ∧
      0 ≤ (beforeInputF32 w).position.y ∧ (beforeInputF32 w).position.y < 656) ∧
    (tickTailF32 w v).position =
      Vector2AddF32 (beforeInputF32 w).position
        (Vector2ScaleF32 (tickTailF32 w v).velocity TIMESTEP_f32) ∧
    -(4369067 / 524288) ≤ (tickTailF32 w v).position.x ∧
    (tickTailF32 w v).position.x ≤ 10029739 / 8192 ∧
    -(6990507 / 524288) ≤ (tickTailF32 w v).position.y ∧
    (tickTailF32 w v).position.y ≤ 10966357 / 16384 ∧
    (tickTailF32 w v).position.y < (720 - 64) + 800 / 60 ∧
    f32Round (500 * TIMESTEP_f32) = 4369067 / 524288 ∧
    f32Round (800 * TIMESTEP_f32) = 6990507 / 524288 ∧
    f32Round (1216 + f32Round (500 * TIMESTEP_f32)) = 10029739 / 8192 ∧
    f32Round (656 + f32Round (800 * TIMESTEP_f32)) = 10966357 / 16384 := by
  obtain ⟨hx0, hx1, hy0, hy1⟩ := beforeInputF32_position_bounds w
  have hcx0 : -500 ≤ Clamp v.x (-500) 500 := Clamp_ge _ (-500) 500 (by norm_num)
  have hcx1 : Clamp v.x (-500) 500 ≤ 500 := Clamp_le _ (-500) 500
  have hcy0 : -800 ≤ Clamp v.y (-800) 800 := Clamp_ge _ (-800) 800 (by norm_num)
  have hcy1 : Clamp v.y (-800) 800 ≤ 800 := Clamp_le _ (-800) 800
  obtain ⟨hsx0, hsx1⟩ := f32Round_step_bounds 500 _ hcx0 hcx1
  obtain ⟨hsy0, hsy1⟩ := f32Round_step_bounds 800 _ hcy0 hcy1
  rw [f32Round_step_500] at hsx0 hsx1
  rw [f32Round_step_800] at hsy0 hsy1
  have h500 : f32Round ((4369067 : ℚ) / 524288) = 4369067 / 524288 :=
    f32Round_val _ _ 3 8738134 (by norm_num) (by norm_num) (by norm_num) (by norm_num)
      (by norm_num) (by norm_num)
  have h800 : f32Round ((6990507 : ℚ) / 524288) = 6990507 / 524288 :=
    f32Round_val _ _ 3 13981014 (by norm_num) (by norm_num) (by norm_num) (by norm_num)
      (by norm_num) (by norm_num)
  have h1216 : f32Round ((1216 : ℚ) + 4369067 / 524288) = 10029739 / 8192 :=
    f32Round_val _ _ 10 10029739 (by norm_num) (by norm_num) (by norm_num) (by norm_num)
      (by norm_num) (by norm_num)
  have h656 : f32Round ((656 : ℚ) + 6990507 / 524288) = 10966357 / 16384 :=
    f32Round_val _ _ 9 10966357 (by norm_num) (by norm_num) (by norm_num) (by norm_num)
      (by norm_num) (by norm_num)
  have hx : (tickTailF32 w v).position.x =
      f32Round ((beforeInputF32 w).position.x + f32Round (Clamp v.x (-500) 500 * TIMESTEP_f32)) :=
    rfl
  have hy : (tickTailF32 w v).position.y =
      f32Round ((beforeInputF32 w).position.y + f32Round (Clamp v.y (-800) 800 * TIMESTEP_f32)) :=
    rfl
  have hxlo : -(4369067 / 524288) ≤ (tickTailF32 w v).position.x := by
    rw [hx, ← h500, ← f32Round_neg]
    apply f32Round_mono
    linarith
  have hxhi : (tickTailF32 w v).position.x ≤ 10029739 / 8192 := by
    rw [hx, ← h1216]
    apply f32Round_mono
    linarith
  have hylo : -(6990507 / 524288) ≤ (tickTailF32 w v).position.y := by
    rw [hy, ← h800, ← f32Round_neg]
    apply f32Round_mono
    linarith
  have hyhi : (tickTailF32 w v).position.y ≤ 10966357 / 16384 := by
    rw [hy, ← h656]
    apply f32Round_mono
    linarith
  refine ⟨⟨hx0, hx1, hy0, hy1⟩, rfl, hxlo, hxhi, hylo, hyhi, ?_, f32Round_step_500,
    f32Round_step_800, ?_, ?_⟩
  · have : (10966357 : ℚ) / 16384 < (720 - 64) + 800 / 60 := by norm_num
    linarith
  · rw [f32Round_step_500, h1216]
  · rw [f32Round_step_800, h656]

/-- C6 fails as stated: a player that crosses the bottom edge at (600, 660) with velocity
(60, 800) ends the death tick at (305/6, 50) in exact arithmetic, not at the spawn point
(50, 50). In binary32 too the death tick ends right of the spawn point, at
`position.x ≥ 13111569 / 262144 = 50.0166...`, for every velocity of at least 1 that reaches
the clamp (it is (50, 0) here in exact arithmetic). -/
theorem C6_counterexample :
    (mkWorld ⟨600, 660⟩ ⟨60, 800⟩ initialPlatforms 3).position.y + 64 ≥ 720 ∧
    (tick noInput (mkWorld ⟨600, 660⟩ ⟨60, 800⟩ initialPlatforms 3)).position = ⟨305 / 6, 50⟩ ∧
    (tick noInput (mkWorld ⟨600, 660⟩ ⟨60, 800⟩ initialPlatforms 3)).position ≠ ⟨50, 50⟩ ∧
    (tick noInput (mkWorld ⟨600, 660⟩ ⟨60, 800⟩ initialPlatforms 3)).velocity = ⟨50, 0⟩ ∧
    (∀ v : Vector2, 1 ≤ v.x →
      13111569 / 262144 ≤
        (tickTailF32 (mkWorld ⟨600, 660⟩ ⟨60, 800⟩ initialPlatforms 3) v).position.x) := by
  have hw : tick noInput (mkWorld ⟨600, 660⟩ ⟨60, 800⟩ initialPlatforms 3) =
      { mkWorld ⟨600, 660⟩ ⟨60, 800⟩ initialPlatforms 3 with
        position := ⟨305 / 6, 50⟩, velocity := ⟨50, 0⟩, onFloor := true, death_counter := 1,
        score := -1 } := by
    rw [initialPlatforms_eq]
    norm_num [tick, mkWorld, integrate, clampVelocity, beforeClamp, airOrFloor, applyForces,
      inputBlock, beforeInput, leftEdge, rightEdge, topEdge, bottomEdge, beforeEdges, goalCheck,
      collidePlatforms, resetTick, platformLoop, platformStep, touchesPlatform, landsOnTop,
      sideContact, GetClosestPointAABBCircle, touchesGoal, reachesBottom, playerCenter,
      Vector2Add, Vector2Subtract, Vector2Scale, Vector2Negate, Vector2DistanceSqr, Clamp,
      noInput, goalPos, frameRecWidth, frameRecHeight, frameRecSteamerWidth,
      frameRecSteamerHeight, WINDOW_HEIGHT, WINDOW_WIDTH, TIMESTEP, TARGET_FPS, gravity, drag,
      playerMaxHorizontalVelocity, playerMaxVerticalVelocity, playerDeceleration, tdiv_25_2,
      keyForces, slingMechanic, initialSiopaoPos]
  have hb : (mkWorld ⟨600, 660⟩ ⟨60, 800⟩ initialPlatforms 3).position.y + 64 ≥ 720 := by
    norm_num [mkWorld]
  refine ⟨hb, ?_, ?_, ?_, ?_⟩
  · rw [hw]
  · rw [hw]
    intro h
    have := congrArg Vector2.x h
    norm_num at this
  · rw [hw]
  · intro v hv
    have hp := beforeInputF32_position_of_death _ hb
    have hT : f32Round (1 * TIMESTEP_f32) = 8947849 / 536870912 := by
      rw [TIMESTEP_f32_eq]
      exact f32Round_val _ _ (-6) 8947849 (by norm_num) (by norm_num) (by norm_num)
        (by norm_num) (by norm_num) (by norm_num)
    have h50 : f32Round ((50 : ℚ) + 8947849 / 536870912) = 13111569 / 262144 :=
      f32Round_val _ _ 5 13111569 (by norm_num) (by norm_num) (by norm_num) (by norm_num)
        (by norm_num) (by norm_num)
    have hc : 1 ≤ Clamp v.x (-500) 500 := by
      unfold Clamp
      dsimp only
      split_ifs <;> linarith
    have hs : f32Round (1 * TIMESTEP_f32) ≤ f32Round (Clamp v.x (-500) 500 * TIMESTEP_f32) := by
      apply f32Round_mono
      have := TIMESTEP_f32_pos
      nlinarith
    rw [hT] at hs
    have hx : (tickTailF32 (mkWorld ⟨600, 660⟩ ⟨60, 800⟩ initialPlatforms 3) v).position.x =
        f32Round (50 + f32Round (Clamp v.x (-500) 500 * TIMESTEP_f32)) := by
      rw [tickTailF32_position, hp, tickTailF32_velocity]
      rfl
    rw [hx, ← h50]
    apply f32Round_mono
    linarith

/-- C6, as the code has it. On a tick that starts with `position.y + 64 ≥ 720` the boundary
check puts the player on the spawn point (50, 50), and the integration at the end of the tick
then moves the player from there by one step of the velocity the tick ends with: the position
is `(50, 50) + velocity * TIMESTEP`, each product and each sum rounded to binary32. It is the
spawn point when that velocity is (0, 0). -/
theorem C6_death_reposition (w : World) (v : Vector2) (hbottom : w.position.y + 64 ≥ 720) :
    (beforeInputF32 w).position = initialSiopaoPos ∧
    (tickTailF32 w v).position =
      Vector2AddF32 initialSiopaoPos (Vector2ScaleF32 (tickTailF32 w v).velocity TIMESTEP_f32) ∧
    ((tickTailF32 w v).velocity = ⟨0, 0⟩ → (tickTailF32 w v).position = ⟨50, 50⟩) := by
  have hp := beforeInputF32_position_of_death w hbottom
  have h50 : f32Round ((50 : ℚ) + 0) = 50 :=
    f32Round_val _ _ 5 13107200 (by norm_num) (by norm_num) (by norm_num) (by norm_num)
      (by norm_num) (by norm_num)
  refine ⟨hp, ?_, ?_⟩
  · rw [tickTailF32_position, hp]
  · intro hv
    rw [tickTailF32_position, hp, hv]
    simp only [Vector2AddF32, Vector2ScaleF32, initialSiopaoPos, zero_mul, f32Round_zero, h50]

/-- The death tick from (600, 660) with a velocity of (50, 0) at the clamp ends at
`(13325653 / 262144, 50)`, that is at `x = 50.83333206...`. -/
theorem C6_death_reposition_witness :
    (mkWorld ⟨600, 660⟩ ⟨60, 800⟩ initialPlatforms 3).position.y + 64 ≥ 720 ∧
    (tickTailF32 (mkWorld ⟨600, 660⟩ ⟨60, 800⟩ initialPlatforms 3) ⟨50, 0⟩).position =
      ⟨13325653 / 262144, 50⟩ := by
  have hb : (mkWorld ⟨600, 660⟩ ⟨60, 800⟩ initialPlatforms 3).position.y + 64 ≥ 720 := by
    norm_num [mkWorld]
  have h := (C6_death_reposition (mkWorld ⟨600, 660⟩ ⟨60, 800⟩ initialPlatforms 3) ⟨50, 0⟩ hb).2.1
  have h50 : f32Round ((50 : ℚ) + 0) = 50 :=
    f32Round_val _ _ 5 13107200 (by norm_num) (by norm_num) (by norm_num) (by norm_num)
      (by norm_num) (by norm_num)
  have hs : f32Round (50 * TIMESTEP_f32) = 6990507 / 8388608 := by
    rw [TIMESTEP_f32_eq]
    exact f32Round_val _ _ (-1) 13981014 (by norm_num) (by norm_num) (by norm_num) (by norm_num)
      (by norm_num) (by norm_num)
  have hx : f32Round ((50 : ℚ) + 6990507 / 8388608) = 13325653 / 262144 :=
    f32Round_val _ _ 5 13325653 (by norm_num) (by norm_num) (by norm_num) (by norm_num)
      (by norm_num) (by norm_num)
  have hc1 : Clamp 50 (-500) 500 = 50 := Clamp_of_mem _ _ _ (by norm_num) (by norm_num)
  have hc2 : Clamp 0 (-800) 800 = 0 := Clamp_of_mem _ _ _ (by norm_num) (by norm_num)
  refine ⟨hb, ?_⟩
  rw [h, tickTailF32_velocity]
  simp only [Vector2AddF32, Vector2ScaleF32, initialSiopaoPos, hc1, hc2, zero_mul,
    f32Round_zero, hs, hx, h50]

/-! ## The sling mechanic in binary32 -/

theorem heldForce_succ (h : ℕ) : heldForce (h + 1) = f32Round (heldForce h + TIMESTEP_f32) := by
  simp only [heldForce]

theorem heldForce_zero : heldForce 0 = 0 := by
  simp only [heldForce]

theorem slingBlockF32_release (r : Vector2) (l : SlingLocals) (playerForces : Vector2) :
    slingBlockF32 (releaseSample r) l playerForces =
      (l, Vector2AddF32 playerForces (slingReleaseF32 l)) := by
  simp [slingBlockF32, releaseSample]

theorem slingBlockF32_press (m : Vector2) (l : SlingLocals) (playerForces : Vector2)
    (hx : m.x ≠ 0) (hy : m.y ≠ 0) :
    slingBlockF32 (pressSample m) l playerForces = (⟨m, m, heldForce 1⟩, playerForces) := by
  rw [heldForce_succ, heldForce_zero]
  simp [slingBlockF32, pressSample, hx, hy]

theorem slingBlockF32_press_zero (m : Vector2) (l : SlingLocals) (playerForces : Vector2)
    (h : m.x = 0 ∨ m.y = 0) :
    slingBlockF32 (pressSample m) l playerForces =
      (⟨m, l.currentMousePos, 0⟩, playerForces) := by
  have hn : ¬ (m.x ≠ 0 ∧ m.y ≠ 0) := by
    rintro ⟨h1, h2⟩
    rcases h with h | h
    · exact h1 h
    · exact h2 h
  simp only [slingBlockF32, pressSample, if_true]
  rw [if_neg hn]
  simp

theorem slingBlockF32_hold (m : Vector2) (l : SlingLocals) (playerForces : Vector2)
    (hx : l.initialMousePos.x ≠ 0) (hy : l.initialMousePos.y ≠ 0) :
    slingBlockF32 (holdSample m) l playerForces =
      (⟨l.initialMousePos, m, f32Round (l.force + TIMESTEP_f32)⟩, playerForces) := by
  simp [slingBlockF32, holdSample, hx, hy]

theorem slingBlockF32_hold_zero (m : Vector2) (l : SlingLocals) (playerForces : Vector2)
    (h : l.initialMousePos.x = 0 ∨ l.initialMousePos.y = 0) :
    slingBlockF32 (holdSample m) l playerForces = (l, playerForces) := by
  have hn : ¬ (l.initialMousePos.x ≠ 0 ∧ l.initialMousePos.y ≠ 0) := by
    rintro ⟨h1, h2⟩
    rcases h with h | h
    · exact h1 h
    · exact h2 h
  simp only [slingBlockF32, holdSample]
  simp [hn]

theorem slingReleaseF32_of_nonpos (l : SlingLocals) (h : l.force ≤ 0) :
    slingReleaseF32 l = ⟨0, 0⟩ := by
  unfold slingReleaseF32
  rw [Clamp_of_le_min _ _ _ h (by norm_num)]
  simp [Vector2ScaleF32, f32Round_zero]

theorem slingReleaseF32_of_ge (l : SlingLocals) (h : 5 ≤ l.force) :
    slingReleaseF32 l =
      Vector2ScaleF32 (Vector2Negate (Vector2SubtractF32 l.currentMousePos l.initialMousePos))
        10 := by
  have h10 : f32Round ((5 : ℚ) * 2) = 10 :=
    f32Round_val _ _ 3 10485760 (by norm_num) (by norm_num) (by norm_num) (by norm_num)
      (by norm_num) (by norm_num)
  unfold slingReleaseF32
  rw [Clamp_of_ge_max _ _ _ h (by norm_num), h10]

/-- For up to 470 additions the accumulated force stays within `2 ^ (-22)` per addition of
the exact multiple of `TIMESTEP_f32`. -/
theorem heldForce_bounds :
    ∀ h : ℕ, h ≤ 470 →
      (h : ℚ) * (TIMESTEP_f32 - 1 / 4194304) ≤ heldForce h ∧
      heldForce h ≤ (h : ℚ) * (TIMESTEP_f32 + 1 / 4194304) := by
  intro h
  induction h with
  | zero =>
    intro _
    rw [heldForce_zero]
    norm_num
  | succ h ih =>
    intro hh
    obtain ⟨h1, h2⟩ := ih (by omega)
    have hT := TIMESTEP_f32_eq
    have hcast : (h : ℚ) + 1 ≤ 470 := by exact_mod_cast hh
    have hh0 : (0 : ℚ) ≤ (h : ℚ) := Nat.cast_nonneg h
    rw [hT] at h1 h2
    have hx0 : 0 ≤ heldForce h + TIMESTEP_f32 := by
      rw [hT]
      nlinarith
    have hx8 : heldForce h + TIMESTEP_f32 < (2 : ℚ) ^ ((2 : ℤ) + 1) := by
      rw [hT]
      norm_num
      nlinarith
    have he := f32Round_sub_le (heldForce h + TIMESTEP_f32) 2 (by norm_num) hx0 hx8
    have h22 : (2 : ℚ) ^ ((2 : ℤ) - 24) = 1 / 4194304 := by norm_num
    rw [h22, abs_le] at he
    rw [heldForce_succ]
    push_cast
    rw [hT] at he ⊢
    constructor <;> nlinarith [he.1, he.2]

/-- Up to 299 additions of `TIMESTEP` the force is below 5. -/
theorem heldForce_lt (h : ℕ) (hh : h ≤ 299) : heldForce h < 5 := by
  obtain ⟨_, h2⟩ := heldForce_bounds h (by omega)
  have hcast : (h : ℚ) ≤ 299 := by exact_mod_cast hh
  rw [TIMESTEP_f32_eq] at h2
  nlinarith

/-- The force after 1 to 6 additions of `TIMESTEP`. -/
theorem heldForce_values :
    heldForce 1 = 8947849 / 536870912 ∧ heldForce 2 = 8947849 / 268435456 ∧
    heldForce 3 = 6710887 / 134217728 ∧ heldForce 4 = 8947849 / 134217728 ∧
    heldForce 5 = 11184811 / 134217728 ∧ heldForce 6 = 13421773 / 134217728 := by
  have hT := TIMESTEP_f32_eq
  have h1 : heldForce 1 = 8947849 / 536870912 := by
    rw [heldForce_succ, heldForce_zero, hT]
    exact f32Round_val _ _ (-6) 8947849 (by norm_num) (by norm_num) (by norm_num) (by norm_num)
      (by norm_num) (by norm_num)
  have h2 : heldForce 2 = 8947849 / 268435456 := by
    rw [heldForce_succ, h1, hT]
    exact f32Round_val _ _ (-5) 8947849 (by norm_num) (by norm_num) (by norm_num) (by norm_num)
      (by norm_num) (by norm_num)
  have h3 : heldForce 3 = 6710887 / 134217728 := by
    rw [heldForce_succ, h2, hT]
    exact f32Round_tie_val _ _ (-5) 13421773 (by norm_num) (by norm_num) (by norm_num)
      (by norm_num) (by norm_num)
  have h4 : heldForce 4 = 8947849 / 134217728 := by
    rw [heldForce_succ, h3, hT]
    exact f32Round_val _ _ (-4) 8947849 (by norm_num) (by norm_num) (by norm_num) (by norm_num)
      (by norm_num) (by norm_num)
  have h5 : heldForce 5 = 11184811 / 134217728 := by
    rw [heldForce_succ, h4, hT]
    exact f32Round_val _ _ (-4) 11184811 (by norm_num) (by norm_num) (by norm_num) (by norm_num)
      (by norm_num) (by norm_num)
  have h6 : heldForce 6 = 13421773 / 134217728 := by
    rw [heldForce_succ, h5, hT]
    exact f32Round_val _ _ (-4) 13421773 (by norm_num) (by norm_num) (by norm_num) (by norm_num)
      (by norm_num) (by norm_num)
  exact ⟨h1, h2, h3, h4, h5, h6⟩

/-- Within a binade the force grows by the same multiple `m` of the spacing on every tick:
from `heldForce h0 = n0 * 2 ^ (e - 23)`, with `m` the integer nearest to
`TIMESTEP_f32 / 2 ^ (e - 23)`, as long as the sums stay in `[2 ^ e, 2 ^ (e + 1))`. -/
theorem heldForce_run (e n0 m : ℤ) (h0 : ℕ) (he : -126 ≤ e) (hm0 : 0 ≤ m)
    (h0eq : heldForce h0 = (n0 : ℚ) * (2 : ℚ) ^ (e - 23))
    (hm1 : (m : ℚ) - 1 / 2 < TIMESTEP_f32 / (2 : ℚ) ^ (e - 23))
    (hm2 : TIMESTEP_f32 / (2 : ℚ) ^ (e - 23) < (m : ℚ) + 1 / 2)
    (hlo : (2 : ℚ) ^ e ≤ (n0 : ℚ) * (2 : ℚ) ^ (e - 23) + TIMESTEP_f32) :
    ∀ j : ℕ,
      ((n0 : ℚ) + (j : ℚ) * (m : ℚ)) * (2 : ℚ) ^ (e - 23) + TIMESTEP_f32 < (2 : ℚ) ^ (e + 1) →
      heldForce (h0 + j + 1) = ((n0 : ℚ) + ((j : ℚ) + 1) * (m : ℚ)) * (2 : ℚ) ^ (e - 23) := by
  have hu : (0 : ℚ) < (2 : ℚ) ^ (e - 23) := zpow_pos (by norm_num) _
  have hmq : (0 : ℚ) ≤ (m : ℚ) := by exact_mod_cast hm0
  have hstep : ∀ (k : ℕ) (f : ℚ), f = ((n0 : ℚ) + (k : ℚ) * (m : ℚ)) * (2 : ℚ) ^ (e - 23) →
      f + TIMESTEP_f32 < (2 : ℚ) ^ (e + 1) →
      f32Round (f + TIMESTEP_f32) =
        ((n0 : ℚ) + ((k : ℚ) + 1) * (m : ℚ)) * (2 : ℚ) ^ (e - 23) := by
    intro k f hf hlt
    have hk : (0 : ℚ) ≤ (k : ℚ) := Nat.cast_nonneg k
    have hge : (2 : ℚ) ^ e ≤ f + TIMESTEP_f32 := by
      rw [hf]
      have : (0 : ℚ) ≤ (k : ℚ) * (m : ℚ) * (2 : ℚ) ^ (e - 23) :=
        mul_nonneg (mul_nonneg hk hmq) hu.le
      linarith
    have hdiv : (f + TIMESTEP_f32) / (2 : ℚ) ^ (e - 23) =
        (n0 : ℚ) + (k : ℚ) * (m : ℚ) + TIMESTEP_f32 / (2 : ℚ) ^ (e - 23) := by
      rw [hf]
      field_simp
    have h := f32Round_eq (f + TIMESTEP_f32) e (n0 + ((k : ℤ) + 1) * m) he hge hlt
      (by rw [hdiv]; push_cast; linarith) (by rw [hdiv]; push_cast; linarith)
    rw [h]
    push_cast
    ring
  intro j
  induction j with
  | zero =>
    intro hlt
    rw [Nat.add_zero, heldForce_succ]
    have := hstep 0 (heldForce h0) (by rw [h0eq]; push_cast; ring) (by
      rw [h0eq]
      have := hlt
      push_cast at this
      linarith)
    rw [this]
  | succ j ih =>
    intro hlt
    have hj : (0 : ℚ) ≤ (j : ℚ) := Nat.cast_nonneg j
    have hlt2 : ((n0 : ℚ) + (j : ℚ) * (m : ℚ)) * (2 : ℚ) ^ (e - 23) + TIMESTEP_f32 <
        (2 : ℚ) ^ (e + 1) := by
      push_cast at hlt
      have : (0 : ℚ) ≤ (m : ℚ) * (2 : ℚ) ^ (e - 23) := mul_nonneg hmq hu.le
      nlinarith
    have h1 := ih hlt2
    have he2 : h0 + (j + 1) + 1 = (h0 + j + 1) + 1 := by omega
    rw [he2, heldForce_succ]
    have := hstep (j + 1) (heldForce (h0 + j + 1)) (by rw [h1]; push_cast; ring) (by
      rw [h1]
      push_cast at hlt
      linarith)
    rw [this]

/-- The force after 300 additions of `TIMESTEP` is `10485781 / 2097152 = 5.00001...`: the
values at the ticks on which the force enters a new binade, each reached from the one before
by `heldForce_run`. -/
theorem heldForce_300 : heldForce 300 = 10485781 / 2097152 := by
  have hT := TIMESTEP_f32_eq
  obtain ⟨_, _, _, h4, _, _⟩ := heldForce_values
  have h7 : heldForce 7 = 15658735 / 134217728 := by
    have h := heldForce_run (-4) 8947849 2236962 4 (by norm_num) (by norm_num)
      (by rw [h4]; norm_num) (by rw [hT]; norm_num) (by rw [hT]; norm_num)
      (by rw [hT]; norm_num) 2 (by rw [hT]; norm_num)
    rw [show (7 : ℕ) = 4 + 2 + 1 from rfl, h]
    norm_num
  have h8 : heldForce 8 = 8947849 / 67108864 := by
    rw [heldForce_succ, h7, hT]
    exact f32Round_val _ _ (-3) 8947849 (by norm_num) (by norm_num) (by norm_num) (by norm_num)
      (by norm_num) (by norm_num)
  have h14 : heldForce 14 = 15658735 / 67108864 := by
    have h := heldForce_run (-3) 8947849 1118481 8 (by norm_num) (by norm_num)
      (by rw [h8]; norm_num) (by rw [hT]; norm_num) (by rw [hT]; norm_num)
      (by rw [hT]; norm_num) 5 (by rw [hT]; norm_num)
    rw [show (14 : ℕ) = 8 + 5 + 1 from rfl, h]
    norm_num
  have h15 : heldForce 15 = 1 / 4 := by
    rw [heldForce_succ, h14, hT]
    exact f32Round_val _ _ (-2) 8388608 (by norm_num) (by norm_num) (by norm_num) (by norm_num)
      (by norm_num) (by norm_num)
  have h29 : heldForce 29 = 8108991 / 16777216 := by
    have h := heldForce_run (-2) 8388608 559241 15 (by norm_num) (by norm_num)
      (by rw [h15]; norm_num) (by rw [hT]; norm_num) (by rw [hT]; norm_num)
      (by rw [hT]; norm_num) 13 (by rw [hT]; norm_num)
    rw [show (29 : ℕ) = 15 + 13 + 1 from rfl, h]
    norm_num
  have h30 : heldForce 30 = 8388611 / 16777216 := by
    rw [heldForce_succ, h29, hT]
    exact f32Round_val _ _ (-1) 8388611 (by norm_num) (by norm_num) (by norm_num) (by norm_num)
      (by norm_num) (by norm_num)
  have h60 : heldForce 60 = 16777211 / 16777216 := by
    have h := heldForce_run (-1) 8388611 279620 30 (by norm_num) (by norm_num)
      (by rw [h30]; norm_num) (by rw [hT]; norm_num) (by rw [hT]; norm_num)
      (by rw [hT]; norm_num) 29 (by rw [hT]; norm_num)
    rw [show (60 : ℕ) = 30 + 29 + 1 from rfl, h]
    norm_num
  have h61 : heldForce 61 = 266513 / 262144 := by
    rw [heldForce_succ, h60, hT]
    exact f32Round_val _ _ (0) 8528416 (by norm_num) (by norm_num) (by norm_num) (by norm_num)
      (by norm_num) (by norm_num)
  have h120 : heldForce 120 = 8388603 / 4194304 := by
    have h := heldForce_run (0) 8528416 139810 61 (by norm_num) (by norm_num)
      (by rw [h61]; norm_num) (by rw [hT]; norm_num) (by rw [hT]; norm_num)
      (by rw [hT]; norm_num) 58 (by rw [hT]; norm_num)
    rw [show (120 : ℕ) = 61 + 58 + 1 from rfl, h]
    norm_num
  have h121 : heldForce 121 = 2114627 / 1048576 := by
    rw [heldForce_succ, h120, hT]
    exact f32Round_val _ _ (1) 8458508 (by norm_num) (by norm_num) (by norm_num) (by norm_num)
      (by norm_num) (by norm_num)
  have h240 : heldForce 240 = 16777203 / 4194304 := by
    have h := heldForce_run (1) 8458508 69905 121 (by norm_num) (by norm_num)
      (by rw [h121]; norm_num) (by rw [hT]; norm_num) (by rw [hT]; norm_num)
      (by rw [hT]; norm_num) 118 (by rw [hT]; norm_num)
    rw [show (240 : ℕ) = 121 + 118 + 1 from rfl, h]
    norm_num
  have h241 : heldForce 241 = 4211777 / 1048576 := by
    rw [heldForce_succ, h240, hT]
    exact f32Round_val _ _ (2) 8423554 (by norm_num) (by norm_num) (by norm_num) (by norm_num)
      (by norm_num) (by norm_num)
  have h300 : heldForce 300 = 10485781 / 2097152 := by
    have h := heldForce_run (2) 8423554 34953 241 (by norm_num) (by norm_num)
      (by rw [h241]; norm_num) (by rw [hT]; norm_num) (by rw [hT]; norm_num)
      (by rw [hT]; norm_num) 58 (by rw [hT]; norm_num)
    rw [show (300 : ℕ) = 241 + 58 + 1 from rfl, h]
    norm_num
  exact h300

/-- From 300 additions of `TIMESTEP` on the force is at least 5. -/
theorem heldForce_ge (h : ℕ) (hh : 300 ≤ h) : 5 ≤ heldForce h := by
  have h5 : f32Round 5 = 5 :=
    f32Round_val _ _ 2 10485760 (by norm_num) (by norm_num) (by norm_num) (by norm_num)
      (by norm_num) (by norm_num)
  induction h, hh using Nat.le_induction with
  | base =>
    rw [heldForce_300]
    norm_num
  | succ n _ ih =>
    rw [heldForce_succ, ← h5]
    apply f32Round_mono
    have := TIMESTEP_f32_pos
    linarith

/-- After a press at `p0`, with both coordinates non-zero, and a run of held ticks, the
locals hold `p0`, the last pointer position and the force of one addition per tick. -/
theorem slingTicksF32_holds (p0 : Vector2) (hx : p0.x ≠ 0) (hy : p0.y ≠ 0) (ms : List Vector2) :
    ∀ (c : Vector2) (h : ℕ),
      slingTicksF32 ⟨p0, c, heldForce h⟩ (ms.map holdSample) =
        ⟨p0, (ms.getLast?).getD c, heldForce (h + ms.length)⟩ := by
  induction ms with
  | nil =>
    intro c h
    simp [slingTicksF32]
  | cons m ms ih =>
    intro c h
    have hstep : slingTicksF32 ⟨p0, c, heldForce h⟩ ((m :: ms).map holdSample) =
        slingTicksF32 ⟨p0, m, heldForce (h + 1)⟩ (ms.map holdSample) := by
      unfold slingTicksF32
      rw [List.map_cons, List.foldl_cons, slingBlockF32_hold m ⟨p0, c, heldForce h⟩ ⟨0, 0⟩ hx hy,
        heldForce_succ]
    rw [hstep, ih m (h + 1)]
    congr 1
    · cases ms with
      | nil => rfl
      | cons m2 ms2 =>
        rw [List.getLast?_cons_cons, List.getLast?_eq_getLast _ (List.cons_ne_nil m2 ms2)]
        rfl
    · congr 1
      rw [List.length_cons]
      omega

theorem slingTicksF32_press (l : SlingLocals) (p0 : Vector2) (hx : p0.x ≠ 0) (hy : p0.y ≠ 0)
    (ms : List Vector2) :
    slingTicksF32 l (pressSample p0 :: ms.map holdSample) =
      ⟨p0, (ms.getLast?).getD p0, heldForce (1 + ms.length)⟩ := by
  have hstep : slingTicksF32 l (pressSample p0 :: ms.map holdSample) =
      slingTicksF32 ⟨p0, p0, heldForce 1⟩ (ms.map holdSample) := by
    unfold slingTicksF32
    rw [List.foldl_cons, slingBlockF32_press p0 l ⟨0, 0⟩ hx hy]
  rw [hstep, slingTicksF32_holds p0 hx hy ms p0 1]

/-- C9 fails as stated, also when the locals keep their content between the ticks, as the
claim takes for granted. After a press at (100, 100) and a drag to (90, 100), a release after
5 grounded ticks with the button down adds `(6990507 / 4194304, 0) = (1.66666675..., 0)` and
a release after 6 such ticks adds `(2, 0)`: two holds of at least 5 ticks with different
forces, and neither is `-(drag) * clamp(h, 0, 5) * 2 = (100, 0)`. The force counts seconds:
it is `11184811 / 134217728 = 0.0833...` after 5 ticks. -/
theorem C9_counterexample :
    (∀ l0 : SlingLocals,
      slingReleaseF32 (slingTicksF32 l0
        (pressSample ⟨100, 100⟩ :: (List.replicate 4 (⟨90, 100⟩ : Vector2)).map holdSample)) =
        ⟨6990507 / 4194304, 0⟩) ∧
    (∀ l0 : SlingLocals,
      slingReleaseF32 (slingTicksF32 l0
        (pressSample ⟨100, 100⟩ :: (List.replicate 5 (⟨90, 100⟩ : Vector2)).map holdSample)) =
        ⟨2, 0⟩) ∧
    (∀ l0 : SlingLocals,
      (slingTicksF32 l0
        (pressSample ⟨100, 100⟩ :: (List.replicate 4 (⟨90, 100⟩ : Vector2)).map holdSample)).force =
        11184811 / 134217728) ∧
    Vector2Scale (Vector2Negate (Vector2Subtract ⟨90, 100⟩ ⟨100, 100⟩)) (Clamp 5 0 5 * 2)
      = ⟨100, 0⟩ := by
  obtain ⟨_, _, _, _, h5, h6⟩ := heldForce_values
  have hsub : f32Round (-10 : ℚ) = -10 := by
    rw [f32Round_neg]
    congr 1
    exact f32Round_val _ _ 3 10485760 (by norm_num) (by norm_num) (by norm_num) (by norm_num)
      (by norm_num) (by norm_num)
  have hc5 : Clamp (11184811 / 134217728) 0 5 = 11184811 / 134217728 :=
    Clamp_of_mem _ _ _ (by norm_num) (by norm_num)
  have hc6 : Clamp (13421773 / 134217728) 0 5 = 13421773 / 134217728 :=
    Clamp_of_mem _ _ _ (by norm_num) (by norm_num)
  have hd5 : f32Round ((11184811 : ℚ) / 67108864) = 11184811 / 67108864 :=
    f32Round_val _ _ (-3) 11184811 (by norm_num) (by norm_num) (by norm_num) (by norm_num)
      (by norm_num) (by norm_num)
  have hd6 : f32Round ((13421773 : ℚ) / 67108864) = 13421773 / 67108864 :=
    f32Round_val _ _ (-3) 13421773 (by norm_num) (by norm_num) (by norm_num) (by norm_num)
      (by norm_num) (by norm_num)
  have hr5 : f32Round ((55924055 : ℚ) / 33554432) = 6990507 / 4194304 :=
    f32Round_val _ _ 0 13981014 (by norm_num) (by norm_num) (by norm_num) (by norm_num)
      (by norm_num) (by norm_num)
  have hr6 : f32Round ((67108865 : ℚ) / 33554432) = 2 :=
    f32Round_val _ _ 1 8388608 (by norm_num) (by norm_num) (by norm_num) (by norm_num)
      (by norm_num) (by norm_num)
  refine ⟨?_, ?_, ?_, ?_⟩
  · intro l0
    rw [slingTicksF32_press l0 ⟨100, 100⟩ (by norm_num) (by norm_num)]
    simp only [List.length_replicate, List.getLast?_replicate, slingReleaseF32,
      Vector2ScaleF32, Vector2Negate, Vector2SubtractF32]
    norm_num [h5, hc5, hd5, hsub, hr5, f32Round_zero]
  · intro l0
    rw [slingTicksF32_press l0 ⟨100, 100⟩ (by norm_num) (by norm_num)]
    simp only [List.length_replicate, List.getLast?_replicate, slingReleaseF32,
      Vector2ScaleF32, Vector2Negate, Vector2SubtractF32]
    norm_num [h6, hc6, hd6, hsub, hr6, f32Round_zero]
  · intro l0
    rw [slingTicksF32_press l0 ⟨100, 100⟩ (by norm_num) (by norm_num)]
    simp only [List.length_replicate]
    exact h5
  · norm_num [Vector2Scale, Vector2Negate, Vector2Subtract, Clamp]

/-- C9, as the code has it, for every content `l` of the block locals when the block is
entered. The release tick adds `-(currentMousePos - initialMousePos) * (Clamp(force, 0, 5) *
2)`, computed in binary32 from the locals, to the forces and ignores the pointer position of
the release: the vector is zero when `force ≤ 0` and `-(currentMousePos - initialMousePos) *
10` when `force ≥ 5`. A press at `m` stores `m` and resets `force`; when both coordinates of
`m` are non-zero the same tick stores `m` as the current position and adds `TIMESTEP`,
otherwise `force` stays 0. A held tick stores the pointer position and adds `TIMESTEP` to
`force` when both coordinates of `initialMousePos` are non-zero, and changes nothing
otherwise; entered with the force of `h` additions it leaves the force of `h + 1`. The force
counts seconds, not ticks: after `h` additions it is below 5 for `h ≤ 299` and at least 5 for
`h ≥ 300`. -/
theorem C9_sling_release (l : SlingLocals) (playerForces m r : Vector2) (h : ℕ) :
    slingBlockF32 (releaseSample r) l playerForces =
      (l, Vector2AddF32 playerForces (slingReleaseF32 l)) ∧
    (l.force ≤ 0 → slingReleaseF32 l = ⟨0, 0⟩) ∧
    (5 ≤ l.force →
      slingReleaseF32 l =
        Vector2ScaleF32 (Vector2Negate (Vector2SubtractF32 l.currentMousePos l.initialMousePos))
          10) ∧
    (m.x ≠ 0 ∧ m.y ≠ 0 →
      slingBlockF32 (pressSample m) l playerForces = (⟨m, m, heldForce 1⟩, playerForces)) ∧
    (m.x = 0 ∨ m.y = 0 →
      slingBlockF32 (pressSample m) l playerForces =
        (⟨m, l.currentMousePos, 0⟩, playerForces)) ∧
    (l.initialMousePos.x ≠ 0 ∧ l.initialMousePos.y ≠ 0 → l.force = heldForce h →
      slingBlockF32 (holdSample m) l playerForces =
        (⟨l.initialMousePos, m, heldForce (h + 1)⟩, playerForces)) ∧
    (l.initialMousePos.x = 0 ∨ l.initialMousePos.y = 0 →
      slingBlockF32 (holdSample m) l playerForces = (l, playerForces)) ∧
    heldForce 0 = 0 ∧
    heldForce (h + 1) = f32Round (heldForce h + TIMESTEP_f32) ∧
    (h ≤ 299 → heldForce h < 5) ∧
    (300 ≤ h → 5 ≤ heldForce h) := by
  refine ⟨slingBlockF32_release r l playerForces, slingReleaseF32_of_nonpos l,
    slingReleaseF32_of_ge l, fun hm => slingBlockF32_press m l playerForces hm.1 hm.2,
    slingBlockF32_press_zero m l playerForces, ?_, slingBlockF32_hold_zero m l playerForces,
    heldForce_zero, heldForce_succ h, heldForce_lt h, heldForce_ge h⟩
  intro hi hf
  rw [slingBlockF32_hold m l playerForces hi.1 hi.2, hf, heldForce_succ]

/-- A release tick entered with the press position (100, 100), the current position
(90, 100) and a force of 6: the force added is (100, 0). -/
theorem C9_sling_release_witness :
    (5 : ℚ) ≤ (⟨⟨100, 100⟩, ⟨90, 100⟩, 6⟩ : SlingLocals).force ∧
    slingReleaseF32 ⟨⟨100, 100⟩, ⟨90, 100⟩, 6⟩ = ⟨100, 0⟩ := by
  have h6 : (5 : ℚ) ≤ (⟨⟨100, 100⟩, ⟨90, 100⟩, 6⟩ : SlingLocals).force := by norm_num
  have h := (C9_sling_release ⟨⟨100, 100⟩, ⟨90, 100⟩, 6⟩ ⟨0, 0⟩ ⟨90, 100⟩ ⟨80, 100⟩ 0).2.2.1 h6
  have hsub : f32Round (-10 : ℚ) = -10 := by
    rw [f32Round_neg]
    congr 1
    exact f32Round_val _ _ 3 10485760 (by norm_num) (by norm_num) (by norm_num) (by norm_num)
      (by norm_num) (by norm_num)
  have h100 : f32Round (100 : ℚ) = 100 :=
    f32Round_val _ _ 6 13107200 (by norm_num) (by norm_num) (by norm_num) (by norm_num)
      (by norm_num) (by norm_num)
  refine ⟨h6, ?_⟩
  rw [h]
  simp only [Vector2ScaleF32, Vector2Negate, Vector2SubtractF32]
  norm_num [hsub, h100, f32Round_zero]

end Siopao
